import Mathlib

/-!
# oipf-object-polyfill: the mixin / unmix machinery of `src/main.js`

A shallow embedding of the script's module state (`MIMETYPE_HANDLERS`,
`CURRENT_MIXIN_MIMETYPE`, `MONITORING`, `window.oipfObjectFactory`) and of the
functions that act on it, followed by theorems about them.

Conventions of the embedding.

* A DOM node is a natural number (its identity).
* A caller-supplied JavaScript function is a `Fn`: an identity and whether a call
  of it raises.  What a handler does to the element it is given is outside
  the script, so a call has no effect on the script's state or on the `type`
  attribute; every call is logged in `State.calls`.
* An exception does not roll anything back: every function returns the state it
  left together with the exception in flight, if any (`Outcome`).
* `String.prototype.toLowerCase` is a host builtin; the definitions take it as the
  argument `toLowerCase`, and `asciiLower` is one instance.
* `MIMETYPE_HANDLERS` is a plain object, so a property read goes through its
  prototype chain (`Handlers.get`) and the key of an absent `WeakMap` entry is the
  string `"undefined"` (`propertyKey`).
* `window.oipfObjectFactory` is a plain object as well: `assignSlot` is the
  assignment to one of its properties and `State.slot` the read through its
  prototype chain.
* A mutation record lists in `addedNodes` the root of an inserted subtree; the
  descendants that came with it are kept beside it (`AddedNode.inside`).
* The top-level statements of the script are the function `load` on an
  `Environment`, which says which globals the host declares.
* What the page and the host can do with the loaded script is an `Event`; the
  states reached from `State.loaded` are those of `runEvents`.
-/

set_option autoImplicit false

namespace OipfPolyfill

/-- Identity of a DOM node. -/
abbrev Node := Nat

/-- A caller-supplied function: its identity and whether calling it raises. -/
structure Fn where
  id : Nat
  raises : Bool
  deriving DecidableEq, Repr

/-- The object literal `{ "mixin": mixinFunc, "unmix": unmixFunc }`. -/
structure Handler where
  mixin : Fn
  unmix : Fn
  deriving DecidableEq, Repr

/-- The two members of a handler object. -/
inductive Member where
  | mixin
  | unmix
  deriving DecidableEq, Repr

/-- The function stored in a member of a handler object. -/
def Member.select : Member → Handler → Fn
  | .mixin, h => h.mixin
  | .unmix, h => h.unmix

/-- One logged call `handler.member(elem)`, with the property key under which the
handler object was read from `MIMETYPE_HANDLERS`. -/
structure Call where
  member : Member
  key : String
  handler : Handler
  elem : Node
  deriving DecidableEq, Repr

/-- The function a logged call invoked. -/
def Call.fn (c : Call) : Fn := c.member.select c.handler

/-- An exception in flight. -/
inductive Thrown where
  | raised (f : Fn)
  | typeError
  | domException
  deriving DecidableEq, Repr

/-- What a property read `MIMETYPE_HANDLERS[key]` yields: `undefined`, a handler
object, or some other (truthy) value that has no `mixin` and no `unmix` member:
`Object`, `Object.prototype`, or a function reached through the prototype. -/
inductive Value where
  | undefined
  | handler (h : Handler)
  | foreign
  deriving DecidableEq, Repr

/-- The object `MIMETYPE_HANDLERS`: its own properties, last written first, and the
handler object that an assignment to `"__proto__"` installed as its prototype
(`none`: the prototype is still `Object.prototype`). -/
structure Handlers where
  own : List (String × Handler)
  proto : Option Handler
  deriving DecidableEq, Repr

/-- The value `var MIMETYPE_HANDLERS = {}`. -/
def Handlers.empty : Handlers := ⟨[], none⟩

/-- Property key of `MIMETYPE_HANDLERS[k]` when `k` is a string or `undefined`. -/
def propertyKey : Option String → String
  | none => "undefined"
  | some k => k

/-- The property read `MIMETYPE_HANDLERS[key]`. The script only reads keys that are
lower-cased or `"undefined"`; of the members inherited from `Object.prototype`
only `constructor` and `__proto__` have such a name, and once a handler object is
the prototype so have its members `mixin` and `unmix`. -/
def Handlers.get (r : Handlers) (key : String) : Value :=
  if key = "__proto__" then
    match r.proto with
    | some h => .handler h
    | none => .foreign
  else
    match r.own.lookup key with
    | some h => .handler h
    | none =>
      match r.proto with
      | some _ =>
        if key = "mixin" ∨ key = "unmix" ∨ key = "constructor" then .foreign else .undefined
      | none => if key = "constructor" then .foreign else .undefined

/-- The assignment `MIMETYPE_HANDLERS[key] = h`: a new own property, or a new
value of the one there is. -/
def Handlers.set (r : Handlers) (key : String) (h : Handler) : Handlers :=
  if key = "__proto__" then { r with proto := some h }
  else { r with own := (key, h) :: r.own.filter (fun p => p.1 ≠ key) }

/-- The pair last registered under a key, if there is one. -/
def Handlers.registered (r : Handlers) (key : String) : Option Handler :=
  if key = "__proto__" then r.proto else r.own.lookup key

/-- What a read of a key yields when it resolves to the registered pair and to
nothing else. -/
def Value.ofRegistered : Option Handler → Value
  | none => .undefined
  | some h => .handler h

/-- A function installed in `window.oipfObjectFactory`. -/
inductive Factory where
  | create (mimeType : String)
  | supplied (f : Fn)
  deriving DecidableEq, Repr

/-- The part of the host document the script reads and writes. -/
structure Document where
  typeAttr : List (Node × String)
  objects : List Node
  nextNode : Node
  deriving DecidableEq, Repr

/-- Module state of `main.js`, the document, the log of handler calls and the log
of calls of the functions supplied to `registerNonVisualObject`. The field
`oipfObjectFactory` holds what the registrations assigned to the plain object
`window.oipfObjectFactory`, by name and last first (`assignSlot`); a property of
the object is read with `State.slot`. -/
structure State where
  MIMETYPE_HANDLERS : Handlers
  CURRENT_MIXIN_MIMETYPE : List (Node × String)
  MONITORING : List Node
  observed : List Node
  oipfObjectFactory : List (String × Factory)
  document : Document
  calls : List Call
  factoryCalls : List Fn
  deriving DecidableEq, Repr

/-- A state and the exception in flight, if any. -/
abbrev Outcome := State × Option Thrown

/-- The own properties `length` and `name` that every function has; they cannot be
written. -/
def readOnlyFunctionMembers : List String := ["length", "name"]

/-- The assignment `window.oipfObjectFactory[methodName] = f` on the plain object
`window.oipfObjectFactory`. The list holds what was assigned, by name, last first.
The entry under `"__proto__"` is not an own property: the assignment makes the
function the prototype of the object (see `State.slot` for what is then read).
Once a function is the prototype, the object inherits `length` and `name` from it
as read-only, and an assignment to such a name is ignored (the script is not in
strict mode) unless the object has an own property of that name already. -/
def assignSlot (slots : List (String × Factory)) (methodName : String) (f : Factory) :
    List (String × Factory) :=
  if methodName ∈ readOnlyFunctionMembers ∧ (slots.lookup "__proto__").isSome ∧
      (slots.lookup methodName).isNone then slots
  else (methodName, f) :: slots

/-- The state right after the script has loaded into a document. -/
def State.loaded (d : Document) : State :=
  { MIMETYPE_HANDLERS := Handlers.empty
    CURRENT_MIXIN_MIMETYPE := []
    MONITORING := []
    observed := []
    oipfObjectFactory := []
    document := d
    calls := []
    factoryCalls := [] }

/-- The getter `elem.type` of an object element (`HTMLObjectElement`): the `type`
attribute, `""` when absent. The nodes of the model are object elements. -/
def State.typeOf (s : State) (elem : Node) : String :=
  (s.document.typeAttr.lookup elem).getD ""

/-- The result of `CURRENT_MIXIN_MIMETYPE.get(elem)`: `none` is `undefined`. -/
def State.lastLabel (s : State) (elem : Node) : Option String :=
  s.CURRENT_MIXIN_MIMETYPE.lookup elem

/-- The call `CURRENT_MIXIN_MIMETYPE.set(elem, label)`: one entry a node. -/
def recordLabel (m : List (Node × String)) (elem : Node) (label : String) :
    List (Node × String) :=
  (elem, label) :: m.filter (fun p => p.1 ≠ elem)

/-- The assignment `elem.type = value`. -/
def State.setType (s : State) (elem : Node) (value : String) : State :=
  { s with document := { s.document with typeAttr := (elem, value) :: s.document.typeAttr } }

/-- Calling a caller-supplied function. -/
def Fn.call (f : Fn) : Option Thrown :=
  if f.raises then some (.raised f) else none

/-- The statement `if (v) { v.member(elem); }` for a value `v` read under `key`. -/
def invoke (s : State) (key : String) (v : Value) (m : Member) (elem : Node) : Outcome :=
  match v with
  | .undefined => (s, none)
  | .foreign => (s, some .typeError)
  | .handler h => ({ s with calls := s.calls ++ [⟨m, key, h, elem⟩] }, (m.select h).call)

section Script

variable (toLowerCase : String → String)

/-- The function `modifyObjectIfNeeded` of `main.js`. -/
def modifyObjectIfNeeded (s : State) (elem : Node) : Outcome :=
  let currentMixinMimetype := s.lastLabel elem
  let newMimetype := toLowerCase (s.typeOf elem)
  if currentMixinMimetype ≠ some newMimetype then
    let currentHandler := s.MIMETYPE_HANDLERS.get (propertyKey currentMixinMimetype)
    match invoke s (propertyKey currentMixinMimetype) currentHandler .unmix elem with
    | (s1, some e) => (s1, some e)
    | (s1, none) =>
      let s2 := { s1 with
        CURRENT_MIXIN_MIMETYPE := recordLabel s1.CURRENT_MIXIN_MIMETYPE elem newMimetype }
      let newHandler := s2.MIMETYPE_HANDLERS.get newMimetype
      invoke s2 newMimetype newHandler .mixin elem
  else (s, none)

/-- The function `setupMonitorOnObject` of `main.js`; `observed` logs the targets
handed to `objectObserver.observe`. -/
def setupMonitorOnObject (s : State) (elem : Node) : Outcome :=
  if elem ∈ s.MONITORING then (s, none)
  else
    let s1 := { s with MONITORING := elem :: s.MONITORING }
    let s2 := { s1 with observed := s1.observed ++ [elem] }
    modifyObjectIfNeeded toLowerCase s2 elem

/-- The loop of `scanForAndModifyObjects` over a list of elements; an exception
ends it. -/
def scanLoop : List Node → State → Outcome
  | [], s => (s, none)
  | e :: es, s =>
    match setupMonitorOnObject toLowerCase s e with
    | (s1, some x) => (s1, some x)
    | (s1, none) => scanLoop es s1

/-- The function `scanForAndModifyObjects` of `main.js`. -/
def scanForAndModifyObjects (s : State) : Outcome :=
  scanLoop toLowerCase s.document.objects s

/-- The function `registerNonFactoryObject` of `main.js`. -/
def registerNonFactoryObject (s : State) (mimeType : String) (mixinFunc unmixFunc : Fn) :
    Outcome :=
  let s1 := { s with MIMETYPE_HANDLERS :=
    s.MIMETYPE_HANDLERS.set (toLowerCase mimeType) ⟨mixinFunc, unmixFunc⟩ }
  scanForAndModifyObjects toLowerCase s1

/-- The function `registerOipfObject` of `main.js`. -/
def registerOipfObject (s : State) (mimeType methodName : String) (mixinFunc unmixFunc : Fn) :
    Outcome :=
  let s0 := { s with
    oipfObjectFactory := assignSlot s.oipfObjectFactory methodName (.create mimeType) }
  let s1 := { s0 with MIMETYPE_HANDLERS :=
    s0.MIMETYPE_HANDLERS.set (toLowerCase mimeType) ⟨mixinFunc, unmixFunc⟩ }
  scanForAndModifyObjects toLowerCase s1

/-- The function `registerNonVisualObject` of `main.js`. -/
def registerNonVisualObject (s : State) (methodName : String) (methodFunc : Fn) : State :=
  { s with
    oipfObjectFactory := assignSlot s.oipfObjectFactory methodName (.supplied methodFunc) }

/-- The call `existing_createElement.apply(document, ["object"])`: a new element,
outside the document, with no `type` attribute. -/
def existing_createElement (s : State) : Node × State :=
  (s.document.nextNode,
    { s with document := { s.document with nextNode := s.document.nextNode + 1 } })

/-- The wrapped `document.createElement("object")`, for which the test
`tagname.toLowerCase() == "object"` holds: the element, when no exception is in
flight. -/
def createObjectElement (s : State) : State × Except Thrown Node :=
  let (element, s1) := existing_createElement s
  match setupMonitorOnObject toLowerCase s1 element with
  | (s2, some x) => (s2, .error x)
  | (s2, none) => (s2, .ok element)

/-- The factory function that `registerOipfObject` installs for `mimeType`. -/
def createdFactory (s : State) (mimeType : String) : State × Except Thrown Node :=
  match createObjectElement toLowerCase s with
  | (s1, .error x) => (s1, .error x)
  | (s1, .ok newObject) =>
    let s2 := s1.setType newObject mimeType
    match modifyObjectIfNeeded toLowerCase s2 newObject with
    | (s3, some x) => (s3, .error x)
    | (s3, none) => (s3, .ok newObject)

/-- The callback of `objectObserver` on a batch of records, each an attribute name
and a target. -/
def objectObserver : List (String × Node) → State → Outcome
  | [], s => (s, none)
  | (attributeName, target) :: rest, s =>
    if attributeName = "type" then
      match modifyObjectIfNeeded toLowerCase s target with
      | (s1, some x) => (s1, some x)
      | (s1, none) => objectObserver rest s1
    else objectObserver rest s

end Script

/-- ASCII instance of the host's lower-casing. -/
def asciiLower (s : String) : String := String.mk (s.data.map Char.toLower)

/-! ## Calls of the factory functions -/

/-- What a call of a function of `window.oipfObjectFactory` returns: an element, or
whatever the supplied function returns. -/
inductive Returned where
  | element (node : Node)
  | resultOf (f : Fn)
  deriving DecidableEq, Repr

/-- A call of a function stored in `window.oipfObjectFactory`. -/
def Factory.call (toLowerCase : String → String) (s : State) :
    Factory → State × Except Thrown Returned
  | .create mimeType =>
    match createdFactory toLowerCase s mimeType with
    | (s1, .ok newObject) => (s1, .ok (.element newObject))
    | (s1, .error x) => (s1, .error x)
  | .supplied f =>
    match f.call with
    | some x => ({ s with factoryCalls := s.factoryCalls ++ [f] }, .error x)
    | none => ({ s with factoryCalls := s.factoryCalls ++ [f] }, .ok (.resultOf f))

/-- The call `window.oipfObjectFactory[methodName]()` for a slot the script
installed; `none` for a slot it did not install. -/
def callFactory (toLowerCase : String → String) (s : State) (methodName : String) :
    Option (State × Except Thrown Returned) :=
  (s.oipfObjectFactory.lookup methodName).map (Factory.call toLowerCase s)

/-- Where a member that `window.oipfObjectFactory` inherits comes from:
`Object.prototype`, or the function that was made its prototype (with
`Function.prototype` behind it). -/
inductive Origin where
  | objectPrototype
  | function
  deriving DecidableEq, Repr

/-- What a property read `window.oipfObjectFactory[name]` yields: nothing, a
function that a registration installed, the function `isObjectSupported` that the
script installs at load, or an inherited member. -/
inductive Slot where
  | undefined
  | factory (f : Factory)
  | isObjectSupported
  | inherited (origin : Origin)
  deriving DecidableEq, Repr

/-- Names of the members of `Object.prototype`. -/
def objectPrototypeMembers : List String :=
  ["constructor", "__proto__", "hasOwnProperty", "isPrototypeOf", "propertyIsEnumerable",
    "toLocaleString", "toString", "valueOf", "__defineGetter__", "__defineSetter__",
    "__lookupGetter__", "__lookupSetter__"]

/-- Names of the members that every function has, its own or from
`Function.prototype`. -/
def functionMembers : List String :=
  ["length", "name", "apply", "bind", "call", "constructor", "toString"]

/-- The property read `window.oipfObjectFactory[name]`: what a registration
assigned under the name (for `"__proto__"`, the prototype it installed), else the
function installed at load for `isObjectSupported`, else what the prototype
chain has under the name. -/
def State.slot (s : State) (name : String) : Slot :=
  match s.oipfObjectFactory.lookup name with
  | some f => .factory f
  | none =>
    if name = "isObjectSupported" then .isObjectSupported
    else
      match s.oipfObjectFactory.lookup "__proto__" with
      | some _ =>
        if name ∈ functionMembers then .inherited .function
        else if name ∈ objectPrototypeMembers then .inherited .objectPrototype
        else .undefined
      | none =>
        if name ∈ objectPrototypeMembers then .inherited .objectPrototype else .undefined

/-- The node that the next `createElement` returns is new: the script has no entry
for it and it has no `type` attribute. -/
def State.Fresh (s : State) : Prop :=
  s.lastLabel s.document.nextNode = none ∧ s.document.nextNode ∉ s.MONITORING ∧
    s.document.typeAttr.lookup s.document.nextNode = none

/-- The exception a completed call ended with, if it ended with one. -/
def thrownOf {α : Type} : Except Thrown α → Option Thrown
  | .ok _ => none
  | .error x => some x

/-- The value a completed call returned, if it returned. -/
def returnedOf {α : Type} : Except Thrown α → Option α
  | .ok a => some a
  | .error _ => none

/-- The conversion `Boolean(v)` of a value read from `MIMETYPE_HANDLERS`. -/
def Value.truthy : Value → Bool
  | .undefined => false
  | .handler _ => true
  | .foreign => true

/-- The function that the script installs as
`window.oipfObjectFactory.isObjectSupported`; `existing_isObjectSupported` is the
predicate found there at load time, `none` when there was none. -/
def isObjectSupported (toLowerCase : String → String)
    (existing_isObjectSupported : Option (String → Bool)) (s : State) (mimeType : String) :
    Bool :=
  let alreadySupported :=
    match existing_isObjectSupported with
    | some existing => existing mimeType
    | none => false
  if alreadySupported then true
  else (s.MIMETYPE_HANDLERS.get (toLowerCase mimeType)).truthy

/-- What a call `window.oipfObjectFactory.isObjectSupported(mimeType)` returns: the
boolean of the installed function, or what a factory registered under that name
returns. -/
inductive Answer where
  | bool (b : Bool)
  | returned (r : Returned)
  deriving DecidableEq, Repr

/-- The call `window.oipfObjectFactory.isObjectSupported(mimeType)`: the function
installed at load time, unless a registration has put a factory function (which
ignores its argument) in the slot of that name. -/
def callIsObjectSupported (toLowerCase : String → String)
    (existing_isObjectSupported : Option (String → Bool)) (s : State) (mimeType : String) :
    State × Except Thrown Answer :=
  match s.oipfObjectFactory.lookup "isObjectSupported" with
  | none => (s, .ok (.bool (isObjectSupported toLowerCase existing_isObjectSupported s mimeType)))
  | some f =>
    match f.call toLowerCase s with
    | (s1, .ok r) => (s1, .ok (.returned r))
    | (s1, .error x) => (s1, .error x)

/-- What the claim on `isObjectSupported` names as the answer: the predicate found
at load time reports true, or a pair is registered for the lower-cased label. -/
def supportedBySpec (toLowerCase : String → String)
    (existing_isObjectSupported : Option (String → Bool)) (s : State) (mimeType : String) :
    Bool :=
  (match existing_isObjectSupported with
    | some existing => existing mimeType
    | none => false) ||
    (s.MIMETYPE_HANDLERS.registered (toLowerCase mimeType)).isSome

/-- An argument passed to `document.createElement`: a string, or some other value,
which has no `toLowerCase` method and which the host converts to the string
`asString`. -/
inductive JSValue where
  | string (value : String)
  | nonString (asString : String)
  deriving DecidableEq, Repr

/-- The string that the host's `createElement` takes as the tag name. -/
def JSValue.toString : JSValue → String
  | .string value => value
  | .nonString asString => asString

/-- The call `existing_createElement.apply(this, arguments)`: the host's
`createElement`, which raises when it is given no argument or a name that is not
valid (`validName` is the host's test), and returns a new element, outside the
document and with no `type` attribute, otherwise. -/
def existing_createElement_apply (validName : String → Bool) (s : State)
    (arguments : List JSValue) : State × Except Thrown Node :=
  match arguments with
  | [] => (s, .error .typeError)
  | tagname :: _ =>
    if validName tagname.toString then
      ({ s with document := { s.document with nextNode := s.document.nextNode + 1 } },
        .ok s.document.nextNode)
    else (s, .error .domException)

/-- The function that the script installs as `document.createElement`. -/
def createElement (toLowerCase : String → String) (validName : String → Bool) (s : State)
    (arguments : List JSValue) : State × Except Thrown Node :=
  match existing_createElement_apply validName s arguments with
  | (s1, .error x) => (s1, .error x)
  | (s1, .ok element) =>
    match arguments.head? with
    | some (.string tagname) =>
      if toLowerCase tagname = "object" then
        match setupMonitorOnObject toLowerCase s1 element with
        | (s2, some x) => (s2, .error x)
        | (s2, none) => (s2, .ok element)
      else (s1, .ok element)
    | _ => (s1, .error .typeError)

/-! ## The observer of the document -/

/-- A node in the `addedNodes` list of a mutation record. `tagName` is `none` for a
node without the property, such as a text node. `inside` lists the descendants
that came into the tree with the node, each with its `tagName`: the host reports
the root of an inserted subtree in `addedNodes`, never its descendants. -/
structure AddedNode where
  node : Node
  tagName : Option String
  inside : List (Node × Option String)
  deriving DecidableEq, Repr

/-- A mutation record of the document observer, as far as its callback reads it. -/
structure MutationRecord where
  addedNodes : List AddedNode
  deriving DecidableEq, Repr

/-- The test `node.tagName && node.tagName.toLowerCase() == "object"`. -/
def isObjectTag (toLowerCase : String → String) (tagName : Option String) : Bool :=
  match tagName with
  | none => false
  | some t => t != "" && toLowerCase t == "object"

/-- The inner loop of the callback of `documentObserver`, over the `addedNodes` of
one record; an exception ends it. -/
def addedNodesLoop (toLowerCase : String → String) : List AddedNode → State → Outcome
  | [], s => (s, none)
  | n :: rest, s =>
    if isObjectTag toLowerCase n.tagName then
      match setupMonitorOnObject toLowerCase s n.node with
      | (s1, some x) => (s1, some x)
      | (s1, none) => addedNodesLoop toLowerCase rest s1
    else addedNodesLoop toLowerCase rest s

/-- The callback of `documentObserver` of `main.js` on a batch of mutation
records. -/
def documentObserver (toLowerCase : String → String) : List MutationRecord → State → Outcome
  | [], s => (s, none)
  | r :: rest, s =>
    match addedNodesLoop toLowerCase r.addedNodes s with
    | (s1, some x) => (s1, some x)
    | (s1, none) => documentObserver toLowerCase rest s1

/-- The object elements among the nodes listed in `addedNodes` by a batch. -/
def listedObjects (toLowerCase : String → String) : List MutationRecord → List Node
  | [] => []
  | r :: rest =>
    ((r.addedNodes.filter (fun n => isObjectTag toLowerCase n.tagName)).map AddedNode.node) ++
      listedObjects toLowerCase rest

/-- The object elements that came into the tree with one added node: the node
itself and the descendants in its subtree. -/
def AddedNode.objects (toLowerCase : String → String) (n : AddedNode) : List Node :=
  (if isObjectTag toLowerCase n.tagName then [n.node] else []) ++
    (n.inside.filter (fun p => isObjectTag toLowerCase p.2)).map Prod.fst

/-- The object elements a batch added to the tree, at any depth. -/
def addedObjects (toLowerCase : String → String) : List MutationRecord → List Node
  | [] => []
  | r :: rest =>
    (r.addedNodes.map (AddedNode.objects toLowerCase)).flatten ++ addedObjects toLowerCase rest

/-! ## Loading the script -/

/-- What the top-level statements of `main.js` find in the host. The script is a
CommonJS module (it calls `require` and assigns `module.exports`): it runs inside
the wrapper of the module loader, which declares `require` and `module`. Its
`var WeakMap` is hoisted to the top of that wrapper, so `typeof WeakMap` is
`"undefined"` at the first statement whatever the host provides, and the call
`require('weak-map')` always runs: `weakMapModule` is whether that call returns.
`oipfObjectFactory` is whether `window.oipfObjectFactory` is defined already; the
other fields say whether the global of that name is declared. -/
structure Environment where
  weakMapModule : Bool
  document : Bool
  MutationObserver : Bool
  window : Bool
  oipfObjectFactory : Bool
  deriving DecidableEq, Repr

/-- The effects of loading the script on its host. -/
inductive LoadStep where
  | observeDocument
  | listenReadyStateChange
  | wrapCreateElement
  | createOipfObjectFactory
  | replaceIsObjectSupported
  | exportApi
  deriving DecidableEq, Repr

/-- The exception that ends the loading of the script: one of the two strings the
script throws itself, the failure of `require('weak-map')`, or the
`ReferenceError` of the host for a global that is not declared. -/
inductive LoadError where
  | notSupported
  | requiresMutationObserver
  | requireFailed
  | referenceError (name : String)
  deriving DecidableEq, Repr

/-- The top-level statements of `main.js`, in the order of the source: the
effects on the host so far and the exception that ended the loading, if any. -/
def load (env : Environment) : List LoadStep × Option LoadError :=
  if env.weakMapModule = false then ([], some .requireFailed)
  else if env.document = false then ([], some .notSupported)
  else if env.MutationObserver = false then ([], some .requiresMutationObserver)
  else
    let attached : List LoadStep := [.observeDocument, .listenReadyStateChange, .wrapCreateElement]
    if env.window = false then (attached, some (.referenceError "window"))
    else
      let made : List LoadStep := if env.oipfObjectFactory then [] else [.createOipfObjectFactory]
      (attached ++ made ++ [.replaceIsObjectSupported, .exportApi], none)

/-! ## Events of the page and the host -/

/-- The listener of `main.js` for `readystatechange`; `readyState` is the value of
`document.readyState` when it runs. -/
def onReadyStateChange (toLowerCase : String → String) (s : State) (readyState : String) :
    Outcome :=
  if readyState = "interactive" ∨ readyState = "complete" then
    scanForAndModifyObjects toLowerCase s
  else (s, none)

/-- What the page and the host can do once the script is loaded: call what the
script installed or exported, run one of its callbacks, write the `type` of an
element, or change which object elements the document holds. The functions
`modifyObjectIfNeeded` and `setupMonitorOnObject` are private to the script. -/
inductive Event where
  | createElement (arguments : List JSValue)
  | nodesAdded (mutations : List MutationRecord)
  | typeChanged (mutations : List (String × Node))
  | readyStateChange (readyState : String)
  | registerOipfObject (mimeType methodName : String) (mixinFunc unmixFunc : Fn)
  | registerNonFactoryObject (mimeType : String) (mixinFunc unmixFunc : Fn)
  | registerNonVisualObject (methodName : String) (methodFunc : Fn)
  | callFactory (methodName : String)
  | isObjectSupported (mimeType : String)
  | setType (elem : Node) (value : String)
  | setObjects (objects : List Node)
  deriving DecidableEq, Repr

/-- The state an event leaves; an exception goes to the caller of the script and
undoes nothing. The host hands to the callback of `objectObserver` the records of
the targets that were passed to `objectObserver.observe`, and no others. -/
def Event.run (toLowerCase : String → String) (validName : String → Bool)
    (existing_isObjectSupported : Option (String → Bool)) (s : State) : Event → State
  | .createElement arguments => (OipfPolyfill.createElement toLowerCase validName s arguments).1
  | .nodesAdded mutations => (documentObserver toLowerCase mutations s).1
  | .typeChanged mutations =>
    (objectObserver toLowerCase (mutations.filter (fun r => r.2 ∈ s.observed)) s).1
  | .readyStateChange readyState => (onReadyStateChange toLowerCase s readyState).1
  | .registerOipfObject mimeType methodName mixinFunc unmixFunc =>
    (OipfPolyfill.registerOipfObject toLowerCase s mimeType methodName mixinFunc unmixFunc).1
  | .registerNonFactoryObject mimeType mixinFunc unmixFunc =>
    (OipfPolyfill.registerNonFactoryObject toLowerCase s mimeType mixinFunc unmixFunc).1
  | .registerNonVisualObject methodName methodFunc =>
    OipfPolyfill.registerNonVisualObject s methodName methodFunc
  | .callFactory methodName =>
    match OipfPolyfill.callFactory toLowerCase s methodName with
    | some (s1, _) => s1
    | none => s
  | .isObjectSupported mimeType =>
    (callIsObjectSupported toLowerCase existing_isObjectSupported s mimeType).1
  | .setType elem value => s.setType elem value
  | .setObjects objects => { s with document := { s.document with objects := objects } }

/-- The state after a sequence of events, first to last. -/
def runEvents (toLowerCase : String → String) (validName : String → Bool)
    (existing_isObjectSupported : Option (String → Bool)) (s : State) : List Event → State
  | [] => s
  | e :: rest =>
    runEvents toLowerCase validName existing_isObjectSupported
      (e.run toLowerCase validName existing_isObjectSupported s) rest

/-- Every node the script knows is monitored: the monitored nodes are the targets
handed to `objectObserver.observe`, every node with a recorded last label is
monitored, and so is every node a handler was called on. -/
def Tracked (s : State) : Prop :=
  (∀ n : Node, n ∈ s.observed ↔ n ∈ s.MONITORING) ∧
    (∀ n : Node, s.lastLabel n ≠ none → n ∈ s.MONITORING) ∧
    ∀ c ∈ s.calls, c.elem ∈ s.MONITORING

/-! ## Vocabulary of the specification -/

/-- Whether the statement `if (v) { v.member(elem); }` ends with an exception. -/
def Value.raises (v : Value) (m : Member) : Bool :=
  match v with
  | .undefined => false
  | .foreign => true
  | .handler h => (m.select h).raises

/-- The calls a label change from `old` to `new` is specified to make on `elem`:
`unmix` of the pair registered for the old label, if there is one, then `mixin`
of the pair registered for the new label, if there is one. -/
def transitionCalls (r : Handlers) (old : Option String) (new : String) (elem : Node) :
    List Call :=
  (match old.bind r.registered with
    | some h => [⟨.unmix, propertyKey old, h, elem⟩]
    | none => []) ++
  (match r.registered new with
    | some h => [⟨.mixin, new, h, elem⟩]
    | none => [])

/-- The call that `if (v) { v.member(elem); }` makes, if it makes one. -/
def Value.callOf (v : Value) (m : Member) (key : String) (elem : Node) : List Call :=
  match v with
  | .handler h => [⟨m, key, h, elem⟩]
  | _ => []

/-- The calls one run of `modifyObjectIfNeeded` makes. -/
def stepCalls (toLowerCase : String → String) (s : State) (elem : Node) : List Call :=
  if s.lastLabel elem = some (toLowerCase (s.typeOf elem)) then []
  else
    (s.MIMETYPE_HANDLERS.get (propertyKey (s.lastLabel elem))).callOf .unmix
        (propertyKey (s.lastLabel elem)) elem ++
      if (s.MIMETYPE_HANDLERS.get (propertyKey (s.lastLabel elem))).raises .unmix then []
      else (s.MIMETYPE_HANDLERS.get (toLowerCase (s.typeOf elem))).callOf .mixin
        (toLowerCase (s.typeOf elem)) elem

/-- What is kept of a mixed-in handler to tell it from others: the key it was read
under and, optionally, the handler object. -/
abbrev Shown := String × Option Handler

/-- A way of telling mixed-in handlers apart. -/
abbrev View := String → Handler → Shown

/-- Handlers are told apart by the key they were read under together with the
handler object. -/
def byPair : View := fun key h => (key, some h)

/-- Handlers are told apart by their label only: the key they were read under. -/
def byLabel : View := fun key _ => (key, none)

/-- Follows a sequence of calls on `elem`, starting with `active` as what is mixed
in (`none`: nothing is), handlers being told apart by `view`: a `mixin` is accepted
only while nothing is mixed in, an `unmix` only for what is mixed in. The result
is what is mixed in at the end, or `none` when a call was not accepted. -/
def track (view : View) (elem : Node) :
    Option Shown → List Call → Option (Option Shown)
  | active, [] => some active
  | none, c :: cs =>
    if c.member = .mixin ∧ c.elem = elem then track view elem (some (view c.key c.handler)) cs
    else none
  | some a, c :: cs =>
    if c.member = .unmix ∧ c.elem = elem ∧ view c.key c.handler = a then
      track view elem none cs
    else none

/-- A value read under `key`, seen through `view`: `none` unless it is a handler
object. -/
def Value.viewed (view : View) (v : Value) (key : String) :
    Option Shown :=
  match v with
  | .handler h => some (view key h)
  | _ => none

/-- The handler whose `unmix` the next label change of `elem` will call, seen
through `view`. -/
def nextUnmix (view : View) (s : State) (elem : Node) :
    Option Shown :=
  (s.MIMETYPE_HANDLERS.get (propertyKey (s.lastLabel elem))).viewed view
    (propertyKey (s.lastLabel elem))

/-- No `unmix` stored in the registry raises. -/
def Handlers.unmixReturns (r : Handlers) : Bool :=
  r.own.all (fun p => !p.2.unmix.raises) && r.proto.all (fun h => !h.unmix.raises)

/-- The calls logged in `later` after those of `earlier`. -/
def callsSince (earlier later : State) : List Call :=
  later.calls.drop earlier.calls.length

/-- The logged calls that invoked the function `f`. -/
def callsOf (f : Fn) (cs : List Call) : List Call :=
  cs.filter (fun c => c.fn = f)

/-- Whether what the registry yields for the label of a fresh element stays out of
the way of the pair `(m, u)`: nothing, or a handler object whose functions return
and are neither `m` nor `u`. -/
def Value.apartFrom (v : Value) (m u : Fn) : Bool :=
  match v with
  | .undefined => true
  | .foreign => false
  | .handler h =>
    !h.mixin.raises && !h.unmix.raises &&
      decide (h.mixin ≠ m) && decide (h.mixin ≠ u) && decide (h.unmix ≠ m) &&
      decide (h.unmix ≠ u)

/-- The exception with which `if (v) { v.member(elem); }` ends, if any. -/
def Value.thrown (v : Value) (m : Member) : Option Thrown :=
  match v with
  | .undefined => none
  | .foreign => some .typeError
  | .handler h => (m.select h).call

/-! ## Sequences of operations -/

/-- The state after `n` successive runs of `modifyObjectIfNeeded` on one node, each
run starting from the state the run before it left. -/
def modifyRepeatedly (toLowerCase : String → String) : Nat → State → Node → State
  | 0, s, _ => s
  | n + 1, s, elem =>
    modifyRepeatedly toLowerCase n (modifyObjectIfNeeded toLowerCase s elem).1 elem

/-- A label change followed by `modifyObjectIfNeeded`: `elem.type = value`, then
the run that the type observer triggers. -/
def relabel (toLowerCase : String → String) (s : State) (elem : Node) (value : String) :
    State :=
  (modifyObjectIfNeeded toLowerCase (s.setType elem value) elem).1

/-- A finite sequence of label changes, each followed by `modifyObjectIfNeeded`. -/
def relabelAll (toLowerCase : String → String) (s : State) (elem : Node) :
    List String → State
  | [] => s
  | value :: values => relabelAll toLowerCase (relabel toLowerCase s elem value) elem values

/-- One operation on the script: a registration, a label change
(`elem.type = value`), or a run of `setupMonitorOnObject` or of
`modifyObjectIfNeeded` on a node. -/
inductive Action where
  | registerOipfObject (mimeType methodName : String) (mixinFunc unmixFunc : Fn)
  | registerNonFactoryObject (mimeType : String) (mixinFunc unmixFunc : Fn)
  | setType (elem : Node) (value : String)
  | setupMonitorOnObject (elem : Node)
  | modifyObjectIfNeeded (elem : Node)
  deriving DecidableEq, Repr

/-- The state an operation leaves; an exception it raises goes to its caller and
undoes nothing. -/
def Action.apply (toLowerCase : String → String) (s : State) : Action → State
  | .registerOipfObject mimeType methodName mixinFunc unmixFunc =>
    (OipfPolyfill.registerOipfObject toLowerCase s mimeType methodName mixinFunc unmixFunc).1
  | .registerNonFactoryObject mimeType mixinFunc unmixFunc =>
    (OipfPolyfill.registerNonFactoryObject toLowerCase s mimeType mixinFunc unmixFunc).1
  | .setType elem value => s.setType elem value
  | .setupMonitorOnObject elem => (OipfPolyfill.setupMonitorOnObject toLowerCase s elem).1
  | .modifyObjectIfNeeded elem => (OipfPolyfill.modifyObjectIfNeeded toLowerCase s elem).1

/-- The state after a sequence of operations, first to last. -/
def execute (toLowerCase : String → String) (s : State) : List Action → State
  | [] => s
  | a :: rest => execute toLowerCase (a.apply toLowerCase s) rest

/-- The handler calls logged on one node, oldest first. -/
def callsOn (s : State) (node : Node) : List Call :=
  s.calls.filter (fun c => c.elem = node)

/-- Whether going from registry `r` to registry `r2` leaves alone, as far as `view`
tells, what every recorded last label resolves to, as well as the key
`"undefined"` that stands for the nodes with no label recorded. -/
def Handlers.quietFor (view : View)
    (r r2 : Handlers) (labels : List (Node × String)) : Bool :=
  decide ((r2.get "undefined").viewed view "undefined" =
      (r.get "undefined").viewed view "undefined") &&
    labels.all (fun p => decide ((r2.get p.2).viewed view p.2 = (r.get p.2).viewed view p.2))

/-- Whether an operation is quiet: `false` for a registration that changes what a
label in use resolves to, as far as `view` tells, or that stores an `unmix` that
raises; `true` for every other operation. -/
def Action.quiet (view : View)
    (toLowerCase : String → String) (s : State) : Action → Bool
  | .registerOipfObject mimeType _ mixinFunc unmixFunc =>
    !unmixFunc.raises &&
      Handlers.quietFor view s.MIMETYPE_HANDLERS
        (s.MIMETYPE_HANDLERS.set (toLowerCase mimeType) ⟨mixinFunc, unmixFunc⟩)
        s.CURRENT_MIXIN_MIMETYPE
  | .registerNonFactoryObject mimeType mixinFunc unmixFunc =>
    !unmixFunc.raises &&
      Handlers.quietFor view s.MIMETYPE_HANDLERS
        (s.MIMETYPE_HANDLERS.set (toLowerCase mimeType) ⟨mixinFunc, unmixFunc⟩)
        s.CURRENT_MIXIN_MIMETYPE
  | _ => true

/-- Whether every operation of a sequence is quiet in the state it is applied to. -/
def quietRun (view : View)
    (toLowerCase : String → String) (s : State) : List Action → Bool
  | [] => true
  | a :: rest =>
    a.quiet view toLowerCase s && quietRun view toLowerCase (a.apply toLowerCase s) rest

/-- The log of every node agrees with the trackers: it alternates `mixin` and
`unmix`, and what is left mixed in is what `nextUnmix` names. -/
def Paired (view : View) (s : State) : Prop :=
  ∀ node : Node, track view node none (callsOn s node) = some (nextUnmix view s node)

/-- The state after `n` successive calls of `setupMonitorOnObject` on one node. -/
def setupRepeatedly (toLowerCase : String → String) : Nat → State → Node → State
  | 0, s, _ => s
  | n + 1, s, elem =>
    setupRepeatedly toLowerCase n (setupMonitorOnObject toLowerCase s elem).1 elem

/-- The mimetype and the pair of a registration; `none` for the other operations. -/
def Action.registers : Action → Option (String × Handler)
  | .registerOipfObject mimeType _ mixinFunc unmixFunc => some (mimeType, ⟨mixinFunc, unmixFunc⟩)
  | .registerNonFactoryObject mimeType mixinFunc unmixFunc =>
    some (mimeType, ⟨mixinFunc, unmixFunc⟩)
  | _ => none

/-! ## Concrete inputs -/

/-- A `mixin` that returns. -/
def fnA : Fn := ⟨1, false⟩

/-- The `unmix` that goes with `fnA`. -/
def fnB : Fn := ⟨2, false⟩

/-- A second `mixin`. -/
def fnC : Fn := ⟨3, false⟩

/-- The `unmix` that goes with `fnC`. -/
def fnD : Fn := ⟨4, false⟩

/-- A function that raises when called. -/
def fnBad : Fn := ⟨5, true⟩

/-- A document whose only object element is node `0`, with `type="X/Y"`. -/
def docXY : Document := ⟨[(0, "X/Y")], [0], 1⟩

/-- Handlers for `a/b` and `x/y`; node `0` was mixed in under `a/b` and its type is
now `X/Y`. -/
def stAB : State :=
  { State.loaded docXY with
    MIMETYPE_HANDLERS := (Handlers.empty.set "a/b" ⟨fnA, fnB⟩).set "x/y" ⟨fnC, fnD⟩
    CURRENT_MIXIN_MIMETYPE := [(0, "a/b")]
    MONITORING := [0]
    observed := [0] }

/-- As `stAB`, but the `unmix` registered for `a/b` raises. -/
def stABbad : State :=
  { stAB with
    MIMETYPE_HANDLERS := (Handlers.empty.set "a/b" ⟨fnA, fnBad⟩).set "x/y" ⟨fnC, fnD⟩ }

/-- A handler registered for the mimetype `undefined`; node `0` has never been
seen by the script. -/
def stUndef : State :=
  { State.loaded docXY with
    MIMETYPE_HANDLERS := Handlers.empty.set "undefined" ⟨fnA, fnB⟩ }

/-- Node `0` is mixed in under `x/y` and its `type` attribute reads `X/Y`. -/
def stSettled : State :=
  { stAB with CURRENT_MIXIN_MIMETYPE := [(0, "x/y")] }

/-- Node `0` is monitored, its recorded last label is the empty one, and the
`unmix` registered for `a/b` raises. -/
def stEmptyBad : State :=
  { stABbad with CURRENT_MIXIN_MIMETYPE := [(0, "")] }

/-- Node `0` is monitored and its type was `constructor`, a label nobody
registered, when it was last looked at. -/
def stConstructor : State :=
  { stAB with CURRENT_MIXIN_MIMETYPE := [(0, "constructor")] }

/-- Node `0` is monitored, its recorded last label is the empty one, handlers are
registered for `a/b` and `x/y`. -/
def stEmpty : State :=
  { stAB with CURRENT_MIXIN_MIMETYPE := [(0, "")] }

/-- A document whose only object element is node `0`, with `type="a/b"`. -/
def docAB : Document := ⟨[(0, "a/b")], [0], 1⟩

/-- A pair is registered for `a/b`, node `0` is mixed in by the sweep, and a second
pair is registered for the same label. -/
def runTwoPairs : List Action :=
  [.registerNonFactoryObject "a/b" fnA fnB, .registerNonFactoryObject "A/B" fnC fnD]

/-- As `runTwoPairs`, followed by a change of the label of node `0`. -/
def runReRegister : List Action :=
  runTwoPairs ++ [.setType 0 "", .modifyObjectIfNeeded 0]

/-- Node `0`, typed `a/b`, becomes monitored while no handler is registered; the
handler for `a/b` is registered late. -/
def runLateRegister : List Action :=
  [.setupMonitorOnObject 0, .registerNonFactoryObject "a/b" fnA fnB]

/-- As `runLateRegister`, followed by a change of the label of node `0`. -/
def runLateRegisterThenChange : List Action :=
  runLateRegister ++ [.setType 0 "", .modifyObjectIfNeeded 0]

/-- A pair whose `unmix` raises is registered for `a/b`, node `0` is mixed in by the
sweep, then its label changes. -/
def runRaisingUnmix : List Action :=
  [.registerNonFactoryObject "a/b" fnA fnBad, .setType 0 "x/y", .modifyObjectIfNeeded 0]

/-- Registrations before the labels are in use, then two label changes of
node `0`. -/
def runQuiet : List Action :=
  [.registerOipfObject "A/B" "createAB" fnA fnB, .setupMonitorOnObject 0,
    .registerNonFactoryObject "x/y" fnC fnD, .setType 0 "X/Y", .modifyObjectIfNeeded 0,
    .setType 0 "", .modifyObjectIfNeeded 0]

/-- The script was loaded into `docAB` and a factory `createXY` was registered for
the mimetype `X/Y`. -/
def stFactory : State :=
  (registerOipfObject asciiLower (State.loaded docAB) "X/Y" "createXY" fnA fnB).1

/-- As `stFactory`, but the registered `mixin` raises. -/
def stFactoryBad : State :=
  (registerOipfObject asciiLower (State.loaded docAB) "X/Y" "createXY" fnBad fnB).1

/-- The functions `fnA` and `fnD` are registered for the empty label, then a factory
`createXY` with `fnA` and `fnB` for the mimetype `X/Y`. -/
def stFactoryShared : State :=
  (registerOipfObject asciiLower
    (registerNonFactoryObject asciiLower (State.loaded docAB) "" fnA fnD).1
    "X/Y" "createXY" fnA fnB).1

/-- A factory `createXY` is registered for `X/Y` with one function, `fnA`, as both
`mixin` and `unmix`. -/
def stFactorySame : State :=
  (registerOipfObject asciiLower (State.loaded docAB) "X/Y" "createXY" fnA fnA).1

/-- A factory `createU` is registered for the mimetype `undefined`. -/
def stFactoryUndef : State :=
  (registerOipfObject asciiLower (State.loaded docAB) "undefined" "createU" fnA fnB).1

/-- The script was loaded into `docAB`, and `setupMonitorOnObject` ran on node `0`
(typed `a/b`) while no handler was registered. -/
def stMonitoredAB : State :=
  (setupMonitorOnObject asciiLower (State.loaded docAB) 0).1

/-- The script was loaded into `docAB` and a pair was registered for `a/b`: the
sweep has mixed it in on node `0`. -/
def stMixedAB : State :=
  (registerNonFactoryObject asciiLower (State.loaded docAB) "a/b" fnA fnB).1

/-- The script was loaded into `docAB` and a function was registered with
`registerNonVisualObject` under the name `isObjectSupported`. -/
def stSlotTaken : State :=
  registerNonVisualObject (State.loaded docAB) "isObjectSupported" fnA

/-- A stand-in for the host's test of tag names: every name but the empty one is
valid. -/
def nonEmptyName (name : String) : Bool := decide (name ≠ "")

/-- The script was loaded into `docXY` and a pair whose `mixin` raises was
registered for the empty label, the label of every new object element. -/
def stEmptyLabelBad : State :=
  (registerNonFactoryObject asciiLower (State.loaded docXY) "" fnBad fnB).1

/-- As `stAB`, but the `mixin` registered for `x/y` raises. -/
def stABmixinBad : State :=
  { stAB with
    MIMETYPE_HANDLERS := (Handlers.empty.set "a/b" ⟨fnA, fnB⟩).set "x/y" ⟨fnBad, fnD⟩ }

/-- A document whose only object element is node `2`, with `type="a/b"`; it lies
inside the element `1`, a `DIV`. -/
def docNested : Document := ⟨[(2, "a/b")], [2], 3⟩

/-- The script was loaded and a pair was registered for `a/b`; after that the
`DIV` `1`, with the object element `2` inside it, was inserted into the
document. -/
def stNested : State :=
  { (registerNonFactoryObject asciiLower (State.loaded ⟨[], [], 1⟩) "a/b" fnA fnB).1 with
    document := docNested }

/-- The batch the host reports for the insertion of the `DIV` `1` with the object
element `2` inside it. -/
def batchNested : List MutationRecord :=
  [⟨[⟨1, some "DIV", [(2, some "OBJECT")]⟩]⟩]

/-- The batch the host reports for the insertion of the object element `2`
itself, after a text node. -/
def batchDirect : List MutationRecord :=
  [⟨[⟨1, none, []⟩, ⟨2, some "OBJECT", []⟩]⟩]

/-- A browser in which the bundled script runs: the loader resolves `weak-map`, and
no `oipfObjectFactory` exists yet. -/
def envBrowser : Environment := ⟨true, true, true, true, false⟩

/-- A host that declares `document` and `MutationObserver`, but no `window`. -/
def envNoWindow : Environment := { envBrowser with window := false }

/-- A host without `MutationObserver`. -/
def envNoObserver : Environment := { envBrowser with MutationObserver := false }

/-- A browser, with its own `WeakMap`, whose module loader does not find the
module `weak-map`. -/
def envNoWeakMapModule : Environment := { envBrowser with weakMapModule := false }

/-- A factory is registered for `a/b` (the sweep mixes in node `0` of `docAB`), the
factory is called (it makes node `1`), and the type of node `1` is rewritten. -/
def eventsAB : List Event :=
  [.registerOipfObject "a/b" "createAB" fnA fnB, .callFactory "createAB",
    .setType 1 "X/Y", .typeChanged [("type", 1)]]

/-- The calls of the run of `modifyObjectIfNeeded` that follows the assignment
`node.type = value`. -/
def changeCalls (toLowerCase : String → String) (s : State) (node : Node) (value : String) :
    List Call :=
  callsSince (s.setType node value)
    (modifyObjectIfNeeded toLowerCase (s.setType node value) node).1

/-- As `stMixedAB`, with the pair `(fnB, fnD)` registered for `x/y`: its `mixin` is
the `unmix` of the pair mixed in on node `0`. -/
def stMixedSharedOld : State :=
  (registerNonFactoryObject asciiLower stMixedAB "x/y" fnB fnD).1

/-- As `stMixedAB`, with the pair `(fnD, fnB)` registered for `x/y`: its `mixin` is
the `unmix` of the pair `(fnC, fnD)`. -/
def stMixedSharedNew : State :=
  (registerNonFactoryObject asciiLower stMixedAB "x/y" fnD fnB).1

/-- As `stMixedAB`, with the pair `(fnA, fnB)` registered for `x/y` as well. -/
def stMixedXY : State :=
  (registerNonFactoryObject asciiLower stMixedAB "x/y" fnA fnB).1

/-- A document that holds no object element yet; node `0`, typed `a/b`, exists
outside it. -/
def docLoose : Document := ⟨[(0, "a/b")], [], 1⟩

/-- The same pair is registered twice for `a/b`, as the tests of the repository do
before each case. -/
def runSamePair : List Action :=
  [.registerNonFactoryObject "a/b" fnA fnB, .registerNonFactoryObject "A/B" fnA fnB]

/-- Two pairs with the same `mixin` are registered for `a/b`. -/
def runSharedMixin : List Action :=
  [.registerNonFactoryObject "a/b" fnA fnB, .registerNonFactoryObject "A/B" fnA fnD]

/-- Two pairs with the same `unmix` are registered for `a/b`. -/
def runSharedUnmix : List Action :=
  [.registerNonFactoryObject "a/b" fnA fnB, .registerNonFactoryObject "A/B" fnC fnB]

/-! ## Theorems -/

/-- Reading with an `undefined` value does nothing. -/
theorem invoke_undefined (s : State) (key : String) (m : Member) (elem : Node) :
    invoke s key .undefined m elem = (s, none) := rfl

/-- Reading a handler object calls its member and logs the call. -/
theorem invoke_handler (s : State) (key : String) (h : Handler) (m : Member) (elem : Node) :
    invoke s key (.handler h) m elem =
      ({ s with calls := s.calls ++ [⟨m, key, h, elem⟩] }, (m.select h).call) := rfl

/-- The exception of `invoke` is decided by `Value.raises`. -/
theorem invoke_snd_eq_none_iff (s : State) (key : String) (v : Value) (m : Member)
    (elem : Node) : (invoke s key v m elem).2 = none ↔ v.raises m = false := by
  cases v <;> simp [invoke, Value.raises, Fn.call]

/-- A call changes only the log of calls. -/
theorem invoke_frame (s : State) (key : String) (v : Value) (m : Member) (elem : Node) :
    (invoke s key v m elem).1 = { s with calls := (invoke s key v m elem).1.calls } := by
  cases v <;> rfl

/-- The unchanged-label branch of `modifyObjectIfNeeded`. -/
theorem modifyObjectIfNeeded_same (toLowerCase : String → String) (s : State) (elem : Node)
    (h : s.lastLabel elem = some (toLowerCase (s.typeOf elem))) :
    modifyObjectIfNeeded toLowerCase s elem = (s, none) := by
  simp [modifyObjectIfNeeded, h]

/-- The changed-label branch of `modifyObjectIfNeeded` when the `unmix` step ends
with an exception: nothing but the log changes. -/
theorem modifyObjectIfNeeded_unmix_raises (toLowerCase : String → String) (s : State)
    (elem : Node) (hne : s.lastLabel elem ≠ some (toLowerCase (s.typeOf elem)))
    (hr : (s.MIMETYPE_HANDLERS.get (propertyKey (s.lastLabel elem))).raises .unmix = true) :
    modifyObjectIfNeeded toLowerCase s elem =
      invoke s (propertyKey (s.lastLabel elem))
        (s.MIMETYPE_HANDLERS.get (propertyKey (s.lastLabel elem))) .unmix elem := by
  have hx : (invoke s (propertyKey (s.lastLabel elem))
      (s.MIMETYPE_HANDLERS.get (propertyKey (s.lastLabel elem))) .unmix elem).2 ≠ none := by
    rw [Ne, invoke_snd_eq_none_iff]; simp [hr]
  simp only [modifyObjectIfNeeded, if_pos hne]
  generalize invoke s (propertyKey (s.lastLabel elem))
      (s.MIMETYPE_HANDLERS.get (propertyKey (s.lastLabel elem))) .unmix elem = o at hx ⊢
  obtain ⟨s1, x⟩ := o
  cases x with
  | none => exact absurd rfl hx
  | some e => rfl

/-- The changed-label branch of `modifyObjectIfNeeded` when the `unmix` step
returns: the label is recorded, then the `mixin` step runs. -/
theorem modifyObjectIfNeeded_unmix_returns (toLowerCase : String → String) (s : State)
    (elem : Node) (hne : s.lastLabel elem ≠ some (toLowerCase (s.typeOf elem)))
    (hr : (s.MIMETYPE_HANDLERS.get (propertyKey (s.lastLabel elem))).raises .unmix = false) :
    modifyObjectIfNeeded toLowerCase s elem =
      invoke
        { s with
          calls := (invoke s (propertyKey (s.lastLabel elem))
            (s.MIMETYPE_HANDLERS.get (propertyKey (s.lastLabel elem))) .unmix elem).1.calls
          CURRENT_MIXIN_MIMETYPE :=
            recordLabel s.CURRENT_MIXIN_MIMETYPE elem (toLowerCase (s.typeOf elem)) }
        (toLowerCase (s.typeOf elem))
        (s.MIMETYPE_HANDLERS.get (toLowerCase (s.typeOf elem))) .mixin elem := by
  have hx := (invoke_snd_eq_none_iff s (propertyKey (s.lastLabel elem))
      (s.MIMETYPE_HANDLERS.get (propertyKey (s.lastLabel elem))) .unmix elem).2 hr
  have hf := invoke_frame s (propertyKey (s.lastLabel elem))
      (s.MIMETYPE_HANDLERS.get (propertyKey (s.lastLabel elem))) .unmix elem
  simp only [modifyObjectIfNeeded, if_pos hne]
  generalize invoke s (propertyKey (s.lastLabel elem))
      (s.MIMETYPE_HANDLERS.get (propertyKey (s.lastLabel elem))) .unmix elem = o at hx hf ⊢
  obtain ⟨s1, x⟩ := o
  simp only at hx hf
  subst hx
  simp only
  rw [hf]

/-- The entry written by `recordLabel` is the one read back. -/
theorem lookup_recordLabel_self (m : List (Node × String)) (elem : Node) (label : String) :
    (recordLabel m elem label).lookup elem = some label := by
  simp [recordLabel, List.lookup]

/-- Dropping the entries of one key keeps the entries of the others. -/
theorem lookup_filter_ne {κ α : Type} [DecidableEq κ] (m : List (κ × α)) (elem other : κ)
    (h : other ≠ elem) :
    (m.filter (fun p => p.1 ≠ elem)).lookup other = m.lookup other := by
  induction m with
  | nil => rfl
  | cons p m ih =>
    obtain ⟨k, v⟩ := p
    by_cases hk : k = elem
    · have hok : (other == k) = false := by
        rw [hk]
        simpa using h
      have hf : List.filter (fun p : κ × α => decide (p.1 ≠ elem)) ((k, v) :: m) =
          List.filter (fun p : κ × α => decide (p.1 ≠ elem)) m := by
        rw [List.filter_cons_of_neg]
        simpa using hk
      rw [hf, ih, List.lookup, hok]
    · have hf : List.filter (fun p : κ × α => decide (p.1 ≠ elem)) ((k, v) :: m) =
          (k, v) :: List.filter (fun p : κ × α => decide (p.1 ≠ elem)) m := by
        rw [List.filter_cons_of_pos]
        simpa using hk
      rw [hf]
      cases hok : other == k
      · rw [List.lookup, hok, List.lookup, hok, ih]
      · rw [List.lookup, hok, List.lookup, hok]

/-- The entries of the other nodes are not touched by `recordLabel`. -/
theorem lookup_recordLabel_of_ne (m : List (Node × String)) (elem other : Node)
    (label : String) (h : other ≠ elem) :
    (recordLabel m elem label).lookup other = m.lookup other := by
  have hb : (other == elem) = false := by simpa using h
  rw [recordLabel, List.lookup, hb]
  exact lookup_filter_ne m elem other h

/-- The getter reads back what the setter wrote. -/
theorem typeOf_setType_self (s : State) (elem : Node) (value : String) :
    (s.setType elem value).typeOf elem = value := by
  simp [State.typeOf, State.setType, List.lookup]

/-- Writing the `type` of one element leaves the `type` of the others alone. -/
theorem typeOf_setType_of_ne (s : State) (elem other : Node) (value : String)
    (h : other ≠ elem) : (s.setType elem value).typeOf other = s.typeOf other := by
  have hb : (other == elem) = false := by simpa using h
  simp [State.typeOf, State.setType, List.lookup, hb]

/-- Writing a `type` attribute does not touch the tracker of last labels. -/
theorem lastLabel_setType (s : State) (elem other : Node) (value : String) :
    (s.setType elem value).lastLabel other = s.lastLabel other := rfl

/-- C1 (amended). When `modifyObjectIfNeeded` runs on a node whose lower-cased
type differs from its recorded last label, and the read of the old key yields
exactly the pair registered for the old label, and the `unmix` it calls (if any)
returns: the handler calls it makes are exactly `unmix(node)` of the pair
registered for the old label if there is one, then `mixin(node)` of the pair
registered for the new label if there is one, and the recorded last label of the
node is then the new lower-cased type, also when neither label has a handler. -/
theorem modifyObjectIfNeeded_transition (toLowerCase : String → String) (s : State)
    (elem : Node)
    (hne : s.lastLabel elem ≠ some (toLowerCase (s.typeOf elem)))
    (hold : s.MIMETYPE_HANDLERS.get (propertyKey (s.lastLabel elem)) =
      Value.ofRegistered ((s.lastLabel elem).bind s.MIMETYPE_HANDLERS.registered))
    (hret : (s.MIMETYPE_HANDLERS.get (propertyKey (s.lastLabel elem))).raises .unmix = false) :
    (OipfPolyfill.modifyObjectIfNeeded toLowerCase s elem).1.calls =
        s.calls ++ transitionCalls s.MIMETYPE_HANDLERS (s.lastLabel elem)
          (toLowerCase (s.typeOf elem)) elem ∧
      (OipfPolyfill.modifyObjectIfNeeded toLowerCase s elem).1.lastLabel elem =
        some (toLowerCase (s.typeOf elem)) := by
  have hreg : ∀ h : Handler,
      s.MIMETYPE_HANDLERS.get (toLowerCase (s.typeOf elem)) = .handler h →
      s.MIMETYPE_HANDLERS.registered (toLowerCase (s.typeOf elem)) = some h := by
    intro h hg
    unfold Handlers.get at hg
    unfold Handlers.registered
    split at hg
    · rename_i hk
      rw [if_pos hk]
      cases hp : s.MIMETYPE_HANDLERS.proto with
      | none => simp [hp] at hg
      | some h0 => simpa [hp] using hg
    · rename_i hk
      rw [if_neg hk]
      cases hl : s.MIMETYPE_HANDLERS.own.lookup (toLowerCase (s.typeOf elem)) with
      | some h0 => simpa [hl] using hg
      | none =>
        rw [hl] at hg
        cases hp : s.MIMETYPE_HANDLERS.proto <;> simp only [hp] at hg <;> split at hg <;>
          cases hg
  have hget : ∀ h : Handler,
      s.MIMETYPE_HANDLERS.registered (toLowerCase (s.typeOf elem)) = some h →
      s.MIMETYPE_HANDLERS.get (toLowerCase (s.typeOf elem)) = .handler h := by
    intro h hg
    unfold Handlers.registered at hg
    unfold Handlers.get
    split at hg
    · rename_i hk
      rw [if_pos hk, hg]
    · rename_i hk
      rw [if_neg hk, hg]
  rw [modifyObjectIfNeeded_unmix_returns toLowerCase s elem hne hret, hold]
  unfold transitionCalls
  cases hn : s.MIMETYPE_HANDLERS.registered (toLowerCase (s.typeOf elem)) with
  | some h =>
    rw [hget h hn]
    cases hb : (s.lastLabel elem).bind s.MIMETYPE_HANDLERS.registered <;>
      simp [Value.ofRegistered, invoke, State.lastLabel, List.lookup]
  | none =>
    cases hg : s.MIMETYPE_HANDLERS.get (toLowerCase (s.typeOf elem)) with
    | handler h0 =>
      rw [hreg h0 hg] at hn
      cases hn
    | undefined =>
      cases hb : (s.lastLabel elem).bind s.MIMETYPE_HANDLERS.registered <;>
        simp [Value.ofRegistered, invoke, State.lastLabel, List.lookup]
    | foreign =>
      cases hb : (s.lastLabel elem).bind s.MIMETYPE_HANDLERS.registered <;>
        simp [Value.ofRegistered, invoke, State.lastLabel, List.lookup]

/-- Witness for C1 (amended): node `0` of `stAB` goes from `a/b` to `x/y`. -/
theorem modifyObjectIfNeeded_transition_witness :
    (modifyObjectIfNeeded asciiLower stAB 0).1.calls =
        [⟨.unmix, "a/b", ⟨fnA, fnB⟩, 0⟩, ⟨.mixin, "x/y", ⟨fnC, fnD⟩, 0⟩] ∧
      (modifyObjectIfNeeded asciiLower stAB 0).1.lastLabel 0 = some "x/y" :=
  modifyObjectIfNeeded_transition asciiLower stAB 0 (by decide) (by decide) (by decide)

/-- C1 as stated fails. In `stABbad` the `unmix` of the old label raises, so the
`mixin` registered for the new label is not called; in `stUndef` no last label is
recorded for the node, yet the `unmix` registered for the mimetype `undefined` is
called. -/
theorem modifyObjectIfNeeded_transition_counterexample :
    (stABbad.lastLabel 0 ≠ some (asciiLower (stABbad.typeOf 0)) ∧
      (modifyObjectIfNeeded asciiLower stABbad 0).1.calls ≠
        stABbad.calls ++ transitionCalls stABbad.MIMETYPE_HANDLERS (stABbad.lastLabel 0)
          (asciiLower (stABbad.typeOf 0)) 0) ∧
    (stUndef.lastLabel 0 ≠ some (asciiLower (stUndef.typeOf 0)) ∧
      (modifyObjectIfNeeded asciiLower stUndef 0).1.calls ≠
        stUndef.calls ++ transitionCalls stUndef.MIMETYPE_HANDLERS (stUndef.lastLabel 0)
          (asciiLower (stUndef.typeOf 0)) 0) := by
  decide

/-- C2. On a node whose recorded last label equals the lower-cased value of its
current type, `modifyObjectIfNeeded` changes nothing at all: no handler call, the
registry and both trackers as before, no exception. The same holds after the type
was rewritten to any value with the same lower-cased form. -/
theorem modifyObjectIfNeeded_unchanged_label (toLowerCase : String → String) (s : State)
    (elem : Node) (h : s.lastLabel elem = some (toLowerCase (s.typeOf elem))) :
    modifyObjectIfNeeded toLowerCase s elem = (s, none) ∧
      ∀ value : String, toLowerCase value = toLowerCase (s.typeOf elem) →
        modifyObjectIfNeeded toLowerCase (s.setType elem value) elem =
          (s.setType elem value, none) := by
  refine ⟨modifyObjectIfNeeded_same toLowerCase s elem h, fun value hv => ?_⟩
  apply modifyObjectIfNeeded_same
  rw [lastLabel_setType, typeOf_setType_self, hv, h]

/-- Witness for C2: node `0` of `stSettled`, recorded under `x/y`, typed `X/Y`. -/
theorem modifyObjectIfNeeded_unchanged_label_witness :
    stSettled.lastLabel 0 = some (asciiLower (stSettled.typeOf 0)) ∧
    modifyObjectIfNeeded asciiLower stSettled 0 = (stSettled, none) ∧
      ∀ value : String, asciiLower value = asciiLower (stSettled.typeOf 0) →
        modifyObjectIfNeeded asciiLower (stSettled.setType 0 value) 0 =
          (stSettled.setType 0 value, none) :=
  ⟨by decide, modifyObjectIfNeeded_unchanged_label asciiLower stSettled 0 (by decide)⟩

/-- A call leaves everything but the log of calls as it was. -/
theorem invoke_fields (s : State) (key : String) (v : Value) (m : Member) (elem : Node) :
    (invoke s key v m elem).1.MIMETYPE_HANDLERS = s.MIMETYPE_HANDLERS ∧
      (invoke s key v m elem).1.CURRENT_MIXIN_MIMETYPE = s.CURRENT_MIXIN_MIMETYPE ∧
      (invoke s key v m elem).1.MONITORING = s.MONITORING ∧
      (invoke s key v m elem).1.observed = s.observed ∧
      (invoke s key v m elem).1.oipfObjectFactory = s.oipfObjectFactory ∧
      (invoke s key v m elem).1.document = s.document := by
  cases v <;> simp [invoke]

/-- The function `modifyObjectIfNeeded` writes to nothing but the tracker of last
labels and the log of calls. -/
theorem modifyObjectIfNeeded_fields (toLowerCase : String → String) (s : State)
    (elem : Node) :
    (OipfPolyfill.modifyObjectIfNeeded toLowerCase s elem).1.MIMETYPE_HANDLERS = s.MIMETYPE_HANDLERS ∧
      (OipfPolyfill.modifyObjectIfNeeded toLowerCase s elem).1.MONITORING = s.MONITORING ∧
      (OipfPolyfill.modifyObjectIfNeeded toLowerCase s elem).1.observed = s.observed ∧
      (OipfPolyfill.modifyObjectIfNeeded toLowerCase s elem).1.oipfObjectFactory = s.oipfObjectFactory ∧
      (OipfPolyfill.modifyObjectIfNeeded toLowerCase s elem).1.document = s.document := by
  by_cases hne : s.lastLabel elem = some (toLowerCase (s.typeOf elem))
  · rw [modifyObjectIfNeeded_same toLowerCase s elem hne]
    simp
  · cases hr : (s.MIMETYPE_HANDLERS.get (propertyKey (s.lastLabel elem))).raises .unmix
    · rw [modifyObjectIfNeeded_unmix_returns toLowerCase s elem hne hr]
      obtain ⟨h1, _, h3, h4, h5, h6⟩ := invoke_fields
        { s with
          calls := (invoke s (propertyKey (s.lastLabel elem))
            (s.MIMETYPE_HANDLERS.get (propertyKey (s.lastLabel elem))) .unmix elem).1.calls
          CURRENT_MIXIN_MIMETYPE :=
            recordLabel s.CURRENT_MIXIN_MIMETYPE elem (toLowerCase (s.typeOf elem)) }
        (toLowerCase (s.typeOf elem))
        (s.MIMETYPE_HANDLERS.get (toLowerCase (s.typeOf elem))) .mixin elem
      exact ⟨h1, h3, h4, h5, h6⟩
    · rw [modifyObjectIfNeeded_unmix_raises toLowerCase s elem hne hr]
      obtain ⟨h1, _, h3, h4, h5, h6⟩ := invoke_fields s (propertyKey (s.lastLabel elem))
        (s.MIMETYPE_HANDLERS.get (propertyKey (s.lastLabel elem))) .unmix elem
      exact ⟨h1, h3, h4, h5, h6⟩

/-- The function `modifyObjectIfNeeded` does not write the `type` attribute. -/
theorem modifyObjectIfNeeded_typeOf (toLowerCase : String → String) (s : State)
    (elem other : Node) :
    (OipfPolyfill.modifyObjectIfNeeded toLowerCase s elem).1.typeOf other = s.typeOf other := by
  simp [State.typeOf, (modifyObjectIfNeeded_fields toLowerCase s elem).2.2.2.2]

/-- When the `unmix` step returns, the new label is the recorded one afterwards. -/
theorem modifyObjectIfNeeded_lastLabel_of_returns (toLowerCase : String → String)
    (s : State) (elem : Node)
    (hr : s.lastLabel elem ≠ some (toLowerCase (s.typeOf elem)) →
      (s.MIMETYPE_HANDLERS.get (propertyKey (s.lastLabel elem))).raises .unmix = false) :
    (OipfPolyfill.modifyObjectIfNeeded toLowerCase s elem).1.lastLabel elem =
      some (toLowerCase (s.typeOf elem)) := by
  by_cases hne : s.lastLabel elem = some (toLowerCase (s.typeOf elem))
  · rw [modifyObjectIfNeeded_same toLowerCase s elem hne]
    exact hne
  · rw [modifyObjectIfNeeded_unmix_returns toLowerCase s elem hne (hr hne)]
    unfold State.lastLabel
    rw [(invoke_fields _ _ _ _ _).2.1]
    simp [List.lookup]

/-- A run that got past its `unmix` step is followed by runs that do nothing. -/
theorem modifyObjectIfNeeded_twice (toLowerCase : String → String) (s : State) (elem : Node)
    (hr : s.lastLabel elem ≠ some (toLowerCase (s.typeOf elem)) →
      (s.MIMETYPE_HANDLERS.get (propertyKey (s.lastLabel elem))).raises .unmix = false) :
    modifyObjectIfNeeded toLowerCase (modifyObjectIfNeeded toLowerCase s elem).1 elem =
      ((modifyObjectIfNeeded toLowerCase s elem).1, none) := by
  apply modifyObjectIfNeeded_same
  rw [modifyObjectIfNeeded_typeOf]
  exact modifyObjectIfNeeded_lastLabel_of_returns toLowerCase s elem hr

/-- Repeating after a run that does nothing does nothing. -/
theorem modifyRepeatedly_fixed (toLowerCase : String → String) (n : Nat) (s : State)
    (elem : Node) (h : modifyObjectIfNeeded toLowerCase s elem = (s, none)) :
    modifyRepeatedly toLowerCase n s elem = s := by
  induction n with
  | zero => rfl
  | succ n ih => rw [modifyRepeatedly, h]; exact ih

/-- C3 (amended). Provided the `unmix` that the first run calls for the old label
(if the label changed and a handler is read for it) returns without raising:
running `modifyObjectIfNeeded` `n + 1` times in succession on a node leaves the
same state, log of handler calls included, as running it once, and a further run
changes nothing, calls nothing and raises nothing. -/
theorem modifyObjectIfNeeded_idempotent (toLowerCase : String → String) (s : State)
    (elem : Node) (n : Nat)
    (hr : s.lastLabel elem ≠ some (toLowerCase (s.typeOf elem)) →
      (s.MIMETYPE_HANDLERS.get (propertyKey (s.lastLabel elem))).raises .unmix = false) :
    modifyRepeatedly toLowerCase (n + 1) s elem = (modifyObjectIfNeeded toLowerCase s elem).1 ∧
      modifyObjectIfNeeded toLowerCase (modifyRepeatedly toLowerCase (n + 1) s elem) elem =
        ((modifyObjectIfNeeded toLowerCase s elem).1, none) := by
  have h2 := modifyObjectIfNeeded_twice toLowerCase s elem hr
  have h1 : modifyRepeatedly toLowerCase (n + 1) s elem =
      (OipfPolyfill.modifyObjectIfNeeded toLowerCase s elem).1 := by
    rw [modifyRepeatedly]
    exact modifyRepeatedly_fixed toLowerCase n _ elem h2
  exact ⟨h1, by rw [h1]; exact h2⟩

/-- Witness for C3 (amended): four runs on node `0` of `stAB`. -/
theorem modifyObjectIfNeeded_idempotent_witness :
    modifyRepeatedly asciiLower 4 stAB 0 = (modifyObjectIfNeeded asciiLower stAB 0).1 ∧
      modifyObjectIfNeeded asciiLower (modifyRepeatedly asciiLower 4 stAB 0) 0 =
        ((modifyObjectIfNeeded asciiLower stAB 0).1, none) :=
  modifyObjectIfNeeded_idempotent asciiLower stAB 0 3 (fun _ => by decide)

/-- C3 as stated fails: in `stABbad` the `unmix` of the old label raises, the label
is not recorded, and the second run calls that `unmix` again. -/
theorem modifyObjectIfNeeded_idempotent_counterexample :
    modifyRepeatedly asciiLower 2 stABbad 0 ≠ modifyRepeatedly asciiLower 1 stABbad 0 ∧
      (modifyRepeatedly asciiLower 1 stABbad 0).calls = [⟨.unmix, "a/b", ⟨fnA, fnBad⟩, 0⟩] ∧
      (modifyRepeatedly asciiLower 2 stABbad 0).calls =
        [⟨.unmix, "a/b", ⟨fnA, fnBad⟩, 0⟩, ⟨.unmix, "a/b", ⟨fnA, fnBad⟩, 0⟩] := by
  decide

/-- The log after `invoke`. -/
theorem invoke_calls (s : State) (key : String) (v : Value) (m : Member) (elem : Node) :
    (invoke s key v m elem).1.calls = s.calls ++ v.callOf m key elem := by
  cases v <;> simp [invoke, Value.callOf]

/-- The log after one run of `modifyObjectIfNeeded`. -/
theorem modifyObjectIfNeeded_calls (toLowerCase : String → String) (s : State)
    (elem : Node) :
    (OipfPolyfill.modifyObjectIfNeeded toLowerCase s elem).1.calls =
      s.calls ++ stepCalls toLowerCase s elem := by
  unfold stepCalls
  by_cases hne : s.lastLabel elem = some (toLowerCase (s.typeOf elem))
  · rw [modifyObjectIfNeeded_same toLowerCase s elem hne]
    simp [hne]
  · cases hr : (s.MIMETYPE_HANDLERS.get (propertyKey (s.lastLabel elem))).raises .unmix
    · rw [modifyObjectIfNeeded_unmix_returns toLowerCase s elem hne hr, invoke_calls]
      simp [hne, invoke_calls, List.append_assoc]
    · rw [modifyObjectIfNeeded_unmix_raises toLowerCase s elem hne hr, invoke_calls]
      simp [hne]

/-- The recorded last label after one run of `modifyObjectIfNeeded`. -/
theorem modifyObjectIfNeeded_lastLabel (toLowerCase : String → String) (s : State)
    (elem : Node) :
    (OipfPolyfill.modifyObjectIfNeeded toLowerCase s elem).1.lastLabel elem =
      if s.lastLabel elem ≠ some (toLowerCase (s.typeOf elem)) ∧
          (s.MIMETYPE_HANDLERS.get (propertyKey (s.lastLabel elem))).raises .unmix = true
      then s.lastLabel elem else some (toLowerCase (s.typeOf elem)) := by
  by_cases hne : s.lastLabel elem = some (toLowerCase (s.typeOf elem))
  · rw [modifyObjectIfNeeded_same toLowerCase s elem hne]
    simp [hne]
  · cases hr : (s.MIMETYPE_HANDLERS.get (propertyKey (s.lastLabel elem))).raises .unmix
    · rw [modifyObjectIfNeeded_lastLabel_of_returns toLowerCase s elem (fun _ => hr)]
      simp
    · rw [modifyObjectIfNeeded_unmix_raises toLowerCase s elem hne hr]
      unfold State.lastLabel
      rw [(invoke_fields _ _ _ _ _).2.1]
      have hne2 := hne
      unfold State.lastLabel at hne2
      simp [hne2]

/-- The recorded last label of the other nodes is not touched. -/
theorem modifyObjectIfNeeded_lastLabel_of_ne (toLowerCase : String → String) (s : State)
    (elem other : Node) (h : other ≠ elem) :
    (OipfPolyfill.modifyObjectIfNeeded toLowerCase s elem).1.lastLabel other = s.lastLabel other := by
  have hb : (other == elem) = false := by simpa using h
  by_cases hne : s.lastLabel elem = some (toLowerCase (s.typeOf elem))
  · rw [modifyObjectIfNeeded_same toLowerCase s elem hne]
  · cases hr : (s.MIMETYPE_HANDLERS.get (propertyKey (s.lastLabel elem))).raises .unmix
    · rw [modifyObjectIfNeeded_unmix_returns toLowerCase s elem hne hr]
      unfold State.lastLabel
      rw [(invoke_fields _ _ _ _ _).2.1]
      exact lookup_recordLabel_of_ne _ _ _ _ h
    · rw [modifyObjectIfNeeded_unmix_raises toLowerCase s elem hne hr]
      unfold State.lastLabel
      rw [(invoke_fields _ _ _ _ _).2.1]

/-- What `List.lookup` finds is in the list. -/
theorem mem_of_lookup {κ α : Type} [BEq κ] [LawfulBEq κ] (l : List (κ × α)) (key : κ) (a : α)
    (h : l.lookup key = some a) : (key, a) ∈ l := by
  induction l with
  | nil => simp at h
  | cons p l ih =>
    obtain ⟨k, v⟩ := p
    cases hb : key == k
    · simp only [List.lookup, hb] at h
      exact List.mem_cons_of_mem _ (ih h)
    · simp only [List.lookup, hb, Option.some.injEq] at h
      have hk : key = k := by simpa using hb
      rw [hk, h]
      exact List.mem_cons_self _ _

/-- A handler object read from the registry is stored in it. -/
theorem Handlers.get_handler (r : Handlers) (key : String) (h : Handler)
    (hg : r.get key = .handler h) :
    r.proto = some h ∨ ∃ k, (k, h) ∈ r.own := by
  unfold Handlers.get at hg
  split at hg
  · cases hp : r.proto with
    | none => simp [hp] at hg
    | some h0 =>
      simp only [hp, Value.handler.injEq] at hg
      exact Or.inl (by rw [hg])
  · cases hl : r.own.lookup key with
    | some h0 =>
      simp only [hl, Value.handler.injEq] at hg
      subst hg
      exact Or.inr ⟨key, mem_of_lookup _ _ _ hl⟩
    | none =>
      rw [hl] at hg
      cases hp : r.proto <;> simp only [hp] at hg <;> split at hg <;> simp at hg

/-- When no stored `unmix` raises, the `unmix` of a handler object read from the
registry returns. -/
theorem Handlers.unmix_returns_of_get (r : Handlers) (key : String) (h : Handler)
    (hr : r.unmixReturns = true) (hg : r.get key = .handler h) :
    h.unmix.raises = false := by
  simp only [Handlers.unmixReturns, Bool.and_eq_true, List.all_eq_true] at hr
  rcases Handlers.get_handler r key h hg with hp | ⟨k, hk⟩
  · have := hr.2
    rw [hp] at this
    simpa using this
  · simpa using hr.1 (k, h) hk

/-- Following a sequence of calls in two parts. -/
theorem track_append (view : View) (elem : Node) (xs ys : List Call) (a b : Option Shown)
    (h : track view elem a xs = some b) : track view elem a (xs ++ ys) = track view elem b ys := by
  induction xs generalizing a with
  | nil =>
    cases a <;> simp only [track, Option.some.injEq] at h <;> subst h <;> rfl
  | cons c cs ih =>
    cases a with
    | none =>
      simp only [track, List.cons_append] at h ⊢
      split at h
      · rename_i hc
        rw [if_pos hc]
        exact ih _ h
      · simp at h
    | some p =>
      simp only [track, List.cons_append] at h ⊢
      split at h
      · rename_i hc
        rw [if_pos hc]
        exact ih _ h
      · simp at h

/-- One run of `modifyObjectIfNeeded`, seen by `track`: when no stored `unmix`
raises, the calls of the run are accepted after any history that ended with the
pair `nextUnmix` names, and they end with the pair it names afterwards. -/
theorem track_stepCalls (view : View)
    (toLowerCase : String → String) (s : State) (elem : Node)
    (hu : s.MIMETYPE_HANDLERS.unmixReturns = true) :
    track view elem (nextUnmix view s elem) (stepCalls toLowerCase s elem) =
      some (nextUnmix view (modifyObjectIfNeeded toLowerCase s elem).1 elem) := by
  have hH := (modifyObjectIfNeeded_fields toLowerCase s elem).1
  have hL := modifyObjectIfNeeded_lastLabel toLowerCase s elem
  unfold nextUnmix stepCalls
  rw [hH, hL]
  by_cases hne : s.lastLabel elem = some (toLowerCase (s.typeOf elem))
  · simp [hne, track]
  · simp only [hne, if_false, ne_eq, not_false_eq_true, true_and]
    cases hv : s.MIMETYPE_HANDLERS.get (propertyKey (s.lastLabel elem)) with
    | undefined =>
      cases hw : s.MIMETYPE_HANDLERS.get (toLowerCase (s.typeOf elem)) <;>
        simp [Value.raises, Value.callOf, Value.viewed, track, propertyKey, hw]
    | foreign =>
      simp [Value.raises, Value.callOf, Value.viewed, track, hv]
    | handler h =>
      have hr := Handlers.unmix_returns_of_get _ _ _ hu hv
      cases hw : s.MIMETYPE_HANDLERS.get (toLowerCase (s.typeOf elem)) <;>
        simp [Value.raises, Value.callOf, Value.viewed, track, propertyKey, hw, hr,
          Member.select]

/-- A label change does not touch the registry. -/
theorem relabel_handlers (toLowerCase : String → String) (s : State) (elem : Node)
    (value : String) :
    (relabel toLowerCase s elem value).MIMETYPE_HANDLERS = s.MIMETYPE_HANDLERS := by
  unfold relabel
  rw [(modifyObjectIfNeeded_fields toLowerCase _ elem).1]
  rfl

/-- A sequence of label changes does not touch the registry. -/
theorem relabelAll_handlers (toLowerCase : String → String) (s : State) (elem : Node)
    (values : List String) :
    (relabelAll toLowerCase s elem values).MIMETYPE_HANDLERS = s.MIMETYPE_HANDLERS := by
  induction values generalizing s with
  | nil => rfl
  | cons v vs ih => rw [relabelAll, ih, relabel_handlers]

/-- The calls of a sequence of label changes extend the log, and `track` accepts
them when no stored `unmix` raises. -/
theorem relabelAll_track (view : View) (toLowerCase : String → String) (s : State) (elem : Node)
    (values : List String) (hu : s.MIMETYPE_HANDLERS.unmixReturns = true) :
    ∃ added : List Call,
      (relabelAll toLowerCase s elem values).calls = s.calls ++ added ∧
      track view elem (nextUnmix view s elem) added =
        some (nextUnmix view (relabelAll toLowerCase s elem values) elem) := by
  induction values generalizing s with
  | nil => exact ⟨[], by simp [relabelAll], by simp [relabelAll, track]⟩
  | cons v vs ih =>
    have hu2 : (relabel toLowerCase s elem v).MIMETYPE_HANDLERS.unmixReturns = true := by
      rw [relabel_handlers]; exact hu
    obtain ⟨added, hc, ht⟩ := ih (relabel toLowerCase s elem v) hu2
    have h1 := modifyObjectIfNeeded_calls toLowerCase (s.setType elem v) elem
    have h2 := track_stepCalls view toLowerCase (s.setType elem v) elem hu
    refine ⟨stepCalls toLowerCase (s.setType elem v) elem ++ added, ?_, ?_⟩
    · rw [relabelAll, hc]
      unfold relabel
      rw [h1, List.append_assoc]
      rfl
    · have h3 : nextUnmix view (s.setType elem v) elem = nextUnmix view s elem := rfl
      rw [h3] at h2
      rw [track_append view elem _ added _ _ h2]
      exact ht

/-- A handler object read under a key is the pair registered under that key. -/
theorem Handlers.registered_of_get (r : Handlers) (key : String) (h : Handler)
    (hg : r.get key = .handler h) : r.registered key = some h := by
  unfold Handlers.get at hg
  unfold Handlers.registered
  split at hg
  · rename_i hk
    rw [if_pos hk]
    cases hp : r.proto with
    | none => simp [hp] at hg
    | some h0 => simpa [hp] using hg
  · rename_i hk
    rw [if_neg hk]
    cases hl : r.own.lookup key with
    | some h0 => simpa [hl] using hg
    | none =>
      rw [hl] at hg
      cases hp : r.proto <;> simp only [hp] at hg <;> split at hg <;> simp at hg

/-- The pair registered under a key is what a read of the key yields. -/
theorem Handlers.get_of_registered (r : Handlers) (key : String) (h : Handler)
    (hg : r.registered key = some h) : r.get key = .handler h := by
  unfold Handlers.registered at hg
  unfold Handlers.get
  split at hg
  · rename_i hk
    rw [if_pos hk, hg]
  · rename_i hk
    rw [if_neg hk, hg]

/-- One label change whose `unmix` step returns: the calls it adds and the label
it records. -/
theorem relabel_step (toLowerCase : String → String) (s : State) (elem : Node)
    (value : String) (old : Option String) (hold : s.lastLabel elem = old)
    (hne : old ≠ some (toLowerCase value))
    (hr : (s.MIMETYPE_HANDLERS.get (propertyKey old)).raises .unmix = false) :
    (relabel toLowerCase s elem value).calls =
        s.calls ++ ((s.MIMETYPE_HANDLERS.get (propertyKey old)).callOf .unmix
            (propertyKey old) elem ++
          (s.MIMETYPE_HANDLERS.get (toLowerCase value)).callOf .mixin
            (toLowerCase value) elem) ∧
      (relabel toLowerCase s elem value).lastLabel elem = some (toLowerCase value) ∧
      (relabel toLowerCase s elem value).MIMETYPE_HANDLERS = s.MIMETYPE_HANDLERS := by
  subst hold
  have hl : (s.setType elem value).lastLabel elem = s.lastLabel elem := rfl
  have hh : (s.setType elem value).MIMETYPE_HANDLERS = s.MIMETYPE_HANDLERS := rfl
  have ht := typeOf_setType_self s elem value
  refine ⟨?_, ?_, relabel_handlers toLowerCase s elem value⟩
  · unfold relabel
    rw [modifyObjectIfNeeded_calls]
    unfold stepCalls
    rw [hl, hh, ht, if_neg hne, hr]
    rfl
  · unfold relabel
    rw [modifyObjectIfNeeded_lastLabel, hl, hh, ht, hr]
    simp

/-- A key with no registered pair leads to no call. -/
theorem Handlers.callOf_of_not_registered (r : Handlers) (key : String) (m : Member)
    (elem : Node) (h : r.registered key = none) : (r.get key).callOf m key elem = [] := by
  cases hg : r.get key with
  | undefined => rfl
  | foreign => rfl
  | handler h0 =>
    rw [Handlers.registered_of_get r key h0 hg] at h
    simp at h

/-- C4 (amended). Under a registry that does not change: (1) when no stored
`unmix` raises, for every node whose recorded last label has no registered
handler and every finite sequence of label changes, each followed by
`modifyObjectIfNeeded`, the handler calls added to the log are all on that node
and strictly alternate `mixin`, `unmix`, `mixin`, ..., starting with a `mixin`,
each `unmix` being that of the pair, and under the label, of the `mixin` right
before it; (2) for distinct registered labels A and B whose `unmix` return,
starting from a recorded label for which the registry yields nothing, the label
sequence A, B, unregistered makes exactly the calls mixinA, unmixA, mixinB,
unmixB; (3) for a registered label X whose `unmix` returns, the label sequence X,
a label for which the registry yields nothing, X again makes exactly the calls
mixinX, unmixX, mixinX. -/
theorem relabelAll_alternates (toLowerCase : String → String) :
    (∀ (s : State) (elem : Node) (values : List String) (r0 : String),
      s.MIMETYPE_HANDLERS.unmixReturns = true →
      s.lastLabel elem = some r0 →
      s.MIMETYPE_HANDLERS.registered r0 = none →
      (relabelAll toLowerCase s elem values).calls =
          s.calls ++ callsSince s (relabelAll toLowerCase s elem values) ∧
        (track byPair elem none (callsSince s (relabelAll toLowerCase s elem values))).isSome =
          true) ∧
    (∀ (s : State) (elem : Node) (r0 tA tB tN : String) (hA hB : Handler),
      s.lastLabel elem = some r0 →
      s.MIMETYPE_HANDLERS.get r0 = .undefined →
      s.MIMETYPE_HANDLERS.registered (toLowerCase tA) = some hA →
      s.MIMETYPE_HANDLERS.registered (toLowerCase tB) = some hB →
      toLowerCase tA ≠ toLowerCase tB →
      s.MIMETYPE_HANDLERS.registered (toLowerCase tN) = none →
      hA.unmix.raises = false →
      hB.unmix.raises = false →
      (relabelAll toLowerCase s elem [tA, tB, tN]).calls =
        s.calls ++
          [⟨.mixin, toLowerCase tA, hA, elem⟩, ⟨.unmix, toLowerCase tA, hA, elem⟩,
            ⟨.mixin, toLowerCase tB, hB, elem⟩, ⟨.unmix, toLowerCase tB, hB, elem⟩]) ∧
    (∀ (s : State) (elem : Node) (r0 tX tZ tX2 : String) (hX : Handler),
      s.lastLabel elem = some r0 →
      s.MIMETYPE_HANDLERS.get r0 = .undefined →
      s.MIMETYPE_HANDLERS.registered (toLowerCase tX) = some hX →
      toLowerCase tX2 = toLowerCase tX →
      s.MIMETYPE_HANDLERS.get (toLowerCase tZ) = .undefined →
      hX.unmix.raises = false →
      (relabelAll toLowerCase s elem [tX, tZ, tX2]).calls =
        s.calls ++
          [⟨.mixin, toLowerCase tX, hX, elem⟩, ⟨.unmix, toLowerCase tX, hX, elem⟩,
            ⟨.mixin, toLowerCase tX, hX, elem⟩]) := by
  refine ⟨?_, ?_, ?_⟩
  · intro s elem values r0 hu hl hn
    obtain ⟨added, hc, ht⟩ := relabelAll_track byPair toLowerCase s elem values hu
    have h0 : nextUnmix byPair s elem = none := by
      unfold nextUnmix
      rw [hl]
      cases hg : s.MIMETYPE_HANDLERS.get (propertyKey (some r0)) with
      | undefined => rfl
      | foreign => rfl
      | handler h =>
        have := Handlers.registered_of_get _ _ _ hg
        simp only [propertyKey] at this
        rw [hn] at this
        simp at this
    have hs : callsSince s (relabelAll toLowerCase s elem values) = added := by
      simp [callsSince, hc]
    rw [h0] at ht
    rw [hs, ht]
    exact ⟨hc, rfl⟩
  · intro s elem r0 tA tB tN hA hB hl h0 ha hb hab hn hra hrb
    have ga := Handlers.get_of_registered _ _ _ ha
    have gb := Handlers.get_of_registered _ _ _ hb
    have h0a : some r0 ≠ some (toLowerCase tA) := by
      intro h
      simp only [Option.some.injEq] at h
      rw [h, ga] at h0
      simp at h0
    obtain ⟨c1, l1, r1⟩ := relabel_step toLowerCase s elem tA (some r0) hl h0a
      (by simp [propertyKey, h0, Value.raises])
    have hbn : some (toLowerCase tB) ≠ some (toLowerCase tN) := by
      intro h
      simp only [Option.some.injEq] at h
      rw [h, hn] at hb
      simp at hb
    obtain ⟨c2, l2, r2⟩ := relabel_step toLowerCase (relabel toLowerCase s elem tA) elem tB
      (some (toLowerCase tA)) l1 (by simpa using hab)
      (by rw [r1]; simp [propertyKey, ga, Value.raises, Member.select, hra])
    obtain ⟨c3, _, _⟩ := relabel_step toLowerCase
      (relabel toLowerCase (relabel toLowerCase s elem tA) elem tB) elem tN
      (some (toLowerCase tB)) l2 hbn
      (by rw [r2, r1]; simp [propertyKey, gb, Value.raises, Member.select, hrb])
    simp only [relabelAll]
    rw [c3, c2, c1, r2, r1, Handlers.callOf_of_not_registered _ _ _ _ hn]
    simp [propertyKey, h0, ga, gb, Value.callOf]
  · intro s elem r0 tX tZ tX2 hX hl h0 hx hxx hz hrx
    have gx := Handlers.get_of_registered _ _ _ hx
    have h0x : some r0 ≠ some (toLowerCase tX) := by
      intro h
      simp only [Option.some.injEq] at h
      rw [h, gx] at h0
      simp at h0
    have hxz : some (toLowerCase tX) ≠ some (toLowerCase tZ) := by
      intro h
      simp only [Option.some.injEq] at h
      rw [← h, gx] at hz
      simp at hz
    obtain ⟨c1, l1, r1⟩ := relabel_step toLowerCase s elem tX (some r0) hl h0x
      (by simp [propertyKey, h0, Value.raises])
    obtain ⟨c2, l2, r2⟩ := relabel_step toLowerCase (relabel toLowerCase s elem tX) elem tZ
      (some (toLowerCase tX)) l1 hxz
      (by rw [r1]; simp [propertyKey, gx, Value.raises, Member.select, hrx])
    obtain ⟨c3, _, _⟩ := relabel_step toLowerCase
      (relabel toLowerCase (relabel toLowerCase s elem tX) elem tZ) elem tX2
      (some (toLowerCase tZ)) l2 (by rw [hxx]; exact fun h => hxz h.symm)
      (by rw [r2, r1]; simp [propertyKey, hz, Value.raises])
    simp only [relabelAll]
    rw [c3, c2, c1, r2, r1, hxx]
    simp [propertyKey, h0, gx, hz, Value.callOf]

/-- Witness for C4 (amended): node `0` of `stEmpty`, where handlers are registered
for `a/b` and `x/y` and the recorded label is the empty one. -/
theorem relabelAll_alternates_witness :
    ((relabelAll asciiLower stEmpty 0 ["A/B", "X/Y", "a/b", ""]).calls =
        stEmpty.calls ++ callsSince stEmpty (relabelAll asciiLower stEmpty 0 ["A/B", "X/Y", "a/b", ""]) ∧
      (track byPair 0 none (callsSince stEmpty
        (relabelAll asciiLower stEmpty 0 ["A/B", "X/Y", "a/b", ""]))).isSome = true) ∧
    (relabelAll asciiLower stEmpty 0 ["A/B", "X/Y", "z/w"]).calls =
      [⟨.mixin, "a/b", ⟨fnA, fnB⟩, 0⟩, ⟨.unmix, "a/b", ⟨fnA, fnB⟩, 0⟩,
        ⟨.mixin, "x/y", ⟨fnC, fnD⟩, 0⟩, ⟨.unmix, "x/y", ⟨fnC, fnD⟩, 0⟩] ∧
    (relabelAll asciiLower stEmpty 0 ["X/Y", "z/w", "x/y"]).calls =
      [⟨.mixin, "x/y", ⟨fnC, fnD⟩, 0⟩, ⟨.unmix, "x/y", ⟨fnC, fnD⟩, 0⟩,
        ⟨.mixin, "x/y", ⟨fnC, fnD⟩, 0⟩] :=
  ⟨(relabelAll_alternates asciiLower).1 stEmpty 0 ["A/B", "X/Y", "a/b", ""] ""
      (by decide) (by decide) (by decide),
    (relabelAll_alternates asciiLower).2.1 stEmpty 0 "" "A/B" "X/Y" "z/w" ⟨fnA, fnB⟩ ⟨fnC, fnD⟩
      (by decide) (by decide) (by decide) (by decide) (by decide) (by decide) (by decide)
      (by decide),
    (relabelAll_alternates asciiLower).2.2 stEmpty 0 "" "X/Y" "z/w" "x/y" ⟨fnC, fnD⟩
      (by decide) (by decide) (by decide) (by decide) (by decide) (by decide)⟩

/-- C4 as stated fails. In `stEmptyBad` node `0` is monitored with the empty label
recorded, which has no handler; the `unmix` registered for `a/b` raises, so the
sequence `a/b`, `x/y`, empty calls mixinA, unmixA, unmixA: two `unmix` in a row and
no mixinB. In `stConstructor` the recorded label `constructor` has no registered
handler either, but the read of that key yields a value inherited from
`Object.prototype`, every run raises a `TypeError` and no handler is ever called. -/
theorem relabelAll_alternates_counterexample :
    (0 ∈ stEmptyBad.MONITORING ∧ stEmptyBad.lastLabel 0 = some "" ∧
      stEmptyBad.MIMETYPE_HANDLERS.registered "" = none ∧
      (relabelAll asciiLower stEmptyBad 0 ["a/b", "x/y", ""]).calls =
        [⟨.mixin, "a/b", ⟨fnA, fnBad⟩, 0⟩, ⟨.unmix, "a/b", ⟨fnA, fnBad⟩, 0⟩,
          ⟨.unmix, "a/b", ⟨fnA, fnBad⟩, 0⟩] ∧
      track byPair 0 none (callsSince stEmptyBad
        (relabelAll asciiLower stEmptyBad 0 ["a/b", "x/y", ""])) = none) ∧
    (0 ∈ stConstructor.MONITORING ∧ stConstructor.lastLabel 0 = some "constructor" ∧
      stConstructor.MIMETYPE_HANDLERS.registered "constructor" = none ∧
      stConstructor.MIMETYPE_HANDLERS.registered "a/b" = some ⟨fnA, fnB⟩ ∧
      stConstructor.MIMETYPE_HANDLERS.registered "x/y" = some ⟨fnC, fnD⟩ ∧
      (relabelAll asciiLower stConstructor 0 ["a/b", "x/y", ""]).calls = []) := by
  decide

/-- Every call of one run of `modifyObjectIfNeeded` is on the node it was run on. -/
theorem stepCalls_elem (toLowerCase : String → String) (s : State) (elem : Node) (c : Call)
    (hc : c ∈ stepCalls toLowerCase s elem) : c.elem = elem := by
  unfold stepCalls at hc
  split at hc
  · simp at hc
  · rw [List.mem_append] at hc
    rcases hc with h | h
    · cases hv : s.MIMETYPE_HANDLERS.get (propertyKey (s.lastLabel elem)) <;>
        simp [hv, Value.callOf] at h
      rw [h]
    · split at h
      · simp at h
      · cases hv : s.MIMETYPE_HANDLERS.get (toLowerCase (s.typeOf elem)) <;>
          simp [hv, Value.callOf] at h
        rw [h]

/-- The log of a node after one run of `modifyObjectIfNeeded` on some node. -/
theorem callsOn_modifyObjectIfNeeded (toLowerCase : String → String) (s : State)
    (elem node : Node) :
    callsOn (modifyObjectIfNeeded toLowerCase s elem).1 node =
      callsOn s node ++ (if node = elem then stepCalls toLowerCase s elem else []) := by
  unfold callsOn
  rw [modifyObjectIfNeeded_calls, List.filter_append]
  congr 1
  by_cases h : node = elem
  · rw [if_pos h, List.filter_eq_self]
    intro c hc
    simp [stepCalls_elem toLowerCase s elem c hc, h]
  · rw [if_neg h, List.filter_eq_nil_iff]
    intro c hc
    simp [stepCalls_elem toLowerCase s elem c hc]
    exact fun hh => h hh.symm

/-- One run of `modifyObjectIfNeeded` keeps the log and the trackers in agreement,
when no stored `unmix` raises. -/
theorem paired_modifyObjectIfNeeded (view : View) (toLowerCase : String → String) (s : State)
    (elem : Node) (hu : s.MIMETYPE_HANDLERS.unmixReturns = true) (hp : Paired view s) :
    Paired view (modifyObjectIfNeeded toLowerCase s elem).1 := by
  intro node
  rw [callsOn_modifyObjectIfNeeded]
  by_cases h : node = elem
  · subst h
    rw [if_pos rfl, track_append view _ _ _ _ _ (hp node)]
    exact track_stepCalls view toLowerCase s node hu
  · rw [if_neg h, List.append_nil, hp node]
    unfold nextUnmix
    rw [(modifyObjectIfNeeded_fields toLowerCase s elem).1,
      modifyObjectIfNeeded_lastLabel_of_ne toLowerCase s elem node h]

/-- The function `setupMonitorOnObject` does not write the registry. -/
theorem setupMonitorOnObject_handlers (toLowerCase : String → String) (s : State)
    (elem : Node) :
    (setupMonitorOnObject toLowerCase s elem).1.MIMETYPE_HANDLERS = s.MIMETYPE_HANDLERS := by
  unfold setupMonitorOnObject
  split
  · rfl
  · rw [(modifyObjectIfNeeded_fields toLowerCase _ elem).1]

/-- One run of `setupMonitorOnObject` keeps the log and the trackers in
agreement, when no stored `unmix` raises. -/
theorem paired_setupMonitorOnObject (view : View) (toLowerCase : String → String) (s : State)
    (elem : Node) (hu : s.MIMETYPE_HANDLERS.unmixReturns = true) (hp : Paired view s) :
    Paired view (setupMonitorOnObject toLowerCase s elem).1 := by
  unfold setupMonitorOnObject
  split
  · exact hp
  · exact paired_modifyObjectIfNeeded view toLowerCase _ elem hu hp

/-- The loop of the sweep does not write the registry. -/
theorem scanLoop_handlers (toLowerCase : String → String) (elems : List Node) (s : State) :
    (scanLoop toLowerCase elems s).1.MIMETYPE_HANDLERS = s.MIMETYPE_HANDLERS := by
  induction elems generalizing s with
  | nil => rfl
  | cons e es ih =>
    have h1 := setupMonitorOnObject_handlers toLowerCase s e
    unfold scanLoop
    generalize setupMonitorOnObject toLowerCase s e = o at h1 ⊢
    obtain ⟨s1, x⟩ := o
    cases x with
    | some x => exact h1
    | none =>
      simp only
      rw [ih s1]
      exact h1

/-- The sweep keeps the log and the trackers in agreement, when no stored `unmix`
raises. -/
theorem paired_scanLoop (view : View) (toLowerCase : String → String) (elems : List Node) (s : State)
    (hu : s.MIMETYPE_HANDLERS.unmixReturns = true) (hp : Paired view s) :
    Paired view (scanLoop toLowerCase elems s).1 := by
  induction elems generalizing s with
  | nil => exact hp
  | cons e es ih =>
    have h1 := setupMonitorOnObject_handlers toLowerCase s e
    have h2 := paired_setupMonitorOnObject view toLowerCase s e hu hp
    unfold scanLoop
    generalize setupMonitorOnObject toLowerCase s e = o at h1 h2 ⊢
    obtain ⟨s1, x⟩ := o
    cases x with
    | some x => exact h2
    | none =>
      simp only at h1 h2 ⊢
      exact ih s1 (by rw [h1]; exact hu) h2

/-- Storing a pair whose `unmix` returns keeps every stored `unmix` returning. -/
theorem Handlers.unmixReturns_set (r : Handlers) (key : String) (h : Handler)
    (hr : r.unmixReturns = true) (hh : h.unmix.raises = false) :
    (r.set key h).unmixReturns = true := by
  simp only [Handlers.unmixReturns, Bool.and_eq_true, List.all_eq_true] at hr ⊢
  unfold Handlers.set
  split
  · exact ⟨hr.1, by simp [hh]⟩
  · refine ⟨?_, hr.2⟩
    intro p hp
    rcases List.mem_cons.1 hp with h1 | h1
    · rw [h1]
      simp [hh]
    · exact hr.1 p (List.mem_of_mem_filter h1)

/-- What `Handlers.quietFor` checks, node by node. -/
theorem Handlers.quietFor_get (view : View)
    (r r2 : Handlers) (labels : List (Node × String))
    (hq : Handlers.quietFor view r r2 labels = true) (node : Node) :
    (r2.get (propertyKey (labels.lookup node))).viewed view (propertyKey (labels.lookup node)) =
      (r.get (propertyKey (labels.lookup node))).viewed view
        (propertyKey (labels.lookup node)) := by
  simp only [Handlers.quietFor, Bool.and_eq_true, decide_eq_true_eq, List.all_eq_true] at hq
  cases hl : labels.lookup node with
  | none => exact hq.1
  | some l => exact hq.2 (node, l) (mem_of_lookup labels node l hl)

/-- A registration of a label that is not in use keeps the log and the trackers in
agreement. -/
theorem paired_of_quietFor (view : View)
    (s : State) (r2 : Handlers) (factory : List (String × Factory))
    (hq : Handlers.quietFor view s.MIMETYPE_HANDLERS r2 s.CURRENT_MIXIN_MIMETYPE = true)
    (hp : Paired view s) :
    Paired view { s with MIMETYPE_HANDLERS := r2, oipfObjectFactory := factory } := by
  intro node
  have h1 := hp node
  have h2 := Handlers.quietFor_get view _ _ _ hq node
  unfold nextUnmix at h1 ⊢
  unfold State.lastLabel at h1 ⊢
  simp only at h2 ⊢
  rw [h2]
  exact h1

/-- Every quiet operation keeps the stored `unmix` returning and the log and the
trackers in agreement. -/
theorem paired_apply (view : View) (toLowerCase : String → String) (s : State) (a : Action)
    (hq : a.quiet view toLowerCase s = true) (hu : s.MIMETYPE_HANDLERS.unmixReturns = true)
    (hp : Paired view s) :
    (a.apply toLowerCase s).MIMETYPE_HANDLERS.unmixReturns = true ∧
      Paired view (a.apply toLowerCase s) := by
  cases a with
  | registerOipfObject mimeType methodName mixinFunc unmixFunc =>
    simp only [Action.quiet, Bool.and_eq_true, Bool.not_eq_true'] at hq
    have hu2 := Handlers.unmixReturns_set s.MIMETYPE_HANDLERS (toLowerCase mimeType)
      ⟨mixinFunc, unmixFunc⟩ hu hq.1
    have hp2 := paired_of_quietFor view s _ (assignSlot s.oipfObjectFactory methodName (.create mimeType))
      hq.2 hp
    simp only [Action.apply, registerOipfObject, scanForAndModifyObjects]
    exact ⟨by rw [scanLoop_handlers]; exact hu2, paired_scanLoop view toLowerCase _ _ hu2 hp2⟩
  | registerNonFactoryObject mimeType mixinFunc unmixFunc =>
    simp only [Action.quiet, Bool.and_eq_true, Bool.not_eq_true'] at hq
    have hu2 := Handlers.unmixReturns_set s.MIMETYPE_HANDLERS (toLowerCase mimeType)
      ⟨mixinFunc, unmixFunc⟩ hu hq.1
    have hp2 := paired_of_quietFor view s _ s.oipfObjectFactory hq.2 hp
    simp only [Action.apply, registerNonFactoryObject, scanForAndModifyObjects]
    exact ⟨by rw [scanLoop_handlers]; exact hu2, paired_scanLoop view toLowerCase _ _ hu2 hp2⟩
  | setType elem value => exact ⟨hu, hp⟩
  | setupMonitorOnObject elem =>
    exact ⟨by simp only [Action.apply]; rw [setupMonitorOnObject_handlers]; exact hu,
      paired_setupMonitorOnObject view toLowerCase s elem hu hp⟩
  | modifyObjectIfNeeded elem =>
    exact ⟨by simp only [Action.apply]; rw [(modifyObjectIfNeeded_fields _ _ _).1]; exact hu,
      paired_modifyObjectIfNeeded view toLowerCase s elem hu hp⟩

/-- A sequence of quiet operations keeps the stored `unmix` returning and the log
and the trackers in agreement. -/
theorem paired_execute (view : View) (toLowerCase : String → String) (s : State) (actions : List Action)
    (hq : quietRun view toLowerCase s actions = true)
    (hu : s.MIMETYPE_HANDLERS.unmixReturns = true) (hp : Paired view s) :
    Paired view (execute toLowerCase s actions) := by
  induction actions generalizing s with
  | nil => exact hp
  | cons a rest ih =>
    simp only [quietRun, Bool.and_eq_true] at hq
    obtain ⟨hu2, hp2⟩ := paired_apply view toLowerCase s a hq.1 hu hp
    exact ih _ hq.2 hu2 hp2

/-- Right after load nothing is logged and nothing is recorded. -/
theorem paired_loaded (view : View) (d : Document) : Paired view (State.loaded d) := by
  intro node
  rfl

/-- When a log that `track` accepts leaves something mixed in, either the log is
empty or its last call is a `mixin` on the node, of what is mixed in. -/
theorem track_getLast (view : View)
    (node : Node) (cs : List Call) (a : Option Shown) (b : Shown)
    (h : track view node a cs = some (some b)) :
    (cs = [] ∧ a = some b) ∨
      ∃ c, cs.getLast? = some c ∧ c.member = .mixin ∧ c.elem = node ∧
        view c.key c.handler = b := by
  induction cs generalizing a with
  | nil =>
    cases a <;> simp only [track, Option.some.injEq] at h
    · simp at h
    · exact Or.inl ⟨rfl, by rw [h]⟩
  | cons c cs ih =>
    cases a with
    | none =>
      simp only [track] at h
      split at h
      · rename_i hc
        rcases ih _ h with ⟨h1, h2⟩ | h1
        · right
          subst h1
          simp only [Option.some.injEq] at h2
          exact ⟨c, rfl, hc.1, hc.2, h2⟩
        · right
          cases cs with
          | nil => simp at h1
          | cons c2 cs2 => rw [List.getLast?_cons_cons]; exact h1
      · simp at h
    | some q =>
      simp only [track] at h
      split at h
      · rcases ih _ h with ⟨_, h2⟩ | h1
        · simp at h2
        · right
          cases cs with
          | nil => simp at h1
          | cons c2 cs2 => rw [List.getLast?_cons_cons]; exact h1
      · simp at h

/-- C5 (amended). Invariant I1 over every state reached from the freshly loaded
script by an interleaving of registrations, label changes, `setupMonitorOnObject`
and `modifyObjectIfNeeded` in which every registration is quiet (it stores an
`unmix` that returns and does not change what the recorded last label of a node
resolves to): for every node the logged calls alternate `mixin` and `unmix` of
one and the same pair, so at most one pair is active on the node at any time, no
`mixin` is called while a pair is active and an `unmix` is only called for the
active pair. -/
theorem one_active_handler (toLowerCase : String → String) (d : Document)
    (actions : List Action) (node : Node)
    (hq : quietRun byPair toLowerCase (State.loaded d) actions = true) :
    (track byPair node none
      (callsOn (execute toLowerCase (State.loaded d) actions) node)).isSome = true := by
  rw [paired_execute byPair toLowerCase (State.loaded d) actions hq rfl
    (paired_loaded byPair d) node]
  rfl

/-- Witness for C5 (amended): the run `runQuiet` on the document `docAB`. -/
theorem one_active_handler_witness :
    quietRun byPair asciiLower (State.loaded docAB) runQuiet = true ∧
      (track byPair 0 none
        (callsOn (execute asciiLower (State.loaded docAB) runQuiet) 0)).isSome = true :=
  ⟨by decide, one_active_handler asciiLower docAB runQuiet 0 (by decide)⟩

/-- C5 as stated fails. After a pair was re-registered for a label in use, the
label change calls the `unmix` of the second pair while the first pair is the
active one; after a late registration, the label change calls the `unmix` of a
pair that was never mixed in. -/
theorem one_active_handler_counterexample :
    ((execute asciiLower (State.loaded docAB) runReRegister).calls =
        [⟨.mixin, "a/b", ⟨fnA, fnB⟩, 0⟩, ⟨.unmix, "a/b", ⟨fnC, fnD⟩, 0⟩] ∧
      track byPair 0 none
        (callsOn (execute asciiLower (State.loaded docAB) runReRegister) 0) = none) ∧
    ((execute asciiLower (State.loaded docAB) runLateRegisterThenChange).calls =
        [⟨.unmix, "a/b", ⟨fnA, fnB⟩, 0⟩] ∧
      track byPair 0 none
        (callsOn (execute asciiLower (State.loaded docAB) runLateRegisterThenChange) 0) =
          none) := by
  decide

/-- C6 (amended). Invariant I2 over every state reached from the freshly loaded
script by an interleaving of registrations, label changes, `setupMonitorOnObject`
and `modifyObjectIfNeeded` in which every registration stores an `unmix` that
returns and does not change whether the recorded last label of a node has a
handler (re-registering a label in use is allowed, registering it late is not):
for every node the label the log shows as mixed in is the recorded last label
when the registry yields a handler for it, and none otherwise; and whenever a
handler is registered for the recorded last label L of the node, the most recent
call on the node is a `mixin` for L. -/
theorem last_label_is_active (toLowerCase : String → String) (d : Document)
    (actions : List Action) (node : Node)
    (hq : quietRun byLabel toLowerCase (State.loaded d) actions = true) :
    track byLabel node none (callsOn (execute toLowerCase (State.loaded d) actions) node) =
        some (nextUnmix byLabel (execute toLowerCase (State.loaded d) actions) node) ∧
      ∀ (L : String) (h : Handler),
        (execute toLowerCase (State.loaded d) actions).lastLabel node = some L →
        (execute toLowerCase (State.loaded d) actions).MIMETYPE_HANDLERS.registered L =
          some h →
        ∃ c, (callsOn (execute toLowerCase (State.loaded d) actions) node).getLast? = some c ∧
          c.member = .mixin ∧ c.elem = node ∧ c.key = L := by
  have hp := paired_execute byLabel toLowerCase (State.loaded d) actions hq rfl
    (paired_loaded byLabel d) node
  refine ⟨hp, fun L h hl hr => ?_⟩
  have hg := Handlers.get_of_registered _ _ _ hr
  have hn : nextUnmix byLabel (execute toLowerCase (State.loaded d) actions) node =
      some (L, none) := by
    unfold nextUnmix
    rw [hl]
    simp only [propertyKey]
    rw [hg]
    rfl
  rw [hn] at hp
  rcases track_getLast byLabel node _ none (L, none) hp with ⟨_, h2⟩ | h2
  · simp at h2
  · obtain ⟨c, h3, h4, h5, h6⟩ := h2
    exact ⟨c, h3, h4, h5, congrArg Prod.fst h6⟩

/-- Witness for C6 (amended): two pairs registered for the label of node `0`, the
second while the first is mixed in. -/
theorem last_label_is_active_witness :
    quietRun byLabel asciiLower (State.loaded docAB) runTwoPairs = true ∧
      track byLabel 0 none (callsOn (execute asciiLower (State.loaded docAB) runTwoPairs) 0) =
        some (some ("a/b", none)) ∧
      ∀ (L : String) (h : Handler),
        (execute asciiLower (State.loaded docAB) runTwoPairs).lastLabel 0 = some L →
        (execute asciiLower (State.loaded docAB) runTwoPairs).MIMETYPE_HANDLERS.registered L =
          some h →
        ∃ c, (callsOn (execute asciiLower (State.loaded docAB) runTwoPairs) 0).getLast? =
            some c ∧
          c.member = .mixin ∧ c.elem = 0 ∧ c.key = L :=
  ⟨by decide, last_label_is_active asciiLower docAB runTwoPairs 0 (by decide)⟩

/-- C6 as stated fails. After a late registration the recorded last label `a/b` of
node `0` has a registered handler, yet no `mixin` was ever called on the node;
after an `unmix` that raised, the recorded last label is still `a/b`, whose most
recent call on the node is that `unmix`. -/
theorem last_label_is_active_counterexample :
    ((execute asciiLower (State.loaded docAB) runLateRegister).lastLabel 0 = some "a/b" ∧
      (execute asciiLower (State.loaded docAB) runLateRegister).MIMETYPE_HANDLERS.registered
        "a/b" = some ⟨fnA, fnB⟩ ∧
      (execute asciiLower (State.loaded docAB) runLateRegister).calls = []) ∧
    ((execute asciiLower (State.loaded docAB) runRaisingUnmix).lastLabel 0 = some "a/b" ∧
      (execute asciiLower (State.loaded docAB) runRaisingUnmix).MIMETYPE_HANDLERS.registered
        "a/b" = some ⟨fnA, fnBad⟩ ∧
      (execute asciiLower (State.loaded docAB) runRaisingUnmix).calls =
        [⟨.mixin, "a/b", ⟨fnA, fnBad⟩, 0⟩, ⟨.unmix, "a/b", ⟨fnA, fnBad⟩, 0⟩]) := by
  decide

/-- The exception of `invoke`. -/
theorem invoke_thrown (s : State) (key : String) (v : Value) (m : Member) (elem : Node) :
    (invoke s key v m elem).2 = v.thrown m := by
  cases v <;> rfl

/-- `Value.raises` tells whether `Value.thrown` is an exception. -/
theorem Value.thrown_eq_none_iff (v : Value) (m : Member) :
    v.thrown m = none ↔ v.raises m = false := by
  cases v <;> simp [Value.thrown, Value.raises, Fn.call]

/-- The exception one run of `modifyObjectIfNeeded` ends with. -/
theorem modifyObjectIfNeeded_thrown (toLowerCase : String → String) (s : State)
    (elem : Node) :
    (modifyObjectIfNeeded toLowerCase s elem).2 =
      if s.lastLabel elem = some (toLowerCase (s.typeOf elem)) then none
      else if (s.MIMETYPE_HANDLERS.get (propertyKey (s.lastLabel elem))).raises .unmix = true
      then (s.MIMETYPE_HANDLERS.get (propertyKey (s.lastLabel elem))).thrown .unmix
      else (s.MIMETYPE_HANDLERS.get (toLowerCase (s.typeOf elem))).thrown .mixin := by
  by_cases hne : s.lastLabel elem = some (toLowerCase (s.typeOf elem))
  · rw [modifyObjectIfNeeded_same toLowerCase s elem hne, if_pos hne]
  · rw [if_neg hne]
    cases hr : (s.MIMETYPE_HANDLERS.get (propertyKey (s.lastLabel elem))).raises .unmix
    · rw [modifyObjectIfNeeded_unmix_returns toLowerCase s elem hne hr, invoke_thrown]
      simp
    · rw [modifyObjectIfNeeded_unmix_raises toLowerCase s elem hne hr, invoke_thrown]
      simp

/-- The function `setupMonitorOnObject` on a node that is not monitored yet: the
node is marked and observed, then `modifyObjectIfNeeded` runs. -/
theorem setupMonitorOnObject_of_not_monitored (toLowerCase : String → String) (s : State)
    (elem : Node) (h : elem ∉ s.MONITORING) :
    setupMonitorOnObject toLowerCase s elem =
      modifyObjectIfNeeded toLowerCase
        { s with MONITORING := elem :: s.MONITORING, observed := s.observed ++ [elem] }
        elem := by
  unfold setupMonitorOnObject
  rw [if_neg h]

/-- The function `setupMonitorOnObject` on a node that is monitored. -/
theorem setupMonitorOnObject_of_monitored (toLowerCase : String → String) (s : State)
    (elem : Node) (h : elem ∈ s.MONITORING) :
    setupMonitorOnObject toLowerCase s elem = (s, none) := by
  unfold setupMonitorOnObject
  rw [if_pos h]

/-- The wrapped `document.createElement("object")` in a state where the next node
is new and the registry yields nothing for the key `"undefined"`: when the `mixin`
read for the empty type (if any) returns, the new element is returned, it is
recorded under the lower-cased empty type, and that `mixin` is the only call. -/
theorem createObjectElement_fresh (toLowerCase : String → String) (s : State)
    (hf : s.Fresh) (hu : s.MIMETYPE_HANDLERS.get "undefined" = .undefined)
    (hm : (s.MIMETYPE_HANDLERS.get (toLowerCase "")).raises .mixin = false) :
    ∃ s1 : State,
      createObjectElement toLowerCase s = (s1, .ok s.document.nextNode) ∧
      s1.calls = s.calls ++
        (s.MIMETYPE_HANDLERS.get (toLowerCase "")).callOf .mixin (toLowerCase "")
          s.document.nextNode ∧
      s1.lastLabel s.document.nextNode = some (toLowerCase "") ∧
      s1.MIMETYPE_HANDLERS = s.MIMETYPE_HANDLERS ∧
      s1.document.typeAttr = s.document.typeAttr := by
  obtain ⟨hl, hmon, ht⟩ := hf
  let s2 : State :=
    { s with
      document := { s.document with nextNode := s.document.nextNode + 1 }
      MONITORING := s.document.nextNode :: s.MONITORING
      observed := s.observed ++ [s.document.nextNode] }
  have hl2 : s2.lastLabel s.document.nextNode = none := hl
  have ht2 : s2.typeOf s.document.nextNode = "" := by
    show (s.document.typeAttr.lookup s.document.nextNode).getD "" = ""
    rw [ht]
    rfl
  have hh2 : s2.MIMETYPE_HANDLERS = s.MIMETYPE_HANDLERS := rfl
  have hne : s2.lastLabel s.document.nextNode ≠
      some (toLowerCase (s2.typeOf s.document.nextNode)) := by
    rw [hl2]
    simp
  have hthrown := modifyObjectIfNeeded_thrown toLowerCase s2 s.document.nextNode
  have hcalls := modifyObjectIfNeeded_calls toLowerCase s2 s.document.nextNode
  have hlast := modifyObjectIfNeeded_lastLabel toLowerCase s2 s.document.nextNode
  have hfields := modifyObjectIfNeeded_fields toLowerCase s2 s.document.nextNode
  rw [if_neg hne, hl2, hh2, ht2] at hthrown
  simp only [propertyKey, hu, Value.raises, Bool.false_eq_true, if_false] at hthrown
  rw [(Value.thrown_eq_none_iff _ _).2 hm] at hthrown
  unfold stepCalls at hcalls
  rw [if_neg hne, hl2, hh2, ht2] at hcalls
  simp only [propertyKey, hu, Value.raises, Bool.false_eq_true, if_false, Value.callOf,
    List.nil_append] at hcalls
  rw [hl2, hh2, ht2] at hlast
  simp only [propertyKey, hu, Value.raises, Bool.false_eq_true, and_false, if_false] at hlast
  have hrun : createObjectElement toLowerCase s =
      ((modifyObjectIfNeeded toLowerCase s2 s.document.nextNode).1,
        .ok s.document.nextNode) := by
    have hsm : setupMonitorOnObject toLowerCase (existing_createElement s).2
        s.document.nextNode = modifyObjectIfNeeded toLowerCase s2 s.document.nextNode :=
      setupMonitorOnObject_of_not_monitored toLowerCase (existing_createElement s).2
        s.document.nextNode hmon
    show (match setupMonitorOnObject toLowerCase (existing_createElement s).2
        s.document.nextNode with
      | (s2, some x) => (s2, Except.error x)
      | (s2, none) => (s2, Except.ok s.document.nextNode)) = _
    rw [hsm]
    generalize modifyObjectIfNeeded toLowerCase s2 s.document.nextNode = o at hthrown
    obtain ⟨o1, o2⟩ := o
    simp only at hthrown
    subst hthrown
    rfl
  exact ⟨_, hrun, hcalls, hlast, hfields.1, by rw [hfields.2.2.2.2]⟩

/-- The factory function for `label` in a state where the pair `(m, u)` is
registered for it, the next node is new, and nothing gets in the way: the new
element is returned, typed `label`, and of the calls made the only one of `m` is
the `mixin` on that element, and none is of `u`. -/
theorem createdFactory_calls (toLowerCase : String → String) (s : State) (label : String)
    (m u : Fn)
    (hreg : s.MIMETYPE_HANDLERS.registered (toLowerCase label) = some ⟨m, u⟩)
    (hfresh : s.Fresh) (hm : m.raises = false) (hmu : m ≠ u)
    (hundef : s.MIMETYPE_HANDLERS.get "undefined" = .undefined)
    (hempty : toLowerCase label = toLowerCase "" ∨
      (s.MIMETYPE_HANDLERS.get (toLowerCase "")).apartFrom m u = true) :
    ∃ (s3 : State) (added : List Call),
      createdFactory toLowerCase s label = (s3, .ok s.document.nextNode) ∧
      s3.typeOf s.document.nextNode = label ∧
      s3.calls = s.calls ++ added ∧
      callsOf m added = [⟨.mixin, toLowerCase label, ⟨m, u⟩, s.document.nextNode⟩] ∧
      callsOf u added = [] := by
  have hg := Handlers.get_of_registered _ _ _ hreg
  have hm0 : (s.MIMETYPE_HANDLERS.get (toLowerCase "")).raises .mixin = false := by
    rcases hempty with he | he
    · rw [← he, hg]
      simpa [Value.raises, Member.select] using hm
    · cases hv : s.MIMETYPE_HANDLERS.get (toLowerCase "") with
      | undefined => rfl
      | foreign => rw [hv] at he; simp [Value.apartFrom] at he
      | handler h0 =>
        rw [hv] at he
        simp only [Value.apartFrom, Bool.and_eq_true, Bool.not_eq_true'] at he
        simpa [Value.raises, Member.select] using he.1.1.1.1.1
  obtain ⟨s1, hrun, hc1, hl1, hh1, ht1⟩ := createObjectElement_fresh toLowerCase s hfresh hundef hm0
  have hl2 : (s1.setType s.document.nextNode label).lastLabel s.document.nextNode =
      some (toLowerCase "") := hl1
  have ht2 := typeOf_setType_self s1 s.document.nextNode label
  have hh2 : (s1.setType s.document.nextNode label).MIMETYPE_HANDLERS = s.MIMETYPE_HANDLERS :=
    hh1
  have hc2 : (s1.setType s.document.nextNode label).calls = s1.calls := rfl
  have hthrown := modifyObjectIfNeeded_thrown toLowerCase
    (s1.setType s.document.nextNode label) s.document.nextNode
  have hcalls := modifyObjectIfNeeded_calls toLowerCase
    (s1.setType s.document.nextNode label) s.document.nextNode
  have htype := modifyObjectIfNeeded_typeOf toLowerCase
    (s1.setType s.document.nextNode label) s.document.nextNode s.document.nextNode
  unfold stepCalls at hcalls
  rw [hl2, ht2, hh2] at hthrown hcalls
  rw [ht2] at htype
  have hfinish : ∀ added : List Call,
      (modifyObjectIfNeeded toLowerCase (s1.setType s.document.nextNode label)
        s.document.nextNode).2 = none →
      (modifyObjectIfNeeded toLowerCase (s1.setType s.document.nextNode label)
        s.document.nextNode).1.calls = s.calls ++ added →
      callsOf m added = [⟨.mixin, toLowerCase label, ⟨m, u⟩, s.document.nextNode⟩] →
      callsOf u added = [] →
      ∃ (s3 : State) (added : List Call),
        createdFactory toLowerCase s label = (s3, .ok s.document.nextNode) ∧
        s3.typeOf s.document.nextNode = label ∧
        s3.calls = s.calls ++ added ∧
        callsOf m added = [⟨.mixin, toLowerCase label, ⟨m, u⟩, s.document.nextNode⟩] ∧
        callsOf u added = [] := by
    intro added h1 h2 h3 h4
    refine ⟨_, added, ?_, htype, h2, h3, h4⟩
    unfold createdFactory
    rw [hrun]
    simp only
    generalize modifyObjectIfNeeded toLowerCase (s1.setType s.document.nextNode label)
      s.document.nextNode = o at h1
    obtain ⟨o1, o2⟩ := o
    simp only at h1
    subst h1
    rfl
  by_cases he : toLowerCase "" = toLowerCase label
  · apply hfinish [⟨.mixin, toLowerCase label, ⟨m, u⟩, s.document.nextNode⟩]
    · rw [hthrown, he]
      simp
    · rw [hcalls, hc2, hc1, he, hg]
      simp [Value.callOf]
    · simp [callsOf, Call.fn, Member.select]
    · simp [callsOf, Call.fn, Member.select, hmu]
  · have hap : (s.MIMETYPE_HANDLERS.get (toLowerCase "")).apartFrom m u = true := by
      rcases hempty with h | h
      · exact absurd h.symm he
      · exact h
    have hne : ¬ some (toLowerCase "") = some (toLowerCase label) := by
      simpa using he
    rw [if_neg hne] at hthrown hcalls
    simp only [propertyKey] at hthrown hcalls
    cases hv : s.MIMETYPE_HANDLERS.get (toLowerCase "") with
    | foreign => rw [hv] at hap; simp [Value.apartFrom] at hap
    | undefined =>
      simp only [hv] at hthrown hcalls hc1
      apply hfinish [⟨.mixin, toLowerCase label, ⟨m, u⟩, s.document.nextNode⟩]
      · rw [hthrown, hg]
        simp [Value.raises, Value.thrown, Member.select, Fn.call, hm]
      · rw [hcalls, hc2, hc1, hg]
        simp [Value.callOf, Value.raises]
      · simp [callsOf, Call.fn, Member.select]
      · simp [callsOf, Call.fn, Member.select, hmu]
    | handler h0 =>
      simp only [hv] at hthrown hcalls hc1 hap
      simp only [Value.apartFrom, Bool.and_eq_true, Bool.not_eq_true', decide_eq_true_eq]
        at hap
      obtain ⟨⟨⟨⟨⟨_, a2⟩, a3⟩, a4⟩, a5⟩, a6⟩ := hap
      apply hfinish [⟨.mixin, toLowerCase "", h0, s.document.nextNode⟩,
        ⟨.unmix, toLowerCase "", h0, s.document.nextNode⟩,
        ⟨.mixin, toLowerCase label, ⟨m, u⟩, s.document.nextNode⟩]
      · rw [hthrown, hg]
        simp [Value.raises, Value.thrown, Member.select, Fn.call, hm, a2]
      · rw [hcalls, hc2, hc1, hg]
        simp [Value.callOf, Value.raises, Member.select, a2]
      · simp [callsOf, Call.fn, Member.select, a3, a5]
      · simp [callsOf, Call.fn, Member.select, hmu, a4, a6]

/-- C8 (amended). In a state where `oipfObjectFactory[name]` is the factory that
`registerOipfObject(label, name, mixin, unmix)` installed and the pair is still
the one registered for the label, where `mixin` returns and is not the same
function as `unmix`, the registry yields nothing for the key `"undefined"`, and
(unless the label is itself the empty one) whatever the registry yields for the
empty label returns and shares no function with the pair: calling
`oipfObjectFactory[name]()` returns a new object element whose type is `label`,
and of the handler calls made by then exactly one is a call of `mixin`, with the
returned element as its argument, and none is a call of `unmix`. -/
theorem factory_mixes_in_once (toLowerCase : String → String) (s : State)
    (label name : String) (m u : Fn)
    (hslot : s.oipfObjectFactory.lookup name = some (.create label))
    (hreg : s.MIMETYPE_HANDLERS.registered (toLowerCase label) = some ⟨m, u⟩)
    (hfresh : s.Fresh) (hm : m.raises = false) (hmu : m ≠ u)
    (hundef : s.MIMETYPE_HANDLERS.get "undefined" = .undefined)
    (hempty : toLowerCase label = toLowerCase "" ∨
      (s.MIMETYPE_HANDLERS.get (toLowerCase "")).apartFrom m u = true) :
    ∃ s3 : State,
      callFactory toLowerCase s name = some (s3, .ok (.element s.document.nextNode)) ∧
      s3.typeOf s.document.nextNode = label ∧
      s3.calls = s.calls ++ callsSince s s3 ∧
      callsOf m (callsSince s s3) =
        [⟨.mixin, toLowerCase label, ⟨m, u⟩, s.document.nextNode⟩] ∧
      callsOf u (callsSince s s3) = [] := by
  obtain ⟨s3, added, h1, h2, h3, h4, h5⟩ :=
    createdFactory_calls toLowerCase s label m u hreg hfresh hm hmu hundef hempty
  have hs : callsSince s s3 = added := by simp [callsSince, h3]
  refine ⟨s3, ?_, h2, by rw [hs]; exact h3, by rw [hs]; exact h4, by rw [hs]; exact h5⟩
  unfold callFactory
  rw [hslot]
  simp only [Option.map_some', Factory.call, h1]

/-- Witness for C8 (amended): the factory `createXY` of `stFactory`. -/
theorem factory_mixes_in_once_witness :
    ∃ s3 : State,
      callFactory asciiLower stFactory "createXY" = some (s3, .ok (.element 1)) ∧
      s3.typeOf 1 = "X/Y" ∧
      s3.calls = stFactory.calls ++ callsSince stFactory s3 ∧
      callsOf fnA (callsSince stFactory s3) = [⟨.mixin, "x/y", ⟨fnA, fnB⟩, 1⟩] ∧
      callsOf fnB (callsSince stFactory s3) = [] :=
  factory_mixes_in_once asciiLower stFactory "X/Y" "createXY" fnA fnB (by decide) (by decide)
    (by unfold State.Fresh; decide) (by decide) (by decide) (by decide)
    (Or.inr (by decide))

/-- C8 as stated fails. In `stFactoryBad` the registered `mixin` raises and the
factory call ends with that exception instead of returning an element. In
`stFactoryShared` the function `fnA` is also the `mixin` registered for the empty
label, the label of every fresh object element, and it is called twice on the
returned element. In `stFactorySame` one function is registered as both `mixin`
and `unmix`, so the function that is the `unmix` has been called. In
`stFactoryUndef` the factory is for the mimetype `undefined` and the `unmix` of the
pair is called on the new element, before `mixin`. -/
theorem factory_mixes_in_once_counterexample :
    (stFactoryBad.oipfObjectFactory.lookup "createXY" = some (.create "X/Y") ∧
      stFactoryBad.MIMETYPE_HANDLERS.registered (asciiLower "X/Y") = some ⟨fnBad, fnB⟩ ∧
      (callFactory asciiLower stFactoryBad "createXY").map (fun r => thrownOf r.2) =
        some (some (.raised fnBad))) ∧
    (stFactoryShared.oipfObjectFactory.lookup "createXY" = some (.create "X/Y") ∧
      stFactoryShared.MIMETYPE_HANDLERS.registered (asciiLower "X/Y") = some ⟨fnA, fnB⟩ ∧
      (callFactory asciiLower stFactoryShared "createXY").map (fun r => returnedOf r.2) =
        some (some (.element 1)) ∧
      (callFactory asciiLower stFactoryShared "createXY").map
          (fun r => callsOf fnA (callsSince stFactoryShared r.1)) =
        some [⟨.mixin, "", ⟨fnA, fnD⟩, 1⟩, ⟨.mixin, "x/y", ⟨fnA, fnB⟩, 1⟩]) ∧
    (stFactorySame.oipfObjectFactory.lookup "createXY" = some (.create "X/Y") ∧
      stFactorySame.MIMETYPE_HANDLERS.registered (asciiLower "X/Y") = some ⟨fnA, fnA⟩ ∧
      (callFactory asciiLower stFactorySame "createXY").map
          (fun r => callsOf fnA (callsSince stFactorySame r.1)) =
        some [⟨.mixin, "x/y", ⟨fnA, fnA⟩, 1⟩]) ∧
    (stFactoryUndef.oipfObjectFactory.lookup "createU" = some (.create "undefined") ∧
      stFactoryUndef.MIMETYPE_HANDLERS.registered (asciiLower "undefined") =
        some ⟨fnA, fnB⟩ ∧
      (callFactory asciiLower stFactoryUndef "createU").map (fun r => returnedOf r.2) =
        some (some (.element 1)) ∧
      (callFactory asciiLower stFactoryUndef "createU").map
          (fun r => callsSince stFactoryUndef r.1) =
        some [⟨.unmix, "undefined", ⟨fnA, fnB⟩, 1⟩, ⟨.mixin, "undefined", ⟨fnA, fnB⟩, 1⟩]) := by
  decide

/-- C7 fails on the code. Node `0` is an object element of the document, typed
`a/b`, monitored since before any handler was registered. Registering a handler
for `A/B` with either function returns normally, and `mixin` has not been called:
the sweep it runs goes through `setupMonitorOnObject`, which returns at once for a
monitored element. -/
theorem registration_skips_monitored_element :
    0 ∈ stMonitoredAB.document.objects ∧ 0 ∈ stMonitoredAB.MONITORING ∧
      asciiLower (stMonitoredAB.typeOf 0) = asciiLower "A/B" ∧
      stMonitoredAB.MIMETYPE_HANDLERS.get (asciiLower "A/B") = .undefined ∧
      (registerNonFactoryObject asciiLower stMonitoredAB "A/B" fnA fnB).2 = none ∧
      (registerNonFactoryObject asciiLower stMonitoredAB "A/B" fnA fnB).1.calls = [] ∧
      (registerOipfObject asciiLower stMonitoredAB "A/B" "createAB" fnA fnB).2 = none ∧
      (registerOipfObject asciiLower stMonitoredAB "A/B" "createAB" fnA fnB).1.calls = [] := by
  decide

/-- After `setupMonitorOnObject` the node is marked as monitored. -/
theorem setupMonitorOnObject_monitored (toLowerCase : String → String) (s : State)
    (elem : Node) : elem ∈ (setupMonitorOnObject toLowerCase s elem).1.MONITORING := by
  by_cases h : elem ∈ s.MONITORING
  · rw [setupMonitorOnObject_of_monitored toLowerCase s elem h]
    exact h
  · rw [setupMonitorOnObject_of_not_monitored toLowerCase s elem h,
      (modifyObjectIfNeeded_fields toLowerCase _ elem).2.1]
    exact List.mem_cons_self _ _

/-- Repeating `setupMonitorOnObject` on a monitored node changes nothing. -/
theorem setupRepeatedly_of_monitored (toLowerCase : String → String) (n : Nat) (s : State)
    (elem : Node) (h : elem ∈ s.MONITORING) : setupRepeatedly toLowerCase n s elem = s := by
  induction n with
  | zero => rfl
  | succ n ih => rw [setupRepeatedly, setupMonitorOnObject_of_monitored toLowerCase s elem h]; exact ih

/-- Idempotent monitoring: `n + 1` calls of `setupMonitorOnObject` on a node that
is not monitored yet leave the state of one run of `modifyObjectIfNeeded` on the
state in which the node was marked and handed to the type observer once; the
node is then monitored and observed exactly once more than before, and every
further call returns the state as it is. -/
theorem setupMonitorOnObject_once (toLowerCase : String → String) (n : Nat) (s : State)
    (elem : Node) (h : elem ∉ s.MONITORING) :
    setupRepeatedly toLowerCase (n + 1) s elem =
        (modifyObjectIfNeeded toLowerCase
          { s with MONITORING := elem :: s.MONITORING, observed := s.observed ++ [elem] }
          elem).1 ∧
      elem ∈ (setupRepeatedly toLowerCase (n + 1) s elem).MONITORING ∧
      (setupRepeatedly toLowerCase (n + 1) s elem).observed = s.observed ++ [elem] ∧
      setupMonitorOnObject toLowerCase (setupRepeatedly toLowerCase (n + 1) s elem) elem =
        (setupRepeatedly toLowerCase (n + 1) s elem, none) := by
  have hm := setupMonitorOnObject_monitored toLowerCase s elem
  have h1 : setupRepeatedly toLowerCase (n + 1) s elem =
      (setupMonitorOnObject toLowerCase s elem).1 := by
    rw [setupRepeatedly]
    exact setupRepeatedly_of_monitored toLowerCase n _ elem hm
  have h2 := setupMonitorOnObject_of_not_monitored toLowerCase s elem h
  refine ⟨by rw [h1, h2], by rw [h1]; exact hm, ?_, ?_⟩
  · rw [h1, h2, (modifyObjectIfNeeded_fields toLowerCase _ elem).2.2.1]
  · rw [h1]
    exact setupMonitorOnObject_of_monitored toLowerCase _ elem hm

/-- A node that is neither monitored nor recorded, whose label has no registered
handler, becomes monitored without any handler call, when the registry yields
nothing for the key `"undefined"`. -/
theorem setupMonitorOnObject_no_handler (toLowerCase : String → String) (s : State)
    (elem : Node) (hm : elem ∉ s.MONITORING) (hl : s.lastLabel elem = none)
    (hu : s.MIMETYPE_HANDLERS.get "undefined" = .undefined)
    (hn : s.MIMETYPE_HANDLERS.registered (toLowerCase (s.typeOf elem)) = none) :
    (setupMonitorOnObject toLowerCase s elem).1.calls = s.calls ∧
      elem ∈ (setupMonitorOnObject toLowerCase s elem).1.MONITORING := by
  refine ⟨?_, setupMonitorOnObject_monitored toLowerCase s elem⟩
  rw [setupMonitorOnObject_of_not_monitored toLowerCase s elem hm, modifyObjectIfNeeded_calls]
  unfold stepCalls
  have h1 : State.lastLabel
      { s with MONITORING := elem :: s.MONITORING, observed := s.observed ++ [elem] }
      elem = none := hl
  have h2 : State.typeOf
      { s with MONITORING := elem :: s.MONITORING, observed := s.observed ++ [elem] }
      elem = s.typeOf elem := rfl
  rw [h1, h2]
  have h3 := Handlers.callOf_of_not_registered s.MIMETYPE_HANDLERS
    (toLowerCase (s.typeOf elem)) .mixin elem hn
  simp only [propertyKey, hu, Value.raises, h3]
  simp [Value.callOf]

/-- C9 fails on the code. In `stUndef` node `0` is not monitored, its label `x/y`
has no registered handler, and one call of `setupMonitorOnObject` makes it
monitored, but not without a handler call: the `unmix` registered for the
mimetype `undefined` is called on it. -/
theorem setupMonitorOnObject_calls_unmix_of_undefined :
    0 ∉ stUndef.MONITORING ∧
      stUndef.MIMETYPE_HANDLERS.registered (asciiLower (stUndef.typeOf 0)) = none ∧
      setupRepeatedly asciiLower 1 stUndef 0 = (setupMonitorOnObject asciiLower stUndef 0).1 ∧
      0 ∈ (setupMonitorOnObject asciiLower stUndef 0).1.MONITORING ∧
      (setupMonitorOnObject asciiLower stUndef 0).1.calls =
        [⟨.unmix, "undefined", ⟨fnA, fnB⟩, 0⟩] := by
  decide

/-- A read of the key that was just assigned yields the assigned handler object. -/
theorem Handlers.get_set_self (r : Handlers) (key : String) (h : Handler) :
    (r.set key h).get key = .handler h := by
  unfold Handlers.set Handlers.get
  by_cases hk : key = "__proto__"
  · simp [hk]
  · simp [hk, List.lookup]

/-- The pair registered under a key that was just assigned is the assigned one. -/
theorem Handlers.registered_set_self (r : Handlers) (key : String) (h : Handler) :
    (r.set key h).registered key = some h :=
  Handlers.registered_of_get _ _ _ (Handlers.get_set_self r key h)

/-- An assignment leaves the pairs registered under the other keys as they are. -/
theorem Handlers.registered_set_of_ne (r : Handlers) (key other : String) (h : Handler)
    (hne : other ≠ key) : (r.set key h).registered other = r.registered other := by
  unfold Handlers.set Handlers.registered
  by_cases hk : key = "__proto__"
  · have ho : other ≠ "__proto__" := fun ho => hne (ho.trans hk.symm)
    simp [hk, ho]
  · by_cases ho : other = "__proto__"
    · simp [hk, ho]
    · have hb : (other == key) = false := by simpa using hne
      simp only [hk, ho, if_false, List.lookup, hb]
      exact lookup_filter_ne r.own key other hne

/-- An assignment to a key other than `"__proto__"` leaves the reads of the other
keys as they are. -/
theorem Handlers.get_set_of_ne (r : Handlers) (key other : String) (h : Handler)
    (hp : key ≠ "__proto__") (hne : other ≠ key) :
    (r.set key h).get other = r.get other := by
  have hb : (other == key) = false := by simpa using hne
  have hl : ((key, h) :: r.own.filter (fun p => p.1 ≠ key)).lookup other =
      r.own.lookup other := by
    rw [List.lookup, hb]
    exact lookup_filter_ne r.own key other hne
  unfold Handlers.set Handlers.get
  simp only [hp, if_false]
  rw [hl]

/-- The handler object of every call of one run of `modifyObjectIfNeeded` is what
the registry yields, at that time, for the key of the call. -/
theorem stepCalls_handler (toLowerCase : String → String) (s : State) (elem : Node)
    (c : Call) (hc : c ∈ stepCalls toLowerCase s elem) :
    s.MIMETYPE_HANDLERS.get c.key = .handler c.handler := by
  unfold stepCalls at hc
  split at hc
  · simp at hc
  · rw [List.mem_append] at hc
    rcases hc with h | h
    · cases hv : s.MIMETYPE_HANDLERS.get (propertyKey (s.lastLabel elem)) <;>
        simp [hv, Value.callOf] at h
      rw [h]
      exact hv
    · split at h
      · simp at h
      · cases hv : s.MIMETYPE_HANDLERS.get (toLowerCase (s.typeOf elem)) <;>
          simp [hv, Value.callOf] at h
        rw [h]
        exact hv

/-- The registry after a registration, by either function. -/
theorem apply_registers_handlers (toLowerCase : String → String) (s : State) (a : Action)
    (mimeType : String) (p : Handler) (ha : a.registers = some (mimeType, p)) :
    (a.apply toLowerCase s).MIMETYPE_HANDLERS =
      s.MIMETYPE_HANDLERS.set (toLowerCase mimeType) p := by
  cases a with
  | registerOipfObject mt mn mf uf =>
    simp only [Action.registers, Option.some.injEq, Prod.mk.injEq] at ha
    obtain ⟨h1, h2⟩ := ha
    subst h1 h2
    simp only [Action.apply, registerOipfObject, scanForAndModifyObjects]
    rw [scanLoop_handlers]
  | registerNonFactoryObject mt mf uf =>
    simp only [Action.registers, Option.some.injEq, Prod.mk.injEq] at ha
    obtain ⟨h1, h2⟩ := ha
    subst h1 h2
    simp only [Action.apply, registerNonFactoryObject, scanForAndModifyObjects]
    rw [scanLoop_handlers]
  | setType e v => simp [Action.registers] at ha
  | setupMonitorOnObject e => simp [Action.registers] at ha
  | modifyObjectIfNeeded e => simp [Action.registers] at ha

/-- The calls that one run of `modifyObjectIfNeeded` adds to the log. -/
theorem callsSince_modifyObjectIfNeeded (toLowerCase : String → String) (s : State)
    (elem : Node) :
    callsSince s (modifyObjectIfNeeded toLowerCase s elem).1 = stepCalls toLowerCase s elem := by
  simp [callsSince, modifyObjectIfNeeded_calls]

/-- Running two sequences of operations one after the other. -/
theorem execute_append (toLowerCase : String → String) (s : State) (xs ys : List Action) :
    execute toLowerCase s (xs ++ ys) = execute toLowerCase (execute toLowerCase s xs) ys := by
  induction xs generalizing s with
  | nil => rfl
  | cons a rest ih => exact ih _

/-- One run of `modifyObjectIfNeeded` keeps what is logged. -/
theorem modifyObjectIfNeeded_calls_mono (toLowerCase : String → String) (s : State)
    (elem : Node) (c : Call) (hc : c ∈ s.calls) :
    c ∈ (modifyObjectIfNeeded toLowerCase s elem).1.calls := by
  rw [modifyObjectIfNeeded_calls]
  exact List.mem_append_left _ hc

/-- One run of `setupMonitorOnObject` keeps what is logged. -/
theorem setupMonitorOnObject_calls_mono (toLowerCase : String → String) (s : State)
    (elem : Node) (c : Call) (hc : c ∈ s.calls) :
    c ∈ (setupMonitorOnObject toLowerCase s elem).1.calls := by
  by_cases h : elem ∈ s.MONITORING
  · rw [setupMonitorOnObject_of_monitored toLowerCase s elem h]
    exact hc
  · rw [setupMonitorOnObject_of_not_monitored toLowerCase s elem h]
    exact modifyObjectIfNeeded_calls_mono toLowerCase _ elem c hc

/-- The sweep keeps what is logged. -/
theorem scanLoop_calls_mono (toLowerCase : String → String) (elems : List Node) (s : State)
    (c : Call) (hc : c ∈ s.calls) : c ∈ (scanLoop toLowerCase elems s).1.calls := by
  induction elems generalizing s with
  | nil => exact hc
  | cons e es ih =>
    have h1 := setupMonitorOnObject_calls_mono toLowerCase s e c hc
    unfold scanLoop
    generalize setupMonitorOnObject toLowerCase s e = o at h1 ⊢
    obtain ⟨s1, x⟩ := o
    cases x with
    | some x => exact h1
    | none => exact ih s1 h1

/-- What one run of `setupMonitorOnObject` leaves alone for the other nodes: whether
they are monitored, their recorded last label, their type. -/
theorem setupMonitorOnObject_other (toLowerCase : String → String) (s : State)
    (elem other : Node) (h : other ≠ elem) :
    (other ∈ (setupMonitorOnObject toLowerCase s elem).1.MONITORING ↔ other ∈ s.MONITORING) ∧
      (setupMonitorOnObject toLowerCase s elem).1.lastLabel other = s.lastLabel other ∧
      (setupMonitorOnObject toLowerCase s elem).1.typeOf other = s.typeOf other := by
  by_cases hm : elem ∈ s.MONITORING
  · rw [setupMonitorOnObject_of_monitored toLowerCase s elem hm]
    exact ⟨Iff.rfl, rfl, rfl⟩
  · rw [setupMonitorOnObject_of_not_monitored toLowerCase s elem hm]
    refine ⟨?_, ?_, ?_⟩
    · rw [(modifyObjectIfNeeded_fields toLowerCase _ elem).2.1]
      simp [h]
    · rw [modifyObjectIfNeeded_lastLabel_of_ne toLowerCase _ elem other h]
      rfl
    · rw [modifyObjectIfNeeded_typeOf]
      rfl

/-- The first run of `setupMonitorOnObject` on a node with nothing recorded, when it
returns: the `mixin` of the handler object that the registry yields for the type
of the node has been called on it. -/
theorem setupMonitorOnObject_mixes_in (toLowerCase : String → String) (s : State)
    (elem : Node) (h : Handler) (hm : elem ∉ s.MONITORING) (hl : s.lastLabel elem = none)
    (hg : s.MIMETYPE_HANDLERS.get (toLowerCase (s.typeOf elem)) = .handler h)
    (hret : (setupMonitorOnObject toLowerCase s elem).2 = none) :
    ⟨.mixin, toLowerCase (s.typeOf elem), h, elem⟩ ∈
      (setupMonitorOnObject toLowerCase s elem).1.calls := by
  rw [setupMonitorOnObject_of_not_monitored toLowerCase s elem hm] at hret ⊢
  have h1 : State.lastLabel
      { s with MONITORING := elem :: s.MONITORING, observed := s.observed ++ [elem] }
      elem = none := hl
  have h2 : State.typeOf
      { s with MONITORING := elem :: s.MONITORING, observed := s.observed ++ [elem] }
      elem = s.typeOf elem := rfl
  have hne : ¬ (none : Option String) = some (toLowerCase (s.typeOf elem)) := by simp
  rw [modifyObjectIfNeeded_thrown, h1, h2, if_neg hne] at hret
  rw [modifyObjectIfNeeded_calls]
  unfold stepCalls
  rw [h1, h2, if_neg hne]
  apply List.mem_append_right
  apply List.mem_append_right
  cases hr : (s.MIMETYPE_HANDLERS.get (propertyKey none)).raises .unmix
  · simp [hg, Value.callOf]
  · simp only [hr, if_true] at hret
    rw [Value.thrown_eq_none_iff, hr] at hret
    simp at hret

/-- The sweep, when it returns: on every element of its list that was not
monitored and had nothing recorded, the `mixin` of the handler object that the
registry yields for the type of the element has been called. -/
theorem scanLoop_mixes_in (toLowerCase : String → String) (elems : List Node) (s : State)
    (elem : Node) (h : Handler) (he : elem ∈ elems) (hm : elem ∉ s.MONITORING)
    (hl : s.lastLabel elem = none)
    (hg : s.MIMETYPE_HANDLERS.get (toLowerCase (s.typeOf elem)) = .handler h)
    (hret : (scanLoop toLowerCase elems s).2 = none) :
    ⟨.mixin, toLowerCase (s.typeOf elem), h, elem⟩ ∈
      (scanLoop toLowerCase elems s).1.calls := by
  induction elems generalizing s with
  | nil => simp at he
  | cons x xs ih =>
    by_cases hx : elem = x
    · subst hx
      have h1 := setupMonitorOnObject_mixes_in toLowerCase s elem h hm hl hg
      unfold scanLoop at hret ⊢
      generalize setupMonitorOnObject toLowerCase s elem = o at h1 hret ⊢
      obtain ⟨s1, r⟩ := o
      cases r with
      | some r => simp at hret
      | none => exact scanLoop_calls_mono toLowerCase xs s1 _ (h1 rfl)
    · have he2 : elem ∈ xs := by
        rcases List.mem_cons.1 he with h0 | h0
        · exact absurd h0 hx
        · exact h0
      obtain ⟨o1, o2, o3⟩ := setupMonitorOnObject_other toLowerCase s x elem hx
      have o4 := setupMonitorOnObject_handlers toLowerCase s x
      unfold scanLoop at hret ⊢
      generalize setupMonitorOnObject toLowerCase s x = o at o1 o2 o3 o4 hret ⊢
      obtain ⟨s1, r⟩ := o
      cases r with
      | some r => simp at hret
      | none =>
        simp only at o1 o2 o3 o4 hret ⊢
        have := ih s1 he2 (fun hc => hm (o1.1 hc)) (o2.trans hl) (by rw [o4, o3]; exact hg) hret
        rw [o3] at this
        exact this

/-- What the sweep of a registration does reach: after either registration
function has returned, `mixin` has been called on every object element of the
document that was not monitored and had nothing recorded when the registration
was made and whose lower-cased type equals the lower-cased label. -/
theorem registration_mixes_in_unmonitored (toLowerCase : String → String) (s : State)
    (mimeType methodName : String) (mixinFunc unmixFunc : Fn) (elem : Node)
    (he : elem ∈ s.document.objects) (hm : elem ∉ s.MONITORING)
    (hl : s.lastLabel elem = none)
    (ht : toLowerCase (s.typeOf elem) = toLowerCase mimeType) :
    ((registerNonFactoryObject toLowerCase s mimeType mixinFunc unmixFunc).2 = none →
      ⟨.mixin, toLowerCase mimeType, ⟨mixinFunc, unmixFunc⟩, elem⟩ ∈
        (registerNonFactoryObject toLowerCase s mimeType mixinFunc unmixFunc).1.calls) ∧
    ((registerOipfObject toLowerCase s mimeType methodName mixinFunc unmixFunc).2 = none →
      ⟨.mixin, toLowerCase mimeType, ⟨mixinFunc, unmixFunc⟩, elem⟩ ∈
        (registerOipfObject toLowerCase s mimeType methodName mixinFunc unmixFunc).1.calls) := by
  constructor
  · intro hret
    have := scanLoop_mixes_in toLowerCase s.document.objects
      { s with MIMETYPE_HANDLERS :=
        s.MIMETYPE_HANDLERS.set (toLowerCase mimeType) ⟨mixinFunc, unmixFunc⟩ }
      elem ⟨mixinFunc, unmixFunc⟩ he hm hl
      (by
        show (s.MIMETYPE_HANDLERS.set (toLowerCase mimeType) ⟨mixinFunc, unmixFunc⟩).get
          (toLowerCase (s.typeOf elem)) = _
        rw [ht]
        exact Handlers.get_set_self _ _ _)
      hret
    rw [← ht]
    exact this
  · intro hret
    have := scanLoop_mixes_in toLowerCase s.document.objects
      { s with
        oipfObjectFactory := assignSlot s.oipfObjectFactory methodName (.create mimeType)
        MIMETYPE_HANDLERS :=
          s.MIMETYPE_HANDLERS.set (toLowerCase mimeType) ⟨mixinFunc, unmixFunc⟩ }
      elem ⟨mixinFunc, unmixFunc⟩ he hm hl
      (by
        show (s.MIMETYPE_HANDLERS.set (toLowerCase mimeType) ⟨mixinFunc, unmixFunc⟩).get
          (toLowerCase (s.typeOf elem)) = _
        rw [ht]
        exact Handlers.get_set_self _ _ _)
      hret
    rw [← ht]
    exact this

/-- One run of `setupMonitorOnObject` logs nothing on the other nodes. -/
theorem callsOn_setupMonitorOnObject_of_ne (toLowerCase : String → String) (s : State)
    (elem node : Node) (h : node ≠ elem) :
    callsOn (setupMonitorOnObject toLowerCase s elem).1 node = callsOn s node := by
  by_cases hm : elem ∈ s.MONITORING
  · rw [setupMonitorOnObject_of_monitored toLowerCase s elem hm]
  · rw [setupMonitorOnObject_of_not_monitored toLowerCase s elem hm,
      callsOn_modifyObjectIfNeeded, if_neg h, List.append_nil]
    rfl

/-- The sweep leaves a monitored node alone: nothing is logged on it, its recorded
last label and its type stay, and it stays monitored. -/
theorem scanLoop_of_monitored (toLowerCase : String → String) (elems : List Node) (s : State)
    (node : Node) (hm : node ∈ s.MONITORING) :
    callsOn (scanLoop toLowerCase elems s).1 node = callsOn s node ∧
      (scanLoop toLowerCase elems s).1.lastLabel node = s.lastLabel node ∧
      (scanLoop toLowerCase elems s).1.typeOf node = s.typeOf node ∧
      node ∈ (scanLoop toLowerCase elems s).1.MONITORING := by
  induction elems generalizing s with
  | nil => exact ⟨rfl, rfl, rfl, hm⟩
  | cons x xs ih =>
    have key : callsOn (setupMonitorOnObject toLowerCase s x).1 node = callsOn s node ∧
        (setupMonitorOnObject toLowerCase s x).1.lastLabel node = s.lastLabel node ∧
        (setupMonitorOnObject toLowerCase s x).1.typeOf node = s.typeOf node ∧
        node ∈ (setupMonitorOnObject toLowerCase s x).1.MONITORING := by
      by_cases hx : node = x
      · subst hx
        rw [setupMonitorOnObject_of_monitored toLowerCase s node hm]
        exact ⟨rfl, rfl, rfl, hm⟩
      · obtain ⟨o1, o2, o3⟩ := setupMonitorOnObject_other toLowerCase s x node hx
        exact ⟨callsOn_setupMonitorOnObject_of_ne toLowerCase s x node hx, o2, o3, o1.2 hm⟩
    unfold scanLoop
    generalize setupMonitorOnObject toLowerCase s x = o at key ⊢
    obtain ⟨s1, r⟩ := o
    cases r with
    | some r => exact key
    | none =>
      simp only at key ⊢
      obtain ⟨k1, k2, k3, k4⟩ := key
      obtain ⟨i1, i2, i3, i4⟩ := ih s1 k4
      exact ⟨i1.trans k1, i2.trans k2, i3.trans k3, i4⟩

/-- C11. Re-registration is not retroactive. For every node that is monitored (as
every node mixed in under a label is), a registration by `registerOipfObject` or
`registerNonFactoryObject`, for any label and so for the label of the node, with
the sweep that it runs, makes no handler call on that node and leaves its
recorded last label, its type and its monitored flag as they are; and when the
recorded last label is the lower-cased type of the node, a run of
`modifyObjectIfNeeded` on it after the registration still does nothing: the node
keeps what was mixed in until its label next changes. -/
theorem registration_not_retroactive (toLowerCase : String → String) (s : State)
    (a : Action) (mimeType : String) (p : Handler) (node : Node)
    (ha : a.registers = some (mimeType, p)) (hm : node ∈ s.MONITORING) :
    callsOn (a.apply toLowerCase s) node = callsOn s node ∧
      (a.apply toLowerCase s).lastLabel node = s.lastLabel node ∧
      node ∈ (a.apply toLowerCase s).MONITORING ∧
      (s.lastLabel node = some (toLowerCase (s.typeOf node)) →
        modifyObjectIfNeeded toLowerCase (a.apply toLowerCase s) node =
          (a.apply toLowerCase s, none)) := by
  have main : ∀ s1 : State, s1.calls = s.calls → s1.lastLabel node = s.lastLabel node →
      s1.typeOf node = s.typeOf node → s1.MONITORING = s.MONITORING →
      callsOn (scanLoop toLowerCase s1.document.objects s1).1 node = callsOn s node ∧
        (scanLoop toLowerCase s1.document.objects s1).1.lastLabel node = s.lastLabel node ∧
        node ∈ (scanLoop toLowerCase s1.document.objects s1).1.MONITORING ∧
        (s.lastLabel node = some (toLowerCase (s.typeOf node)) →
          modifyObjectIfNeeded toLowerCase (scanLoop toLowerCase s1.document.objects s1).1
            node = ((scanLoop toLowerCase s1.document.objects s1).1, none)) := by
    intro s1 h1 h2 h3 h4
    obtain ⟨i1, i2, i3, i4⟩ := scanLoop_of_monitored toLowerCase s1.document.objects s1 node
      (by rw [h4]; exact hm)
    refine ⟨?_, i2.trans h2, i4, fun hs => ?_⟩
    · rw [i1]
      unfold callsOn
      rw [h1]
    · apply modifyObjectIfNeeded_same
      rw [i2, i3, h2, h3]
      exact hs
  cases a with
  | registerOipfObject mt mn mf uf =>
    exact main
      { s with
        oipfObjectFactory := assignSlot s.oipfObjectFactory mn (.create mt)
        MIMETYPE_HANDLERS := s.MIMETYPE_HANDLERS.set (toLowerCase mt) ⟨mf, uf⟩ }
      rfl rfl rfl rfl
  | registerNonFactoryObject mt mf uf =>
    exact main
      { s with MIMETYPE_HANDLERS := s.MIMETYPE_HANDLERS.set (toLowerCase mt) ⟨mf, uf⟩ }
      rfl rfl rfl rfl
  | setType e v => simp [Action.registers] at ha
  | setupMonitorOnObject e => simp [Action.registers] at ha
  | modifyObjectIfNeeded e => simp [Action.registers] at ha

/-- Witness for C11: node `0` of `stMixedAB` is mixed in under `a/b` when a second
pair is registered for `A/B`. -/
theorem registration_not_retroactive_witness :
    0 ∈ stMixedAB.MONITORING ∧ stMixedAB.lastLabel 0 = some "a/b" ∧
      callsOn stMixedAB 0 = [⟨.mixin, "a/b", ⟨fnA, fnB⟩, 0⟩] ∧
      callsOn ((Action.registerOipfObject "A/B" "createAB" fnC fnD).apply asciiLower stMixedAB)
        0 = callsOn stMixedAB 0 ∧
      ((Action.registerOipfObject "A/B" "createAB" fnC fnD).apply asciiLower
        stMixedAB).lastLabel 0 = stMixedAB.lastLabel 0 ∧
      0 ∈ ((Action.registerOipfObject "A/B" "createAB" fnC fnD).apply asciiLower
        stMixedAB).MONITORING ∧
      (stMixedAB.lastLabel 0 = some (asciiLower (stMixedAB.typeOf 0)) →
        modifyObjectIfNeeded asciiLower
          ((Action.registerOipfObject "A/B" "createAB" fnC fnD).apply asciiLower stMixedAB) 0 =
          ((Action.registerOipfObject "A/B" "createAB" fnC fnD).apply asciiLower stMixedAB,
            none)) :=
  ⟨by decide, by decide, by decide,
    registration_not_retroactive asciiLower stMixedAB
      (.registerOipfObject "A/B" "createAB" fnC fnD) "A/B" ⟨fnC, fnD⟩ 0 rfl (by decide)⟩

/-- C12 (amended). As long as no factory has been registered under the name
`isObjectSupported`: for every string `mimeType` for which the read of the
registry yields exactly the registered pair, `isObjectSupported(mimeType)`
returns true if and only if the predicate that existed before load (when there
was one) reports true for `mimeType` or a pair has been registered for a label
equal to `mimeType` up to letter case; and whatever the read yields otherwise, it
returns true for every casing of a registered label. The call changes no state. -/
theorem isObjectSupported_iff (toLowerCase : String → String)
    (existing_isObjectSupported : Option (String → Bool)) (s : State) (mimeType : String)
    (hslot : s.oipfObjectFactory.lookup "isObjectSupported" = none) :
    (s.MIMETYPE_HANDLERS.get (toLowerCase mimeType) =
        Value.ofRegistered (s.MIMETYPE_HANDLERS.registered (toLowerCase mimeType)) →
      callIsObjectSupported toLowerCase existing_isObjectSupported s mimeType =
        (s, .ok (.bool (supportedBySpec toLowerCase existing_isObjectSupported s mimeType)))) ∧
    (∀ (label : String) (p : Handler),
      s.MIMETYPE_HANDLERS.registered (toLowerCase label) = some p →
      toLowerCase mimeType = toLowerCase label →
      callIsObjectSupported toLowerCase existing_isObjectSupported s mimeType =
        (s, .ok (.bool true))) := by
  constructor
  · intro hread
    unfold callIsObjectSupported
    rw [hslot]
    simp only [isObjectSupported, supportedBySpec, hread]
    cases existing_isObjectSupported with
    | none =>
      cases s.MIMETYPE_HANDLERS.registered (toLowerCase mimeType) <;>
        simp [Value.ofRegistered, Value.truthy]
    | some existing =>
      cases existing mimeType <;>
        cases s.MIMETYPE_HANDLERS.registered (toLowerCase mimeType) <;>
        simp [Value.ofRegistered, Value.truthy]
  · intro label p hp hl
    unfold callIsObjectSupported
    rw [hslot]
    simp only [isObjectSupported, hl, Handlers.get_of_registered _ _ _ hp]
    cases existing_isObjectSupported with
    | none => simp [Value.truthy]
    | some existing => cases existing mimeType <;> simp [Value.truthy]

/-- Witness for C12 (amended): in `stFactory` a pair is registered for `X/Y`. -/
theorem isObjectSupported_iff_witness :
    callIsObjectSupported asciiLower none stFactory "a/b" = (stFactory, .ok (.bool false)) ∧
      callIsObjectSupported asciiLower none stFactory "x/Y" = (stFactory, .ok (.bool true)) :=
  ⟨(isObjectSupported_iff asciiLower none stFactory "a/b" (by decide)).1 (by decide),
    (isObjectSupported_iff asciiLower none stFactory "x/Y" (by decide)).2 "X/Y" ⟨fnA, fnB⟩
      (by decide) (by decide)⟩

/-- C12 as stated fails. After `registerNonVisualObject("isObjectSupported", f)`
the call `oipfObjectFactory.isObjectSupported("a/b")` is a call of `f` and returns
what `f` returns. And right after load, with nothing registered and no earlier
predicate, `isObjectSupported("constructor")` and `isObjectSupported("__PROTO__")`
return true: the reads of these keys yield members that `MIMETYPE_HANDLERS`
inherits from `Object.prototype`. -/
theorem isObjectSupported_iff_counterexample :
    (thrownOf (callIsObjectSupported asciiLower none stSlotTaken "a/b").2 = none ∧
      returnedOf (callIsObjectSupported asciiLower none stSlotTaken "a/b").2 =
        some (.returned (.resultOf fnA))) ∧
    ((State.loaded docAB).MIMETYPE_HANDLERS.registered (asciiLower "constructor") = none ∧
      returnedOf (callIsObjectSupported asciiLower none (State.loaded docAB) "constructor").2 =
        some (.bool true) ∧
      (State.loaded docAB).MIMETYPE_HANDLERS.registered (asciiLower "__PROTO__") = none ∧
      returnedOf (callIsObjectSupported asciiLower none (State.loaded docAB) "__PROTO__").2 =
        some (.bool true)) := by
  decide

/-- The wrapped `createElement` on the tag name `object` is the function
`createObjectElement`, when the host accepts the name and lower-casing leaves it
as it is. -/
theorem createElement_object (toLowerCase : String → String) (validName : String → Bool)
    (s : State) (hv : validName "object" = true) (hl : toLowerCase "object" = "object") :
    createElement toLowerCase validName s [.string "object"] =
      createObjectElement toLowerCase s := by
  simp only [createElement, existing_createElement_apply, JSValue.toString, hv, if_true,
    List.head?, hl, createObjectElement, existing_createElement]

/-- C13 (amended). For every argument list whose first argument, the tag name, is
a string: the wrapped `createElement` calls the original with the same
arguments; when the original fails, it fails with the same exception and changes
nothing; when the tag name is not `object` in any letter case, it returns exactly
the element that the original returns and changes nothing else; when the tag name
is `object` in some letter case, `setupMonitorOnObject` has run on the element of
the original, which is then monitored, and that element is returned unless
`setupMonitorOnObject` ended with an exception, which is then the exception of
the call. -/
theorem createElement_delegates (toLowerCase : String → String) (validName : String → Bool)
    (s : State) (tagname : String) (options : List JSValue) :
    (validName tagname = false →
      existing_createElement_apply validName s (.string tagname :: options) =
          (s, .error .domException) ∧
        createElement toLowerCase validName s (.string tagname :: options) =
          (s, .error .domException)) ∧
    (validName tagname = true → toLowerCase tagname ≠ "object" →
      createElement toLowerCase validName s (.string tagname :: options) =
        existing_createElement_apply validName s (.string tagname :: options)) ∧
    (validName tagname = true → toLowerCase tagname = "object" →
      ∃ s1 : State,
        existing_createElement_apply validName s (.string tagname :: options) =
          (s1, .ok s.document.nextNode) ∧
        (createElement toLowerCase validName s (.string tagname :: options)).1 =
          (setupMonitorOnObject toLowerCase s1 s.document.nextNode).1 ∧
        s.document.nextNode ∈
          (createElement toLowerCase validName s (.string tagname :: options)).1.MONITORING ∧
        thrownOf (createElement toLowerCase validName s (.string tagname :: options)).2 =
          (setupMonitorOnObject toLowerCase s1 s.document.nextNode).2 ∧
        ((setupMonitorOnObject toLowerCase s1 s.document.nextNode).2 = none →
          (createElement toLowerCase validName s (.string tagname :: options)).2 =
            .ok s.document.nextNode)) := by
  refine ⟨?_, ?_, ?_⟩
  · intro hv
    simp [createElement, existing_createElement_apply, JSValue.toString, hv]
  · intro hv hl
    simp [createElement, existing_createElement_apply, JSValue.toString, hv, hl, List.head?]
  · intro hv hl
    refine ⟨{ s with document := { s.document with nextNode := s.document.nextNode + 1 } },
      ?_, ?_⟩
    · simp [existing_createElement_apply, JSValue.toString, hv]
    · have hm := setupMonitorOnObject_monitored toLowerCase
        { s with document := { s.document with nextNode := s.document.nextNode + 1 } }
        s.document.nextNode
      simp only [createElement, existing_createElement_apply, JSValue.toString, hv, if_true,
        List.head?, hl]
      generalize setupMonitorOnObject toLowerCase
        { s with document := { s.document with nextNode := s.document.nextNode + 1 } }
        s.document.nextNode = o at hm ⊢
      obtain ⟨o1, o2⟩ := o
      cases o2 with
      | none => exact ⟨rfl, hm, rfl, fun _ => rfl⟩
      | some x => exact ⟨rfl, hm, rfl, fun h => by simp at h⟩

/-- Witness for C13 (amended): `createElement("OBJECT")` and `createElement("div")`
in the state `stFactory`. -/
theorem createElement_delegates_witness :
    createElement asciiLower nonEmptyName stFactory [.string "div"] =
        existing_createElement_apply nonEmptyName stFactory [.string "div"] ∧
      ∃ s1 : State,
        existing_createElement_apply nonEmptyName stFactory [.string "OBJECT"] =
          (s1, .ok stFactory.document.nextNode) ∧
        (createElement asciiLower nonEmptyName stFactory [.string "OBJECT"]).1 =
          (setupMonitorOnObject asciiLower s1 stFactory.document.nextNode).1 ∧
        stFactory.document.nextNode ∈
          (createElement asciiLower nonEmptyName stFactory [.string "OBJECT"]).1.MONITORING ∧
        thrownOf (createElement asciiLower nonEmptyName stFactory [.string "OBJECT"]).2 =
          (setupMonitorOnObject asciiLower s1 stFactory.document.nextNode).2 ∧
        ((setupMonitorOnObject asciiLower s1 stFactory.document.nextNode).2 = none →
          (createElement asciiLower nonEmptyName stFactory [.string "OBJECT"]).2 =
            .ok stFactory.document.nextNode) :=
  ⟨(createElement_delegates asciiLower nonEmptyName stFactory "div" []).2.1 (by decide)
      (by decide),
    (createElement_delegates asciiLower nonEmptyName stFactory "OBJECT" []).2.2 (by decide)
      (by decide)⟩

/-- C13 as stated fails. In `stEmptyLabelBad` the original `createElement` returns a
new element for `object`, but the wrapped one raises the exception of the
`mixin` registered for the empty label, called by `setupMonitorOnObject`. And for
an argument that is not a string, such as `null`, the original returns the
element `<null>` while the wrapped one raises a `TypeError`. -/
theorem createElement_delegates_counterexample :
    (returnedOf (existing_createElement_apply nonEmptyName stEmptyLabelBad
        [.string "object"]).2 = some 1 ∧
      thrownOf (createElement asciiLower nonEmptyName stEmptyLabelBad [.string "object"]).2 =
        some (.raised fnBad)) ∧
    (returnedOf (existing_createElement_apply nonEmptyName (State.loaded docXY)
        [.nonString "null"]).2 = some 1 ∧
      thrownOf (createElement asciiLower nonEmptyName (State.loaded docXY)
        [.nonString "null"]).2 = some .typeError) := by
  decide

/-- C14. If the `mixin` that `modifyObjectIfNeeded` calls raises (the label
changed, the `unmix` step returned, and the `mixin` of the handler object read for
the new label raises), the run ends with that exception, the call is logged, the
recorded last label of the node is already the new label, and a later run with
the label unchanged, also after the type was rewritten to a value with the same
lower-cased form, makes no handler call and raises nothing: the failed `mixin`
is not called again. -/
theorem mixin_raises_no_retry (toLowerCase : String → String) (s : State) (elem : Node)
    (h : Handler)
    (hne : s.lastLabel elem ≠ some (toLowerCase (s.typeOf elem)))
    (hun : (s.MIMETYPE_HANDLERS.get (propertyKey (s.lastLabel elem))).raises .unmix = false)
    (hg : s.MIMETYPE_HANDLERS.get (toLowerCase (s.typeOf elem)) = .handler h)
    (hr : h.mixin.raises = true) :
    (modifyObjectIfNeeded toLowerCase s elem).2 = some (.raised h.mixin) ∧
      (modifyObjectIfNeeded toLowerCase s elem).1.calls.getLast? =
        some ⟨.mixin, toLowerCase (s.typeOf elem), h, elem⟩ ∧
      (modifyObjectIfNeeded toLowerCase s elem).1.lastLabel elem =
        some (toLowerCase (s.typeOf elem)) ∧
      modifyObjectIfNeeded toLowerCase (modifyObjectIfNeeded toLowerCase s elem).1 elem =
        ((modifyObjectIfNeeded toLowerCase s elem).1, none) ∧
      ∀ value : String, toLowerCase value = toLowerCase (s.typeOf elem) →
        modifyObjectIfNeeded toLowerCase
            ((modifyObjectIfNeeded toLowerCase s elem).1.setType elem value) elem =
          ((modifyObjectIfNeeded toLowerCase s elem).1.setType elem value, none) := by
  have hl := modifyObjectIfNeeded_lastLabel_of_returns toLowerCase s elem (fun _ => hun)
  refine ⟨?_, ?_, hl, modifyObjectIfNeeded_twice toLowerCase s elem (fun _ => hun), ?_⟩
  · rw [modifyObjectIfNeeded_thrown, if_neg hne, hun, hg]
    simp [Value.thrown, Member.select, Fn.call, hr]
  · rw [modifyObjectIfNeeded_calls]
    unfold stepCalls
    rw [if_neg hne, hun, hg]
    simp [Value.callOf]
  · intro value hv
    apply modifyObjectIfNeeded_same
    rw [lastLabel_setType, typeOf_setType_self, hv]
    exact hl

/-- Witness for C14: in `stABmixinBad` node `0` goes from `a/b` to `x/y`, whose
`mixin` raises. -/
theorem mixin_raises_no_retry_witness :
    (modifyObjectIfNeeded asciiLower stABmixinBad 0).2 = some (.raised fnBad) ∧
      (modifyObjectIfNeeded asciiLower stABmixinBad 0).1.calls.getLast? =
        some ⟨.mixin, "x/y", ⟨fnBad, fnD⟩, 0⟩ ∧
      (modifyObjectIfNeeded asciiLower stABmixinBad 0).1.lastLabel 0 = some "x/y" ∧
      modifyObjectIfNeeded asciiLower (modifyObjectIfNeeded asciiLower stABmixinBad 0).1 0 =
        ((modifyObjectIfNeeded asciiLower stABmixinBad 0).1, none) ∧
      ∀ value : String, asciiLower value = asciiLower (stABmixinBad.typeOf 0) →
        modifyObjectIfNeeded asciiLower
            ((modifyObjectIfNeeded asciiLower stABmixinBad 0).1.setType 0 value) 0 =
          ((modifyObjectIfNeeded asciiLower stABmixinBad 0).1.setType 0 value, none) :=
  mixin_raises_no_retry asciiLower stABmixinBad 0 ⟨fnBad, fnD⟩ (by decide) (by decide)
    (by decide) (by decide)

/-- C20. If the `unmix` that `modifyObjectIfNeeded` calls raises, the run ends
with that exception, the recorded last label of the node is still the old one,
and the `unmix` call is the only call of the run: the `mixin` of the new label
is not called. The next run on the node, with the type as it is or rewritten to
any value whose lower-cased form differs from the recorded label, calls the same
`unmix` again, and nothing else. -/
theorem unmix_raises_retried (toLowerCase : String → String) (s : State) (elem : Node)
    (h : Handler)
    (hne : s.lastLabel elem ≠ some (toLowerCase (s.typeOf elem)))
    (hg : s.MIMETYPE_HANDLERS.get (propertyKey (s.lastLabel elem)) = .handler h)
    (hr : h.unmix.raises = true) :
    (modifyObjectIfNeeded toLowerCase s elem).2 = some (.raised h.unmix) ∧
      (modifyObjectIfNeeded toLowerCase s elem).1.lastLabel elem = s.lastLabel elem ∧
      (modifyObjectIfNeeded toLowerCase s elem).1.calls =
        s.calls ++ [⟨.unmix, propertyKey (s.lastLabel elem), h, elem⟩] ∧
      (modifyObjectIfNeeded toLowerCase (modifyObjectIfNeeded toLowerCase s elem).1 elem).1.calls =
        (modifyObjectIfNeeded toLowerCase s elem).1.calls ++
          [⟨.unmix, propertyKey (s.lastLabel elem), h, elem⟩] ∧
      ∀ value : String, s.lastLabel elem ≠ some (toLowerCase value) →
        (modifyObjectIfNeeded toLowerCase
            ((modifyObjectIfNeeded toLowerCase s elem).1.setType elem value) elem).1.calls =
          (modifyObjectIfNeeded toLowerCase s elem).1.calls ++
            [⟨.unmix, propertyKey (s.lastLabel elem), h, elem⟩] := by
  have hraise : (s.MIMETYPE_HANDLERS.get (propertyKey (s.lastLabel elem))).raises .unmix =
      true := by
    rw [hg]
    simpa [Value.raises, Member.select] using hr
  have hl : (modifyObjectIfNeeded toLowerCase s elem).1.lastLabel elem = s.lastLabel elem := by
    rw [modifyObjectIfNeeded_lastLabel]
    simp [hne, hraise]
  have hH := (modifyObjectIfNeeded_fields toLowerCase s elem).1
  have hT := modifyObjectIfNeeded_typeOf toLowerCase s elem elem
  have again : ∀ s2 : State, s2.MIMETYPE_HANDLERS = s.MIMETYPE_HANDLERS →
      s2.lastLabel elem = s.lastLabel elem →
      s2.lastLabel elem ≠ some (toLowerCase (s2.typeOf elem)) →
      (modifyObjectIfNeeded toLowerCase s2 elem).1.calls =
        s2.calls ++ [⟨.unmix, propertyKey (s.lastLabel elem), h, elem⟩] := by
    intro s2 h1 h2 h3
    rw [modifyObjectIfNeeded_calls]
    unfold stepCalls
    rw [if_neg h3, h1, h2, hraise, hg]
    simp [Value.callOf]
  refine ⟨?_, hl, again s rfl rfl hne, ?_, ?_⟩
  · rw [modifyObjectIfNeeded_thrown, if_neg hne, hraise, hg]
    simp [Value.thrown, Member.select, Fn.call, hr]
  · apply again _ hH hl
    rw [hl, hT]
    exact hne
  · intro value hv
    have := again ((modifyObjectIfNeeded toLowerCase s elem).1.setType elem value) hH hl
      (by
        rw [lastLabel_setType, typeOf_setType_self, hl]
        exact hv)
    exact this

/-- Witness for C20: in `stABbad` node `0` goes from `a/b`, whose `unmix` raises, to
`x/y`. -/
theorem unmix_raises_retried_witness :
    (modifyObjectIfNeeded asciiLower stABbad 0).2 = some (.raised fnBad) ∧
      (modifyObjectIfNeeded asciiLower stABbad 0).1.lastLabel 0 = some "a/b" ∧
      (modifyObjectIfNeeded asciiLower stABbad 0).1.calls =
        [⟨.unmix, "a/b", ⟨fnA, fnBad⟩, 0⟩] ∧
      (modifyObjectIfNeeded asciiLower (modifyObjectIfNeeded asciiLower stABbad 0).1 0).1.calls =
        (modifyObjectIfNeeded asciiLower stABbad 0).1.calls ++
          [⟨.unmix, "a/b", ⟨fnA, fnBad⟩, 0⟩] ∧
      ∀ value : String, stABbad.lastLabel 0 ≠ some (asciiLower value) →
        (modifyObjectIfNeeded asciiLower
            ((modifyObjectIfNeeded asciiLower stABbad 0).1.setType 0 value) 0).1.calls =
          (modifyObjectIfNeeded asciiLower stABbad 0).1.calls ++
            [⟨.unmix, "a/b", ⟨fnA, fnBad⟩, 0⟩] :=
  unmix_raises_retried asciiLower stABbad 0 ⟨fnA, fnBad⟩ (by decide) (by decide) (by decide)

/-- A read of a slot right after an entry was put in front of the list. -/
theorem lookup_cons_of_ne {α : Type} (l : List (String × α)) (name other : String) (a : α)
    (h : other ≠ name) : ((name, a) :: l).lookup other = l.lookup other := by
  have hb : (other == name) = false := by simpa using h
  rw [List.lookup, hb]

/-- While no function is the prototype of `window.oipfObjectFactory`, an
assignment to a slot puts the function in front of the list. -/
theorem assignSlot_of_no_proto (slots : List (String × Factory)) (methodName : String)
    (f : Factory) (h : slots.lookup "__proto__" = none) :
    assignSlot slots methodName f = (methodName, f) :: slots := by
  unfold assignSlot
  rw [if_neg]
  rw [h]
  simp

/-- An assignment to a slot other than `__proto__` keeps the prototype. -/
theorem lookup_proto_assignSlot (slots : List (String × Factory)) (methodName : String)
    (f : Factory) (h : methodName ≠ "__proto__") :
    (assignSlot slots methodName f).lookup "__proto__" = slots.lookup "__proto__" := by
  unfold assignSlot
  split
  · rfl
  · exact lookup_cons_of_ne slots methodName "__proto__" f (fun e => h e.symm)

/-- An assignment to a slot keeps what was assigned under the other names. -/
theorem lookup_assignSlot_of_ne (slots : List (String × Factory)) (methodName other : String)
    (f : Factory) (h : other ≠ methodName) :
    (assignSlot slots methodName f).lookup other = slots.lookup other := by
  unfold assignSlot
  split
  · rfl
  · exact lookup_cons_of_ne slots methodName other f h

/-- C15 (amended). For every factory name and function `f`, as long as no factory
has been registered under the name `__proto__`: after
`registerNonVisualObject(name, f)` the read `oipfObjectFactory[name]` yields `f`
itself, whatever it yielded before, so calling it is one call of `f`, ends with
the exception of `f` if `f` raises and returns what `f` returns otherwise. For
every name other than `__proto__`, the read of every other slot yields what it
yielded before. For every name, the handler registry, both trackers, the observed
nodes, the document and the log of handler calls are unchanged, and `f` is not
called by the registration. -/
theorem registerNonVisualObject_installs (toLowerCase : String → String) (s : State)
    (name : String) (f : Fn) :
    (s.oipfObjectFactory.lookup "__proto__" = none →
      (registerNonVisualObject s name f).slot name = .factory (.supplied f) ∧
        ∃ s2 : State,
          callFactory toLowerCase (registerNonVisualObject s name f) name =
              some (s2, if f.raises then .error (.raised f) else .ok (.resultOf f)) ∧
            s2.factoryCalls = (registerNonVisualObject s name f).factoryCalls ++ [f]) ∧
      (name ≠ "__proto__" → ∀ other : String, other ≠ name →
        (registerNonVisualObject s name f).slot other = s.slot other) ∧
      (registerNonVisualObject s name f).MIMETYPE_HANDLERS = s.MIMETYPE_HANDLERS ∧
      (registerNonVisualObject s name f).CURRENT_MIXIN_MIMETYPE = s.CURRENT_MIXIN_MIMETYPE ∧
      (registerNonVisualObject s name f).MONITORING = s.MONITORING ∧
      (registerNonVisualObject s name f).observed = s.observed ∧
      (registerNonVisualObject s name f).document = s.document ∧
      (registerNonVisualObject s name f).calls = s.calls ∧
      (registerNonVisualObject s name f).factoryCalls = s.factoryCalls := by
  refine ⟨fun hproto => ?_, fun hname other hother => ?_, rfl, rfl, rfl, rfl, rfl, rfl, rfl⟩
  · have hl : (registerNonVisualObject s name f).oipfObjectFactory.lookup name =
        some (.supplied f) := by
      show (assignSlot s.oipfObjectFactory name (.supplied f)).lookup name = _
      rw [assignSlot_of_no_proto _ _ _ hproto]
      simp [List.lookup]
    refine ⟨by unfold State.slot; rw [hl], ?_⟩
    refine ⟨{ registerNonVisualObject s name f with
      factoryCalls := (registerNonVisualObject s name f).factoryCalls ++ [f] }, ?_, rfl⟩
    unfold callFactory
    rw [hl]
    cases hr : f.raises <;> simp [Factory.call, Fn.call, hr]
  · have h1 : (registerNonVisualObject s name f).oipfObjectFactory.lookup other =
        s.oipfObjectFactory.lookup other :=
      lookup_assignSlot_of_ne _ _ _ _ hother
    have h2 : (registerNonVisualObject s name f).oipfObjectFactory.lookup "__proto__" =
        s.oipfObjectFactory.lookup "__proto__" :=
      lookup_proto_assignSlot _ _ _ hname
    unfold State.slot
    rw [h1, h2]

/-- The amended C15 on the state right after load: the function `fnA` is registered
under `createNonVisualTest`. -/
theorem registerNonVisualObject_installs_witness :
    (registerNonVisualObject (State.loaded docAB) "createNonVisualTest" fnA).slot
        "createNonVisualTest" = .factory (.supplied fnA) ∧
      (registerNonVisualObject (State.loaded docAB) "createNonVisualTest" fnA).slot
        "isObjectSupported" = (State.loaded docAB).slot "isObjectSupported" ∧
      (State.loaded docAB).slot "createNonVisualTest" = .undefined :=
  ⟨((registerNonVisualObject_installs asciiLower (State.loaded docAB) "createNonVisualTest"
      fnA).1 (by decide)).1,
    (registerNonVisualObject_installs asciiLower (State.loaded docAB) "createNonVisualTest"
      fnA).2.1 (by decide) "isObjectSupported" (by decide),
    by decide⟩

/-- C15 as stated fails. After `registerNonVisualObject("__proto__", f)` the
function `f` is the prototype of `window.oipfObjectFactory`, and other slots read
differently: `call` was undefined and is now inherited from the function, and
`toString` is no longer the member of `Object.prototype`. And once a function is
the prototype, `registerNonVisualObject("name", g)` leaves the slot `name` as it
is, the read-only name of that function, so the slot is not `g`. -/
theorem registerNonVisualObject_installs_counterexample :
    ((State.loaded docAB).slot "call" = .undefined ∧
      (registerNonVisualObject (State.loaded docAB) "__proto__" fnA).slot "call" =
        .inherited .function ∧
      (State.loaded docAB).slot "toString" = .inherited .objectPrototype ∧
      (registerNonVisualObject (State.loaded docAB) "__proto__" fnA).slot "toString" =
        .inherited .function) ∧
    (registerNonVisualObject (registerNonVisualObject (State.loaded docAB) "__proto__" fnA)
        "name" fnC).slot "name" = .inherited .function := by
  decide

/-- On a node with no recorded last label, when the registry yields nothing for
the key `"undefined"`, a run of `modifyObjectIfNeeded` calls no `unmix`: its only
call is the `mixin` of the handler object read for the lower-cased type, if one
is read. -/
theorem modifyObjectIfNeeded_unrecorded (toLowerCase : String → String) (s : State)
    (elem : Node) (hl : s.lastLabel elem = none)
    (hu : s.MIMETYPE_HANDLERS.get "undefined" = .undefined) :
    (modifyObjectIfNeeded toLowerCase s elem).1.calls =
      s.calls ++ (s.MIMETYPE_HANDLERS.get (toLowerCase (s.typeOf elem))).callOf .mixin
        (toLowerCase (s.typeOf elem)) elem := by
  rw [modifyObjectIfNeeded_calls]
  unfold stepCalls
  rw [hl]
  simp [propertyKey, hu, Value.callOf, Value.raises]

/-- C18 fails on the code. In `stUndef` no last label is recorded for node `0` and
no handler is registered for its label `x/y`, yet `modifyObjectIfNeeded` calls an
`unmix` on it: that of the pair registered for the mimetype `undefined`. -/
theorem modifyObjectIfNeeded_unrecorded_calls_unmix :
    stUndef.lastLabel 0 = none ∧
      stUndef.MIMETYPE_HANDLERS.registered (asciiLower (stUndef.typeOf 0)) = none ∧
      stUndef.MIMETYPE_HANDLERS.registered "undefined" = some ⟨fnA, fnB⟩ ∧
      (modifyObjectIfNeeded asciiLower stUndef 0).1.calls =
        [⟨.unmix, "undefined", ⟨fnA, fnB⟩, 0⟩] := by
  decide

/-- A run of `setupMonitorOnObject` takes no node out of `MONITORING`. -/
theorem setupMonitorOnObject_monitoring_mono (toLowerCase : String → String) (s : State)
    (elem node : Node) (h : node ∈ s.MONITORING) :
    node ∈ (setupMonitorOnObject toLowerCase s elem).1.MONITORING := by
  by_cases hn : node = elem
  · rw [hn]
    exact setupMonitorOnObject_monitored toLowerCase s elem
  · exact (setupMonitorOnObject_other toLowerCase s elem node hn).1.2 h

/-- The inner loop of the document observer takes no node out of `MONITORING`. -/
theorem addedNodesLoop_monitoring_mono (toLowerCase : String → String)
    (nodes : List AddedNode) (s : State) (node : Node) (h : node ∈ s.MONITORING) :
    node ∈ (addedNodesLoop toLowerCase nodes s).1.MONITORING := by
  induction nodes generalizing s with
  | nil => exact h
  | cons n rest ih =>
    unfold addedNodesLoop
    by_cases ht : isObjectTag toLowerCase n.tagName = true
    · rw [if_pos ht]
      have h1 := setupMonitorOnObject_monitoring_mono toLowerCase s n.node node h
      rcases hr : setupMonitorOnObject toLowerCase s n.node with ⟨s1, _ | x⟩
      · rw [hr] at h1
        exact ih s1 h1
      · rw [hr] at h1
        exact h1
    · rw [if_neg ht]
      exact ih s h

/-- When the inner loop of the document observer returns, every listed node that
passes the test on `tagName` is monitored. -/
theorem addedNodesLoop_monitored (toLowerCase : String → String) (nodes : List AddedNode)
    (s : State) (hr : (addedNodesLoop toLowerCase nodes s).2 = none) (n : AddedNode)
    (hn : n ∈ nodes) (ht : isObjectTag toLowerCase n.tagName = true) :
    n.node ∈ (addedNodesLoop toLowerCase nodes s).1.MONITORING := by
  induction nodes generalizing s with
  | nil => cases hn
  | cons m rest ih =>
    unfold addedNodesLoop at hr ⊢
    by_cases hm : isObjectTag toLowerCase m.tagName = true
    · rw [if_pos hm] at hr ⊢
      have h1 := setupMonitorOnObject_monitored toLowerCase s m.node
      rcases hs : setupMonitorOnObject toLowerCase s m.node with ⟨s1, _ | x⟩
      · rw [hs] at hr h1
        rcases List.mem_cons.mp hn with heq | hrest
        · rw [heq]
          exact addedNodesLoop_monitoring_mono toLowerCase rest s1 m.node h1
        · exact ih s1 hr hrest
      · rw [hs] at hr
        cases hr
    · rw [if_neg hm] at hr ⊢
      rcases List.mem_cons.mp hn with heq | hrest
      · rw [heq] at ht
        exact absurd ht hm
      · exact ih s hr hrest

/-- The callback of the document observer takes no node out of `MONITORING`. -/
theorem documentObserver_monitoring_mono (toLowerCase : String → String)
    (mutations : List MutationRecord) (s : State) (node : Node) (h : node ∈ s.MONITORING) :
    node ∈ (documentObserver toLowerCase mutations s).1.MONITORING := by
  induction mutations generalizing s with
  | nil => exact h
  | cons r rest ih =>
    unfold documentObserver
    have h1 := addedNodesLoop_monitoring_mono toLowerCase r.addedNodes s node h
    rcases hr : addedNodesLoop toLowerCase r.addedNodes s with ⟨s1, _ | x⟩
    · rw [hr] at h1
      exact ih s1 h1
    · rw [hr] at h1
      exact h1

/-- When the callback of the document observer returns, every object element that
a record of the batch lists in `addedNodes` is monitored. -/
theorem documentObserver_listed (toLowerCase : String → String)
    (mutations : List MutationRecord) (s : State)
    (hr : (documentObserver toLowerCase mutations s).2 = none) (node : Node)
    (hn : node ∈ listedObjects toLowerCase mutations) :
    node ∈ (documentObserver toLowerCase mutations s).1.MONITORING := by
  induction mutations generalizing s with
  | nil => cases hn
  | cons r rest ih =>
    unfold documentObserver at hr ⊢
    unfold listedObjects at hn
    rcases hl : addedNodesLoop toLowerCase r.addedNodes s with ⟨s1, _ | x⟩
    · rw [hl] at hr
      rcases List.mem_append.mp hn with hhere | hrest
      · obtain ⟨n, hmem, hnode⟩ := List.mem_map.mp hhere
        obtain ⟨hin, htag⟩ := List.mem_filter.mp hmem
        have h1 := addedNodesLoop_monitored toLowerCase r.addedNodes s (by rw [hl]) n hin htag
        rw [hl, hnode] at h1
        exact documentObserver_monitoring_mono toLowerCase rest s1 node h1
      · exact ih s1 hr hrest
    · rw [hl] at hr
      cases hr

/-- A batch that lists no object element in `addedNodes` is skipped: the callback
of the document observer returns and the state is as before. -/
theorem documentObserver_skips (toLowerCase : String → String)
    (mutations : List MutationRecord) (s : State)
    (h : listedObjects toLowerCase mutations = []) :
    documentObserver toLowerCase mutations s = (s, none) := by
  induction mutations with
  | nil => rfl
  | cons r rest ih =>
    unfold listedObjects at h
    obtain ⟨hhere, hrest⟩ := List.append_eq_nil.mp h
    have hloop : ∀ nodes : List AddedNode,
        (nodes.filter (fun n => isObjectTag toLowerCase n.tagName)).map AddedNode.node = [] →
        addedNodesLoop toLowerCase nodes s = (s, none) := by
      intro nodes
      induction nodes with
      | nil => intro _; rfl
      | cons n more ihn =>
        intro hnil
        unfold addedNodesLoop
        by_cases ht : isObjectTag toLowerCase n.tagName = true
        · simp [List.filter_cons, ht] at hnil
        · simp only [List.filter_cons, ht, if_false] at hnil
          rw [if_neg ht]
          exact ihn hnil
    unfold documentObserver
    rw [hloop r.addedNodes hhere]
    exact ih hrest

/-- C19 fails on the code. The batch `batchNested` reports the insertion of the
`DIV` `1` with the object element `2`, typed `a/b`, inside it, while a pair is
registered for `a/b`. The callback of the document observer returns with the state
as it was: node `2`, an object element the batch added to the tree, is not
monitored and no `mixin` was called on it. A batch that lists node `2` itself
gets it monitored and mixed in. -/
theorem documentObserver_misses_nested :
    2 ∈ addedObjects asciiLower batchNested ∧ 2 ∈ stNested.document.objects ∧
      stNested.MIMETYPE_HANDLERS.registered (asciiLower (stNested.typeOf 2)) =
        some ⟨fnA, fnB⟩ ∧
      documentObserver asciiLower batchNested stNested = (stNested, none) ∧
      2 ∉ (documentObserver asciiLower batchNested stNested).1.MONITORING ∧
      (documentObserver asciiLower batchNested stNested).1.calls = [] ∧
      2 ∈ (documentObserver asciiLower batchDirect stNested).1.MONITORING ∧
      (documentObserver asciiLower batchDirect stNested).1.calls =
        [⟨.mixin, "a/b", ⟨fnA, fnB⟩, 2⟩] := by
  decide

/-- C16, amended. Whenever the host lacks `document` or lacks `MutationObserver`,
loading the script ends with an exception and has no effect on the host:
`document.createElement` is not wrapped, no observer and no listener is attached,
`oipfObjectFactory` and its `isObjectSupported` are neither created nor replaced,
and nothing is exported. In a host that declares `window` and whose module loader
finds `weak-map`, loading ends with an exception in no other case, and the load
that does not abort makes all the effects. -/
theorem load_aborts_iff (env : Environment) :
    ((env.document = false ∨ env.MutationObserver = false) →
        (load env).2 ≠ none ∧ (load env).1 = []) ∧
      (env.window = true → env.weakMapModule = true →
        (((load env).2 ≠ none ↔ (env.document = false ∨ env.MutationObserver = false)) ∧
          ((load env).2 = none →
            (load env).1 = [.observeDocument, .listenReadyStateChange, .wrapCreateElement] ++
              (if env.oipfObjectFactory then [] else [.createOipfObjectFactory]) ++
              [.replaceIsObjectSupported, .exportApi]))) := by
  rcases env with ⟨wm, doc, mo, win, fac⟩
  cases wm <;> cases doc <;> cases mo <;> cases win <;> cases fac <;> simp [load]

/-- The amended C16 on a host without `MutationObserver` and on a browser in which
the bundled script runs. -/
theorem load_aborts_iff_witness :
    load envNoObserver = ([], some .requiresMutationObserver) ∧
      ((load envBrowser).2 ≠ none ↔
        (envBrowser.document = false ∨ envBrowser.MutationObserver = false)) ∧
      load envBrowser =
        ([.observeDocument, .listenReadyStateChange, .wrapCreateElement,
          .createOipfObjectFactory, .replaceIsObjectSupported, .exportApi], none) :=
  ⟨by decide, ((load_aborts_iff envBrowser).2 (by decide) (by decide)).1, by decide⟩

/-- C16 as stated fails. The host `envNoWindow` lacks neither `document` nor
`MutationObserver`, yet loading ends with an exception, the `ReferenceError` for
`window`, and by then the observer of the document and the listener are attached
and `document.createElement` is wrapped. The host `envNoWeakMapModule` lacks
neither, and loading ends with the exception of `require('weak-map')`. -/
theorem load_aborts_iff_counterexample :
    ¬ ((load envNoWindow).2 ≠ none ↔
        (envNoWindow.document = false ∨ envNoWindow.MutationObserver = false)) ∧
      load envNoWindow =
        ([.observeDocument, .listenReadyStateChange, .wrapCreateElement],
          some (.referenceError "window")) ∧
      envNoWeakMapModule.document = true ∧ envNoWeakMapModule.MutationObserver = true ∧
      load envNoWeakMapModule = ([], some .requireFailed) := by
  decide

/-- A call leaves the log of the calls of supplied factory functions as it was. -/
theorem invoke_factoryCalls (s : State) (key : String) (v : Value) (m : Member)
    (elem : Node) : (invoke s key v m elem).1.factoryCalls = s.factoryCalls := by
  cases v <;> simp [invoke]

/-- The function `modifyObjectIfNeeded` calls no supplied factory function. -/
theorem modifyObjectIfNeeded_factoryCalls (toLowerCase : String → String) (s : State)
    (elem : Node) :
    (modifyObjectIfNeeded toLowerCase s elem).1.factoryCalls = s.factoryCalls := by
  by_cases hne : s.lastLabel elem = some (toLowerCase (s.typeOf elem))
  · rw [modifyObjectIfNeeded_same toLowerCase s elem hne]
  · cases hr : (s.MIMETYPE_HANDLERS.get (propertyKey (s.lastLabel elem))).raises .unmix
    · rw [modifyObjectIfNeeded_unmix_returns toLowerCase s elem hne hr, invoke_factoryCalls]
    · rw [modifyObjectIfNeeded_unmix_raises toLowerCase s elem hne hr, invoke_factoryCalls]

/-- C23. A run of `modifyObjectIfNeeded(node)` touches only that node. It leaves
the handler registry, every monitored flag, the observed targets, the factory
slots, the document with every `type` attribute and the log of factory calls as
they are; the recorded last label of every other node is unchanged; the calls
logged before stay, and every handler call the run makes has `node` as its
argument. -/
theorem modifyObjectIfNeeded_frame (toLowerCase : String → String) (s : State)
    (node : Node) :
    (modifyObjectIfNeeded toLowerCase s node).1.MIMETYPE_HANDLERS = s.MIMETYPE_HANDLERS ∧
      (modifyObjectIfNeeded toLowerCase s node).1.MONITORING = s.MONITORING ∧
      (modifyObjectIfNeeded toLowerCase s node).1.observed = s.observed ∧
      (modifyObjectIfNeeded toLowerCase s node).1.oipfObjectFactory = s.oipfObjectFactory ∧
      (modifyObjectIfNeeded toLowerCase s node).1.document = s.document ∧
      (modifyObjectIfNeeded toLowerCase s node).1.factoryCalls = s.factoryCalls ∧
      (∀ other : Node, other ≠ node →
        (modifyObjectIfNeeded toLowerCase s node).1.lastLabel other = s.lastLabel other) ∧
      (∃ made : List Call,
        (modifyObjectIfNeeded toLowerCase s node).1.calls = s.calls ++ made ∧
          made.length ≤ 2 ∧ ∀ c ∈ made, c.elem = node) := by
  obtain ⟨h1, h2, h3, h4, h5⟩ := modifyObjectIfNeeded_fields toLowerCase s node
  refine ⟨h1, h2, h3, h4, h5, modifyObjectIfNeeded_factoryCalls toLowerCase s node,
    fun other h => modifyObjectIfNeeded_lastLabel_of_ne toLowerCase s node other h,
    stepCalls toLowerCase s node, modifyObjectIfNeeded_calls toLowerCase s node, ?_,
    fun c hc => stepCalls_elem toLowerCase s node c hc⟩
  have hone : ∀ (v : Value) (m : Member) (key : String),
      (v.callOf m key node).length ≤ 1 := by
    intro v m key
    cases v <;> simp [Value.callOf]
  unfold stepCalls
  split
  · simp
  · rw [List.length_append]
    have h6 := hone (s.MIMETYPE_HANDLERS.get (propertyKey (s.lastLabel node))) .unmix
      (propertyKey (s.lastLabel node))
    have h7 := hone (s.MIMETYPE_HANDLERS.get (toLowerCase (s.typeOf node))) .mixin
      (toLowerCase (s.typeOf node))
    split
    · simp only [List.length_nil]
      omega
    · omega

/-- A registration, with its sweep, leaves a monitored node alone: nothing is
logged on it, its recorded last label stays and it stays monitored. -/
theorem apply_registers_of_monitored (toLowerCase : String → String) (s : State)
    (a : Action) (mimeType : String) (p : Handler) (node : Node)
    (ha : a.registers = some (mimeType, p)) (hm : node ∈ s.MONITORING) :
    callsOn (a.apply toLowerCase s) node = callsOn s node ∧
      (a.apply toLowerCase s).lastLabel node = s.lastLabel node ∧
      node ∈ (a.apply toLowerCase s).MONITORING := by
  have main : ∀ s1 : State, s1.calls = s.calls → s1.lastLabel node = s.lastLabel node →
      s1.MONITORING = s.MONITORING →
      callsOn (scanLoop toLowerCase s1.document.objects s1).1 node = callsOn s node ∧
        (scanLoop toLowerCase s1.document.objects s1).1.lastLabel node = s.lastLabel node ∧
        node ∈ (scanLoop toLowerCase s1.document.objects s1).1.MONITORING := by
    intro s1 h1 h2 h4
    obtain ⟨i1, i2, _, i4⟩ := scanLoop_of_monitored toLowerCase s1.document.objects s1 node
      (by rw [h4]; exact hm)
    refine ⟨?_, i2.trans h2, i4⟩
    rw [i1]
    unfold callsOn
    rw [h1]
  cases a with
  | registerOipfObject mt mn mf uf =>
    exact main
      { s with
        oipfObjectFactory := assignSlot s.oipfObjectFactory mn (.create mt)
        MIMETYPE_HANDLERS := s.MIMETYPE_HANDLERS.set (toLowerCase mt) ⟨mf, uf⟩ }
      rfl rfl rfl
  | registerNonFactoryObject mt mf uf =>
    exact main
      { s with MIMETYPE_HANDLERS := s.MIMETYPE_HANDLERS.set (toLowerCase mt) ⟨mf, uf⟩ }
      rfl rfl rfl
  | setType e v => simp [Action.registers] at ha
  | setupMonitorOnObject e => simp [Action.registers] at ha
  | modifyObjectIfNeeded e => simp [Action.registers] at ha

/-- The calls of the run of `modifyObjectIfNeeded` that follows a change of the
type of a node to a different label, in a state in which the registry yields the
handler object `h` for the recorded last label: the `unmix` of `h`, then, unless
it raises, the `mixin` read for the new label. -/
theorem stepCalls_of_change (toLowerCase : String → String) (s : State) (node : Node)
    (old value : String) (h : Handler) (hrec : s.lastLabel node = some old)
    (hg : s.MIMETYPE_HANDLERS.get old = .handler h) (hv : toLowerCase value ≠ old) :
    callsSince (s.setType node value)
        (modifyObjectIfNeeded toLowerCase (s.setType node value) node).1 =
      ⟨.unmix, old, h, node⟩ ::
        (if h.unmix.raises then []
          else (s.MIMETYPE_HANDLERS.get (toLowerCase value)).callOf .mixin
            (toLowerCase value) node) := by
  rw [callsSince_modifyObjectIfNeeded]
  unfold stepCalls
  rw [lastLabel_setType, typeOf_setType_self, hrec]
  have hne : ¬ (some old = some (toLowerCase value)) := by
    intro he
    exact hv (Option.some.inj he).symm
  rw [if_neg hne]
  have hreg : (s.setType node value).MIMETYPE_HANDLERS = s.MIMETYPE_HANDLERS := rfl
  simp only [propertyKey, hreg, hg, Value.callOf, Value.raises, Member.select,
    List.singleton_append]

/-- C21 (amended). The `unmix` that runs on a label change is the one registered
at the time of the change. If the pair `(m1, u1)` has been mixed in on a monitored
node under the label `label`, and a pair `(m2, u2)` is then registered for that
label in any letter case, by `registerOipfObject` or `registerNonFactoryObject`,
where `u2` is another function than `u1` and the `mixin` that the change then
calls for the new label, if it calls one, is neither `u1` nor `u2`: the
registration makes no call on the node, and the run of `modifyObjectIfNeeded` that
follows the next change of its type to a different label calls `unmix` of the
pair `(m2, u2)` first and then at most the `mixin` read for the new label; it
calls the function `u2` exactly once and the function `u1` not at all. -/
theorem unmix_is_current_pair (toLowerCase : String → String) (s : State) (a : Action)
    (label mimeType value : String) (m1 u1 m2 u2 : Fn) (node : Node)
    (hmix : ⟨.mixin, toLowerCase label, ⟨m1, u1⟩, node⟩ ∈ s.calls)
    (hrec : s.lastLabel node = some (toLowerCase label))
    (hm : node ∈ s.MONITORING)
    (ha : a.registers = some (mimeType, ⟨m2, u2⟩))
    (hl : toLowerCase mimeType = toLowerCase label)
    (hv : toLowerCase value ≠ toLowerCase label)
    (h12 : u1 ≠ u2)
    (hnew : u2.raises = false → ∀ h : Handler,
      (a.apply toLowerCase s).MIMETYPE_HANDLERS.get (toLowerCase value) = .handler h →
      h.mixin ≠ u1 ∧ h.mixin ≠ u2) :
    ⟨.mixin, toLowerCase label, ⟨m1, u1⟩, node⟩ ∈ (a.apply toLowerCase s).calls ∧
      callsOn (a.apply toLowerCase s) node = callsOn s node ∧
      changeCalls toLowerCase (a.apply toLowerCase s) node value =
        ⟨.unmix, toLowerCase label, ⟨m2, u2⟩, node⟩ ::
          (if u2.raises then []
            else ((a.apply toLowerCase s).MIMETYPE_HANDLERS.get (toLowerCase value)).callOf
              .mixin (toLowerCase value) node) ∧
      callsOf u2 (changeCalls toLowerCase (a.apply toLowerCase s) node value) =
        [⟨.unmix, toLowerCase label, ⟨m2, u2⟩, node⟩] ∧
      callsOf u1 (changeCalls toLowerCase (a.apply toLowerCase s) node value) = [] := by
  obtain ⟨k1, k2, _⟩ := apply_registers_of_monitored toLowerCase s a mimeType ⟨m2, u2⟩ node ha hm
  have hg : (a.apply toLowerCase s).MIMETYPE_HANDLERS.get (toLowerCase label) =
      .handler ⟨m2, u2⟩ := by
    rw [apply_registers_handlers toLowerCase s a mimeType ⟨m2, u2⟩ ha, hl]
    exact Handlers.get_set_self _ _ _
  have hstep : changeCalls toLowerCase (a.apply toLowerCase s) node value = _ :=
    stepCalls_of_change toLowerCase (a.apply toLowerCase s) node
      (toLowerCase label) value ⟨m2, u2⟩ (k2.trans hrec) hg hv
  have hkept : ⟨.mixin, toLowerCase label, ⟨m1, u1⟩, node⟩ ∈ (a.apply toLowerCase s).calls := by
    have hon : (⟨.mixin, toLowerCase label, ⟨m1, u1⟩, node⟩ : Call) ∈ callsOn s node := by
      unfold callsOn
      exact List.mem_filter.mpr ⟨hmix, by simp⟩
    rw [← k1] at hon
    unfold callsOn at hon
    exact (List.mem_filter.mp hon).1
  have h21 : u2 ≠ u1 := fun e => h12 e.symm
  refine ⟨hkept, k1, hstep, ?_, ?_⟩
  · rw [hstep]
    cases hr : u2.raises
    · cases hn : (a.apply toLowerCase s).MIMETYPE_HANDLERS.get (toLowerCase value) with
      | handler h =>
        have := (hnew hr h hn).2
        simp [callsOf, Call.fn, Member.select, Value.callOf, List.filter, this]
      | undefined => simp [callsOf, Call.fn, Member.select, Value.callOf, List.filter]
      | foreign => simp [callsOf, Call.fn, Member.select, Value.callOf, List.filter]
    · simp [callsOf, Call.fn, Member.select, List.filter]
  · rw [hstep]
    cases hr : u2.raises
    · cases hn : (a.apply toLowerCase s).MIMETYPE_HANDLERS.get (toLowerCase value) with
      | handler h =>
        have := (hnew hr h hn).1
        simp [callsOf, Call.fn, Member.select, Value.callOf, List.filter, this, h21]
      | undefined => simp [callsOf, Call.fn, Member.select, Value.callOf, List.filter, h21]
      | foreign => simp [callsOf, Call.fn, Member.select, Value.callOf, List.filter, h21]
    · simp [callsOf, Call.fn, Member.select, List.filter, h21]

/-- Witness for C21 (amended): in `stMixedXY` node `0` is mixed in under `a/b` with
the pair `(fnA, fnB)` and `x/y` is registered as `(fnA, fnB)` too; the pair
`(fnC, fnD)` is registered for `A/B` and the type of the node is then set to
`x/y`. -/
theorem unmix_is_current_pair_witness :
    callsOn stMixedXY 0 = [⟨.mixin, "a/b", ⟨fnA, fnB⟩, 0⟩] ∧
      changeCalls asciiLower
          ((Action.registerNonFactoryObject "A/B" fnC fnD).apply asciiLower stMixedXY) 0
          "x/y" =
        [⟨.unmix, "a/b", ⟨fnC, fnD⟩, 0⟩, ⟨.mixin, "x/y", ⟨fnA, fnB⟩, 0⟩] ∧
      callsOf fnD (changeCalls asciiLower
          ((Action.registerNonFactoryObject "A/B" fnC fnD).apply asciiLower stMixedXY) 0
          "x/y") =
        [⟨.unmix, "a/b", ⟨fnC, fnD⟩, 0⟩] ∧
      callsOf fnB (changeCalls asciiLower
          ((Action.registerNonFactoryObject "A/B" fnC fnD).apply asciiLower stMixedXY) 0
          "x/y") = [] :=
  ⟨by decide, by decide,
    (unmix_is_current_pair asciiLower stMixedXY (.registerNonFactoryObject "A/B" fnC fnD)
      "a/b" "A/B" "x/y" fnA fnB fnC fnD 0 (by decide) (by decide) (by decide) rfl (by decide)
      (by decide) (by decide)
      (fun _ h hg => by
        have hu : ((Action.registerNonFactoryObject "A/B" fnC fnD).apply asciiLower
            stMixedXY).MIMETYPE_HANDLERS.get (asciiLower "x/y") = .handler ⟨fnA, fnB⟩ := by
          decide
        rw [hu] at hg
        cases hg
        decide)).2.2.2⟩

/-- C21 as stated fails. In `stMixedSharedOld` the pair `(fnA, fnB)` is mixed in on
node `0` under `a/b` and `x/y` is registered as `(fnB, fnD)`; after `(fnC, fnD)` is
registered for `A/B`, the change of the node to `x/y` calls `fnB`, the `unmix` of
the pair that was mixed in, as the `mixin` of the new label. In `stMixedSharedNew`,
where `x/y` is registered as `(fnD, fnB)`, the same change calls `fnD` twice. And
when the pair registered second has the `unmix` of the first, `(fnC, fnB)`, the
change calls that function. -/
theorem unmix_is_current_pair_counterexample :
    (callsOn stMixedSharedOld 0 = [⟨.mixin, "a/b", ⟨fnA, fnB⟩, 0⟩] ∧
      stMixedSharedOld.lastLabel 0 = some "a/b" ∧ 0 ∈ stMixedSharedOld.MONITORING ∧
      changeCalls asciiLower
          ((Action.registerNonFactoryObject "A/B" fnC fnD).apply asciiLower stMixedSharedOld)
          0 "x/y" =
        [⟨.unmix, "a/b", ⟨fnC, fnD⟩, 0⟩, ⟨.mixin, "x/y", ⟨fnB, fnD⟩, 0⟩] ∧
      callsOf fnB (changeCalls asciiLower
          ((Action.registerNonFactoryObject "A/B" fnC fnD).apply asciiLower stMixedSharedOld)
          0 "x/y") ≠ []) ∧
    (callsOn stMixedSharedNew 0 = [⟨.mixin, "a/b", ⟨fnA, fnB⟩, 0⟩] ∧
      (callsOf fnD (changeCalls asciiLower
          ((Action.registerNonFactoryObject "A/B" fnC fnD).apply asciiLower stMixedSharedNew)
          0 "x/y")).length = 2) ∧
    callsOf fnB (changeCalls asciiLower
        ((Action.registerNonFactoryObject "A/B" fnC fnB).apply asciiLower stMixedAB) 0
        "x/y") ≠ [] := by
  decide

/-- The invariant `Tracked` reads the two trackers, the observed targets and the
log of handler calls only. -/
theorem tracked_of_fields (s s2 : State) (h1 : s2.MONITORING = s.MONITORING)
    (h2 : s2.observed = s.observed)
    (h3 : s2.CURRENT_MIXIN_MIMETYPE = s.CURRENT_MIXIN_MIMETYPE) (h4 : s2.calls = s.calls)
    (h : Tracked s) : Tracked s2 := by
  unfold Tracked State.lastLabel at *
  rw [h1, h2, h3, h4]
  exact h

/-- Right after load nothing is recorded, monitored, observed or called. -/
theorem tracked_loaded (d : Document) : Tracked (State.loaded d) := by
  refine ⟨fun n => Iff.rfl, fun n hn => ?_, fun c hc => ?_⟩
  · exact absurd rfl hn
  · cases hc

/-- A run of `modifyObjectIfNeeded` on a monitored node keeps the invariant. -/
theorem tracked_modifyObjectIfNeeded (toLowerCase : String → String) (s : State)
    (elem : Node) (h : Tracked s) (hm : elem ∈ s.MONITORING) :
    Tracked (modifyObjectIfNeeded toLowerCase s elem).1 := by
  obtain ⟨t1, t2, t3⟩ := h
  obtain ⟨_, f2, f3, _, _⟩ := modifyObjectIfNeeded_fields toLowerCase s elem
  refine ⟨?_, ?_, ?_⟩
  · intro n
    rw [f2, f3]
    exact t1 n
  · intro n hn
    rw [f2]
    by_cases hne : n = elem
    · rw [hne]
      exact hm
    · rw [modifyObjectIfNeeded_lastLabel_of_ne toLowerCase s elem n hne] at hn
      exact t2 n hn
  · intro c hc
    rw [f2]
    rw [modifyObjectIfNeeded_calls, List.mem_append] at hc
    rcases hc with hc | hc
    · exact t3 c hc
    · rw [stepCalls_elem toLowerCase s elem c hc]
      exact hm

/-- A run of `setupMonitorOnObject` keeps the invariant: the node is marked and
handed to the observer before `modifyObjectIfNeeded` runs on it. -/
theorem tracked_setupMonitorOnObject (toLowerCase : String → String) (s : State)
    (elem : Node) (h : Tracked s) : Tracked (setupMonitorOnObject toLowerCase s elem).1 := by
  by_cases hm : elem ∈ s.MONITORING
  · rw [setupMonitorOnObject_of_monitored toLowerCase s elem hm]
    exact h
  · rw [setupMonitorOnObject_of_not_monitored toLowerCase s elem hm]
    apply tracked_modifyObjectIfNeeded
    · obtain ⟨t1, t2, t3⟩ := h
      refine ⟨?_, ?_, ?_⟩
      · intro n
        show n ∈ s.observed ++ [elem] ↔ n ∈ elem :: s.MONITORING
        simp only [List.mem_append, List.mem_cons, List.not_mem_nil, or_false, t1 n]
        exact Or.comm
      · intro n hn
        exact List.mem_cons_of_mem _ (t2 n hn)
      · intro c hc
        exact List.mem_cons_of_mem _ (t3 c hc)
    · exact List.mem_cons_self _ _

/-- The sweep keeps the invariant. -/
theorem tracked_scanLoop (toLowerCase : String → String) (elems : List Node) (s : State)
    (h : Tracked s) : Tracked (scanLoop toLowerCase elems s).1 := by
  induction elems generalizing s with
  | nil => exact h
  | cons e rest ih =>
    unfold scanLoop
    have h1 := tracked_setupMonitorOnObject toLowerCase s e h
    rcases hr : setupMonitorOnObject toLowerCase s e with ⟨s1, _ | x⟩
    · rw [hr] at h1
      exact ih s1 h1
    · rw [hr] at h1
      exact h1

/-- The inner loop of the document observer keeps the invariant. -/
theorem tracked_addedNodesLoop (toLowerCase : String → String) (nodes : List AddedNode)
    (s : State) (h : Tracked s) : Tracked (addedNodesLoop toLowerCase nodes s).1 := by
  induction nodes generalizing s with
  | nil => exact h
  | cons n rest ih =>
    unfold addedNodesLoop
    by_cases ht : isObjectTag toLowerCase n.tagName = true
    · rw [if_pos ht]
      have h1 := tracked_setupMonitorOnObject toLowerCase s n.node h
      rcases hr : setupMonitorOnObject toLowerCase s n.node with ⟨s1, _ | x⟩
      · rw [hr] at h1
        exact ih s1 h1
      · rw [hr] at h1
        exact h1
    · rw [if_neg ht]
      exact ih s h

/-- The callback of the document observer keeps the invariant. -/
theorem tracked_documentObserver (toLowerCase : String → String)
    (mutations : List MutationRecord) (s : State) (h : Tracked s) :
    Tracked (documentObserver toLowerCase mutations s).1 := by
  induction mutations generalizing s with
  | nil => exact h
  | cons r rest ih =>
    unfold documentObserver
    have h1 := tracked_addedNodesLoop toLowerCase r.addedNodes s h
    rcases hr : addedNodesLoop toLowerCase r.addedNodes s with ⟨s1, _ | x⟩
    · rw [hr] at h1
      exact ih s1 h1
    · rw [hr] at h1
      exact h1

/-- The callback of the type observer keeps the invariant when every target of
its records is an observed node. -/
theorem tracked_objectObserver (toLowerCase : String → String)
    (mutations : List (String × Node)) (s : State) (h : Tracked s)
    (ho : ∀ r ∈ mutations, r.2 ∈ s.observed) :
    Tracked (objectObserver toLowerCase mutations s).1 := by
  induction mutations generalizing s with
  | nil => exact h
  | cons r rest ih =>
    obtain ⟨attributeName, target⟩ := r
    unfold objectObserver
    have hrest : ∀ r ∈ rest, r.2 ∈ s.observed := fun r hr => ho r (List.mem_cons_of_mem _ hr)
    by_cases ha : attributeName = "type"
    · rw [if_pos ha]
      have htarget : target ∈ s.MONITORING := (h.1 target).mp (ho _ (List.mem_cons_self _ _))
      have h1 := tracked_modifyObjectIfNeeded toLowerCase s target h htarget
      have hobs := (modifyObjectIfNeeded_fields toLowerCase s target).2.2.1
      rcases hr : modifyObjectIfNeeded toLowerCase s target with ⟨s1, _ | x⟩
      · rw [hr] at h1 hobs
        refine ih s1 h1 ?_
        intro r hr2
        have := hrest r hr2
        simp only at hobs
        rw [hobs]
        exact this
      · rw [hr] at h1
        exact h1
    · rw [if_neg ha]
      exact ih s h hrest

/-- The wrapped `createElement` keeps the invariant. -/
theorem tracked_createElement (toLowerCase : String → String) (validName : String → Bool)
    (s : State) (arguments : List JSValue) (h : Tracked s) :
    Tracked (createElement toLowerCase validName s arguments).1 := by
  unfold createElement existing_createElement_apply
  cases arguments with
  | nil => exact h
  | cons tagname rest =>
    have h1 : Tracked
        { s with document := { s.document with nextNode := s.document.nextNode + 1 } } :=
      tracked_of_fields s _ rfl rfl rfl rfl h
    by_cases hv : validName tagname.toString = true
    · simp only [hv, if_true, List.head?_cons]
      cases tagname with
      | string t =>
        simp only
        by_cases ho : toLowerCase t = "object"
        · rw [if_pos ho]
          have h2 := tracked_setupMonitorOnObject toLowerCase _ s.document.nextNode h1
          rcases hr : setupMonitorOnObject toLowerCase
            { s with document := { s.document with nextNode := s.document.nextNode + 1 } }
            s.document.nextNode with ⟨s2, _ | x⟩
          · rw [hr] at h2
            exact h2
          · rw [hr] at h2
            exact h2
        · rw [if_neg ho]
          exact h1
      | nonString a => exact h1
    · simp only [hv, Bool.false_eq_true, if_false]
      exact h

/-- The factory function installed by `registerOipfObject` keeps the invariant:
the element it labels was monitored by `createElement`. -/
theorem tracked_createdFactory (toLowerCase : String → String) (s : State)
    (mimeType : String) (h : Tracked s) :
    Tracked (createdFactory toLowerCase s mimeType).1 := by
  unfold createdFactory createObjectElement existing_createElement
  have h1 : Tracked
      { s with document := { s.document with nextNode := s.document.nextNode + 1 } } :=
    tracked_of_fields s _ rfl rfl rfl rfl h
  have h2 := tracked_setupMonitorOnObject toLowerCase _ s.document.nextNode h1
  have hmon := setupMonitorOnObject_monitored toLowerCase
    { s with document := { s.document with nextNode := s.document.nextNode + 1 } }
    s.document.nextNode
  simp only
  rcases hr : setupMonitorOnObject toLowerCase
    { s with document := { s.document with nextNode := s.document.nextNode + 1 } }
    s.document.nextNode with ⟨s2, _ | x⟩
  · rw [hr] at h2 hmon
    simp only at h2 hmon ⊢
    have h3 : Tracked (s2.setType s.document.nextNode mimeType) :=
      tracked_of_fields s2 _ rfl rfl rfl rfl h2
    have h4 := tracked_modifyObjectIfNeeded toLowerCase
      (s2.setType s.document.nextNode mimeType) s.document.nextNode h3 hmon
    rcases hq : modifyObjectIfNeeded toLowerCase (s2.setType s.document.nextNode mimeType)
      s.document.nextNode with ⟨s3, _ | x⟩
    · rw [hq] at h4
      exact h4
    · rw [hq] at h4
      exact h4
  · rw [hr] at h2
    exact h2

/-- A call of a function stored in `window.oipfObjectFactory` keeps the
invariant. -/
theorem tracked_factory_call (toLowerCase : String → String) (s : State) (f : Factory)
    (h : Tracked s) : Tracked (f.call toLowerCase s).1 := by
  cases f with
  | create mimeType =>
    simp only [Factory.call]
    have h1 := tracked_createdFactory toLowerCase s mimeType h
    rcases hr : createdFactory toLowerCase s mimeType with ⟨s1, x | n⟩
    · rw [hr] at h1
      exact h1
    · rw [hr] at h1
      exact h1
  | supplied fn =>
    simp only [Factory.call]
    cases fn.call with
    | none => exact tracked_of_fields s _ rfl rfl rfl rfl h
    | some x => exact tracked_of_fields s _ rfl rfl rfl rfl h

/-- Either registration function keeps the invariant. -/
theorem tracked_register (toLowerCase : String → String) (s : State)
    (mimeType methodName : String) (mixinFunc unmixFunc : Fn) (h : Tracked s) :
    Tracked (registerOipfObject toLowerCase s mimeType methodName mixinFunc unmixFunc).1 ∧
      Tracked (registerNonFactoryObject toLowerCase s mimeType mixinFunc unmixFunc).1 := by
  constructor
  · unfold registerOipfObject scanForAndModifyObjects
    exact tracked_scanLoop toLowerCase _ _ (tracked_of_fields s _ rfl rfl rfl rfl h)
  · unfold registerNonFactoryObject scanForAndModifyObjects
    exact tracked_scanLoop toLowerCase _ _ (tracked_of_fields s _ rfl rfl rfl rfl h)

/-- Every event keeps the invariant. -/
theorem tracked_run (toLowerCase : String → String) (validName : String → Bool)
    (existing_isObjectSupported : Option (String → Bool)) (s : State) (e : Event)
    (h : Tracked s) :
    Tracked (e.run toLowerCase validName existing_isObjectSupported s) := by
  cases e with
  | createElement arguments => exact tracked_createElement toLowerCase validName s arguments h
  | nodesAdded mutations => exact tracked_documentObserver toLowerCase mutations s h
  | typeChanged mutations =>
    apply tracked_objectObserver toLowerCase _ s h
    intro r hr
    simpa using (List.mem_filter.mp hr).2
  | readyStateChange readyState =>
    simp only [Event.run, onReadyStateChange]
    split
    · exact tracked_scanLoop toLowerCase _ s h
    · exact h
  | registerOipfObject mimeType methodName mixinFunc unmixFunc =>
    exact (tracked_register toLowerCase s mimeType methodName mixinFunc unmixFunc h).1
  | registerNonFactoryObject mimeType mixinFunc unmixFunc =>
    exact (tracked_register toLowerCase s mimeType "" mixinFunc unmixFunc h).2
  | registerNonVisualObject methodName methodFunc =>
    exact tracked_of_fields s _ rfl rfl rfl rfl h
  | callFactory methodName =>
    simp only [Event.run, callFactory]
    cases s.oipfObjectFactory.lookup methodName with
    | none => exact h
    | some f => exact tracked_factory_call toLowerCase s f h
  | isObjectSupported mimeType =>
    simp only [Event.run, callIsObjectSupported]
    cases s.oipfObjectFactory.lookup "isObjectSupported" with
    | none => exact h
    | some f =>
      have h1 := tracked_factory_call toLowerCase s f h
      simp only
      rcases hr : f.call toLowerCase s with ⟨s1, x | r⟩
      · rw [hr] at h1
        exact h1
      · rw [hr] at h1
        exact h1
  | setType elem value => exact tracked_of_fields s _ rfl rfl rfl rfl h
  | setObjects objects => exact tracked_of_fields s _ rfl rfl rfl rfl h

/-- Every sequence of events keeps the invariant. -/
theorem tracked_runEvents (toLowerCase : String → String) (validName : String → Bool)
    (existing_isObjectSupported : Option (String → Bool)) (s : State) (events : List Event)
    (h : Tracked s) :
    Tracked (runEvents toLowerCase validName existing_isObjectSupported s events) := by
  induction events generalizing s with
  | nil => exact h
  | cons e rest ih =>
    exact ih _ (tracked_run toLowerCase validName existing_isObjectSupported s e h)

/-- The host hands a change of the `type` of an observed node to the callback of
`objectObserver`, which runs `modifyObjectIfNeeded` on the node. -/
theorem run_typeChanged_of_observed (toLowerCase : String → String)
    (validName : String → Bool) (existing_isObjectSupported : Option (String → Bool))
    (s : State) (node : Node) (h : node ∈ s.observed) :
    (Event.typeChanged [("type", node)]).run toLowerCase validName
        existing_isObjectSupported s =
      (modifyObjectIfNeeded toLowerCase s node).1 := by
  simp only [Event.run, List.filter, h, decide_True, objectObserver, if_true]
  rcases modifyObjectIfNeeded toLowerCase s node with ⟨s1, _ | x⟩ <;> rfl

/-- C22. In every state reached from the loaded script by any sequence of calls
of `createElement`, batches of the document observer and of the type observer,
sweeps, registrations, calls of factory functions and of `isObjectSupported`,
writes of `type` and changes of the document: every node with a recorded last
label, and every node a handler was called on, is marked monitored and was handed
to `objectObserver.observe`, so the next change of its `type` reaches
`modifyObjectIfNeeded`. -/
theorem recorded_is_monitored (toLowerCase : String → String) (validName : String → Bool)
    (existing_isObjectSupported : Option (String → Bool)) (d : Document)
    (events : List Event) :
    (∀ node : Node,
      (runEvents toLowerCase validName existing_isObjectSupported (State.loaded d)
          events).lastLabel node ≠ none →
        node ∈ (runEvents toLowerCase validName existing_isObjectSupported (State.loaded d)
          events).MONITORING ∧
        node ∈ (runEvents toLowerCase validName existing_isObjectSupported (State.loaded d)
          events).observed ∧
        (Event.typeChanged [("type", node)]).run toLowerCase validName
            existing_isObjectSupported
            (runEvents toLowerCase validName existing_isObjectSupported (State.loaded d)
              events) =
          (modifyObjectIfNeeded toLowerCase
            (runEvents toLowerCase validName existing_isObjectSupported (State.loaded d)
              events) node).1) ∧
      ∀ c ∈ (runEvents toLowerCase validName existing_isObjectSupported (State.loaded d)
          events).calls,
        c.elem ∈ (runEvents toLowerCase validName existing_isObjectSupported (State.loaded d)
          events).MONITORING ∧
        c.elem ∈ (runEvents toLowerCase validName existing_isObjectSupported (State.loaded d)
          events).observed := by
  obtain ⟨t1, t2, t3⟩ := tracked_runEvents toLowerCase validName existing_isObjectSupported
    (State.loaded d) events (tracked_loaded d)
  constructor
  · intro node hn
    have hm := t2 node hn
    have ho := (t1 node).mpr hm
    exact ⟨hm, ho, run_typeChanged_of_observed toLowerCase validName
      existing_isObjectSupported _ node ho⟩
  · intro c hc
    exact ⟨t3 c hc, (t1 c.elem).mpr (t3 c hc)⟩

/-- C22 on the run `eventsAB`: node `1`, made and mixed in by the factory and then
relabelled, has a recorded last label, and it is monitored and observed. -/
theorem recorded_is_monitored_witness :
    (runEvents asciiLower nonEmptyName none (State.loaded docAB) eventsAB).lastLabel 1 =
        some "x/y" ∧
      (runEvents asciiLower nonEmptyName none (State.loaded docAB) eventsAB).calls =
        [⟨.mixin, "a/b", ⟨fnA, fnB⟩, 0⟩, ⟨.mixin, "a/b", ⟨fnA, fnB⟩, 1⟩,
          ⟨.unmix, "a/b", ⟨fnA, fnB⟩, 1⟩] ∧
      1 ∈ (runEvents asciiLower nonEmptyName none (State.loaded docAB) eventsAB).MONITORING ∧
      1 ∈ (runEvents asciiLower nonEmptyName none (State.loaded docAB) eventsAB).observed :=
  ⟨by decide, by decide,
    ((recorded_is_monitored asciiLower nonEmptyName none docAB eventsAB).1 1 (by decide)).1,
    ((recorded_is_monitored asciiLower nonEmptyName none docAB eventsAB).1 1
      (by decide)).2.1⟩

/-- The first observation of a node and its next change of label. When
`setupMonitorOnObject` runs on a node that is not monitored and has no recorded
last label, in a state where the registry yields nothing for the key
`"undefined"` and the handler object `p` for the lower-cased type of the node: the
only call is the `mixin` of `p`, the label is recorded, and the run of
`modifyObjectIfNeeded` that follows the next change of the type to a different
label calls the `unmix` of `p` first and then at most the `mixin` read for the new
label. -/
theorem setupMonitorOnObject_first (toLowerCase : String → String) (s : State)
    (elem : Node) (p : Handler) (hm : elem ∉ s.MONITORING) (hl : s.lastLabel elem = none)
    (hu : s.MIMETYPE_HANDLERS.get "undefined" = .undefined)
    (hg : s.MIMETYPE_HANDLERS.get (toLowerCase (s.typeOf elem)) = .handler p) :
    callsSince s (setupMonitorOnObject toLowerCase s elem).1 =
        [⟨.mixin, toLowerCase (s.typeOf elem), p, elem⟩] ∧
      (setupMonitorOnObject toLowerCase s elem).1.lastLabel elem =
        some (toLowerCase (s.typeOf elem)) ∧
      ∀ value : String, toLowerCase value ≠ toLowerCase (s.typeOf elem) →
        changeCalls toLowerCase (setupMonitorOnObject toLowerCase s elem).1 elem value =
          ⟨.unmix, toLowerCase (s.typeOf elem), p, elem⟩ ::
            (if p.unmix.raises then []
              else (s.MIMETYPE_HANDLERS.get (toLowerCase value)).callOf .mixin
                (toLowerCase value) elem) := by
  have hreg := setupMonitorOnObject_handlers toLowerCase s elem
  have hrun := setupMonitorOnObject_of_not_monitored toLowerCase s elem hm
  have hcalls : (setupMonitorOnObject toLowerCase s elem).1.calls =
      s.calls ++ [⟨.mixin, toLowerCase (s.typeOf elem), p, elem⟩] := by
    have hl2 : State.lastLabel
        { s with MONITORING := elem :: s.MONITORING, observed := s.observed ++ [elem] }
        elem = none := hl
    rw [hrun, modifyObjectIfNeeded_unrecorded toLowerCase _ elem hl2 hu]
    show s.calls ++ (s.MIMETYPE_HANDLERS.get (toLowerCase (s.typeOf elem))).callOf .mixin
      (toLowerCase (s.typeOf elem)) elem = _
    rw [hg]
    rfl
  have hlabel : (setupMonitorOnObject toLowerCase s elem).1.lastLabel elem =
      some (toLowerCase (s.typeOf elem)) := by
    rw [hrun]
    apply modifyObjectIfNeeded_lastLabel_of_returns
    intro _
    show (s.MIMETYPE_HANDLERS.get (propertyKey (s.lastLabel elem))).raises .unmix = false
    rw [hl]
    show (s.MIMETYPE_HANDLERS.get "undefined").raises .unmix = false
    rw [hu]
    rfl
  refine ⟨?_, hlabel, ?_⟩
  · unfold callsSince
    rw [hcalls]
    simp
  · intro value hv
    have := stepCalls_of_change toLowerCase (setupMonitorOnObject toLowerCase s elem).1 elem
      (toLowerCase (s.typeOf elem)) value p hlabel (by rw [hreg]; exact hg) hv
    unfold changeCalls
    rw [this, hreg]

/-- C10 (amended). Last registration wins, case-insensitively. After a pair `p1`
and, any operations `between` later, a pair `p2` are registered (by either
registration function) for labels that are equal up to letter case: (1) the
registry resolves every casing of the label to `p2`; (2) as long as the label
resolves to that, every handler call that `modifyObjectIfNeeded` makes for the
label, on any node, is a call of a member of `p2`; (3) the pairs registered under
every other normalized label are what they were before each of the two
registrations, and (4) unless the normalized label is `__proto__` so is every read
of another key; (5) a node that is first observed after the second registration
(not monitored, nothing recorded) with a type equal to the label up to letter
case, when nothing is read from the registry for the key `"undefined"`, has
exactly one call made on it by `setupMonitorOnObject`, the `mixin` of `p2`, and
the run that follows its next change to a different label calls the `unmix` of
`p2` first and then at most the `mixin` read for the new label; (6) when `p1`
shares no function with `p2`, none of these calls made for the label is a call of
a function of `p1`. -/
theorem last_registration_wins (toLowerCase : String → String) (s : State) (a1 a2 : Action)
    (between : List Action) (L1 L2 : String) (p1 p2 : Handler)
    (h1 : a1.registers = some (L1, p1)) (h2 : a2.registers = some (L2, p2))
    (hcase : toLowerCase L1 = toLowerCase L2) :
    (∀ L : String, toLowerCase L = toLowerCase L1 →
      (execute toLowerCase s (a1 :: between ++ [a2])).MIMETYPE_HANDLERS.get (toLowerCase L) =
        .handler p2) ∧
    (∀ (s3 : State) (elem : Node) (c : Call),
      s3.MIMETYPE_HANDLERS.get (toLowerCase L1) =
        (execute toLowerCase s (a1 :: between ++ [a2])).MIMETYPE_HANDLERS.get
          (toLowerCase L1) →
      c ∈ callsSince s3 (modifyObjectIfNeeded toLowerCase s3 elem).1 →
      c.key = toLowerCase L1 → c.handler = p2) ∧
    (∀ k : String, k ≠ toLowerCase L1 →
      (a1.apply toLowerCase s).MIMETYPE_HANDLERS.registered k =
          s.MIMETYPE_HANDLERS.registered k ∧
        (execute toLowerCase s (a1 :: between ++ [a2])).MIMETYPE_HANDLERS.registered k =
          (execute toLowerCase s (a1 :: between)).MIMETYPE_HANDLERS.registered k) ∧
    (toLowerCase L1 ≠ "__proto__" → ∀ k : String, k ≠ toLowerCase L1 →
      (a1.apply toLowerCase s).MIMETYPE_HANDLERS.get k = s.MIMETYPE_HANDLERS.get k ∧
        (execute toLowerCase s (a1 :: between ++ [a2])).MIMETYPE_HANDLERS.get k =
          (execute toLowerCase s (a1 :: between)).MIMETYPE_HANDLERS.get k) ∧
    (∀ elem : Node,
      elem ∉ (execute toLowerCase s (a1 :: between ++ [a2])).MONITORING →
      (execute toLowerCase s (a1 :: between ++ [a2])).lastLabel elem = none →
      toLowerCase ((execute toLowerCase s (a1 :: between ++ [a2])).typeOf elem) =
        toLowerCase L1 →
      (execute toLowerCase s (a1 :: between ++ [a2])).MIMETYPE_HANDLERS.get "undefined" =
        .undefined →
      (callsSince (execute toLowerCase s (a1 :: between ++ [a2]))
          (setupMonitorOnObject toLowerCase (execute toLowerCase s (a1 :: between ++ [a2]))
            elem).1 = [⟨.mixin, toLowerCase L1, p2, elem⟩] ∧
        (∀ value : String, toLowerCase value ≠ toLowerCase L1 →
          changeCalls toLowerCase
              (setupMonitorOnObject toLowerCase
                (execute toLowerCase s (a1 :: between ++ [a2])) elem).1 elem value =
            ⟨.unmix, toLowerCase L1, p2, elem⟩ ::
              (if p2.unmix.raises then []
                else ((execute toLowerCase s (a1 :: between ++ [a2])).MIMETYPE_HANDLERS.get
                  (toLowerCase value)).callOf .mixin (toLowerCase value) elem)) ∧
        (p1.mixin ≠ p2.mixin → p1.mixin ≠ p2.unmix → p1.unmix ≠ p2.mixin →
          p1.unmix ≠ p2.unmix →
          (∀ c ∈ callsSince (execute toLowerCase s (a1 :: between ++ [a2]))
              (setupMonitorOnObject toLowerCase
                (execute toLowerCase s (a1 :: between ++ [a2])) elem).1,
            c.fn ≠ p1.mixin ∧ c.fn ≠ p1.unmix) ∧
          ∀ value : String, toLowerCase value ≠ toLowerCase L1 →
            ∀ c ∈ changeCalls toLowerCase
                (setupMonitorOnObject toLowerCase
                  (execute toLowerCase s (a1 :: between ++ [a2])) elem).1 elem value,
              c.key = toLowerCase L1 → c.fn ≠ p1.mixin ∧ c.fn ≠ p1.unmix))) := by
  have e1 := apply_registers_handlers toLowerCase s a1 L1 p1 h1
  have e2 := apply_registers_handlers toLowerCase (execute toLowerCase s (a1 :: between)) a2
    L2 p2 h2
  have e3 : (execute toLowerCase s (a1 :: between ++ [a2])).MIMETYPE_HANDLERS =
      (execute toLowerCase s (a1 :: between)).MIMETYPE_HANDLERS.set (toLowerCase L1) p2 := by
    rw [execute_append, hcase]
    exact e2
  have hget : (execute toLowerCase s (a1 :: between ++ [a2])).MIMETYPE_HANDLERS.get
      (toLowerCase L1) = .handler p2 := by
    rw [e3]
    exact Handlers.get_set_self _ _ _
  refine ⟨?_, ?_, ?_, ?_, ?_⟩
  · intro L hL
    rw [hL]
    exact hget
  · intro s3 elem c hs hc hk
    rw [callsSince_modifyObjectIfNeeded] at hc
    have := stepCalls_handler toLowerCase s3 elem c hc
    rw [hk, hs, hget] at this
    simp only [Value.handler.injEq] at this
    exact this.symm
  · intro k hk
    rw [e3, e1]
    exact ⟨Handlers.registered_set_of_ne _ _ _ _ hk, Handlers.registered_set_of_ne _ _ _ _ hk⟩
  · intro hp k hk
    rw [e3, e1]
    exact ⟨Handlers.get_set_of_ne _ _ _ _ hp hk, Handlers.get_set_of_ne _ _ _ _ hp hk⟩
  · intro elem hm hl ht hu
    generalize execute toLowerCase s (a1 :: between ++ [a2]) = s2 at hget hm hl ht hu ⊢
    obtain ⟨f1, _, f3⟩ := setupMonitorOnObject_first toLowerCase s2 elem p2 hm hl hu
      (by rw [ht]; exact hget)
    rw [ht] at f1 f3
    refine ⟨f1, f3, ?_⟩
    intro n1 n2 n3 n4
    constructor
    · intro c hc
      rw [f1, List.mem_singleton] at hc
      rw [hc]
      exact ⟨fun e => n1 e.symm, fun e => n3 e.symm⟩
    · intro value hv c hc hk
      rw [f3 value hv] at hc
      rcases List.mem_cons.mp hc with hc | hc
      · rw [hc]
        exact ⟨fun e => n2 e.symm, fun e => n4 e.symm⟩
      · exfalso
        split at hc
        · cases hc
        · cases hg : s2.MIMETYPE_HANDLERS.get (toLowerCase value) with
          | handler h =>
            rw [hg] at hc
            simp only [Value.callOf, List.mem_singleton] at hc
            rw [hc] at hk
            exact hv hk
          | undefined =>
            rw [hg] at hc
            cases hc
          | foreign =>
            rw [hg] at hc
            cases hc

/-- Witness for C10 (amended): `a/b` is registered with a factory and then `A/B`
without one, while node `0`, typed `a/b`, is outside the document; the node is
then observed for the first time and later changes to `x/y`. -/
theorem last_registration_wins_witness :
    (execute asciiLower (State.loaded docLoose)
        (.registerOipfObject "a/b" "createAB" fnA fnB :: [] ++
          [.registerNonFactoryObject "A/B" fnC fnD])).MIMETYPE_HANDLERS.get "a/b" =
      .handler ⟨fnC, fnD⟩ ∧
    callsSince
        (execute asciiLower (State.loaded docLoose)
          (.registerOipfObject "a/b" "createAB" fnA fnB :: [] ++
            [.registerNonFactoryObject "A/B" fnC fnD]))
        (setupMonitorOnObject asciiLower
          (execute asciiLower (State.loaded docLoose)
            (.registerOipfObject "a/b" "createAB" fnA fnB :: [] ++
              [.registerNonFactoryObject "A/B" fnC fnD])) 0).1 =
      [⟨.mixin, "a/b", ⟨fnC, fnD⟩, 0⟩] ∧
    changeCalls asciiLower
        (setupMonitorOnObject asciiLower
          (execute asciiLower (State.loaded docLoose)
            (.registerOipfObject "a/b" "createAB" fnA fnB :: [] ++
              [.registerNonFactoryObject "A/B" fnC fnD])) 0).1 0 "x/y" =
      [⟨.unmix, "a/b", ⟨fnC, fnD⟩, 0⟩] :=
  ⟨(last_registration_wins asciiLower (State.loaded docLoose)
      (.registerOipfObject "a/b" "createAB" fnA fnB)
      (.registerNonFactoryObject "A/B" fnC fnD) [] "a/b" "A/B" ⟨fnA, fnB⟩ ⟨fnC, fnD⟩ rfl rfl
      (by decide)).1 "a/b" rfl,
    ((last_registration_wins asciiLower (State.loaded docLoose)
      (.registerOipfObject "a/b" "createAB" fnA fnB)
      (.registerNonFactoryObject "A/B" fnC fnD) [] "a/b" "A/B" ⟨fnA, fnB⟩ ⟨fnC, fnD⟩ rfl rfl
      (by decide)).2.2.2.2 0 (by decide) (by decide) (by decide) (by decide)).1,
    by decide⟩

/-- C10 as stated fails. When the same pair `(fnA, fnB)` is registered twice for
`a/b`, a node first observed after the second registration has the `mixin` of the
pair registered first called on it; so it has when the second pair, `(fnA, fnD)`,
shares the `mixin` of the first. And when the second pair, `(fnC, fnB)`, shares
the `unmix` of the first, the next change of the node to `x/y` calls that
`unmix`. -/
theorem last_registration_wins_counterexample :
    (0 ∉ (execute asciiLower (State.loaded docLoose) runSamePair).MONITORING ∧
      callsSince (execute asciiLower (State.loaded docLoose) runSamePair)
          (setupMonitorOnObject asciiLower
            (execute asciiLower (State.loaded docLoose) runSamePair) 0).1 =
        [⟨.mixin, "a/b", ⟨fnA, fnB⟩, 0⟩] ∧
      callsOf fnA (callsSince (execute asciiLower (State.loaded docLoose) runSamePair)
          (setupMonitorOnObject asciiLower
            (execute asciiLower (State.loaded docLoose) runSamePair) 0).1) ≠ []) ∧
    (0 ∉ (execute asciiLower (State.loaded docLoose) runSharedMixin).MONITORING ∧
      callsOf fnA (callsSince (execute asciiLower (State.loaded docLoose) runSharedMixin)
          (setupMonitorOnObject asciiLower
            (execute asciiLower (State.loaded docLoose) runSharedMixin) 0).1) ≠ []) ∧
    (0 ∉ (execute asciiLower (State.loaded docLoose) runSharedUnmix).MONITORING ∧
      changeCalls asciiLower
          (setupMonitorOnObject asciiLower
            (execute asciiLower (State.loaded docLoose) runSharedUnmix) 0).1 0 "x/y" =
        [⟨.unmix, "a/b", ⟨fnC, fnB⟩, 0⟩]) := by
  decide

end OipfPolyfill
